import Mathlib

/-! # webcamfx: the streaming-pipeline core (`sendrecv.go`, `nodes.go`)

A shallow embedding of the transport primitives and of the seven leaf node
shapes.  A node's `loop` is a sequential program that talks to its
surroundings only through channel operations and through the three user
callbacks, so a run is modelled as a function from

* the callback closures, as state-passing functions over a closure state `σ`,
* one script per channel, listing for every `select` executed on that channel
  what the runtime finds at the moment the `select` is resolved,
* the number of values the surroundings will take from the error channel,

to the trace of everything the goroutine did, together with a flag telling
whether the goroutine returned or is parked for ever in a channel operation.
-/

namespace Webcamfx

set_option maxRecDepth 100000

/-! ## Errors -/

/-- Error values of the program: the sentinels of `context`, `sendrecv.go` and
`graph.go`, errors made by `errors.New`, and `errors.Wrap(cause, msg)`. -/
inductive GoError where
  | Canceled
  | NotSent
  | ReceivedNothing
  | TeardownTimedOut
  | New (msg : String)
  | Wrap (cause : GoError) (msg : String)
  deriving DecidableEq, Repr

/-- Method `Error()`: the message of an error value. -/
def GoError.Error : GoError → String
  | .Canceled => "context canceled"
  | .NotSent => "value not sent"
  | .ReceivedNothing => "received nothing"
  | .TeardownTimedOut => "teardown timed out"
  | .New msg => msg
  | .Wrap cause msg => msg ++ ": " ++ cause.Error

/-- Function `errors.Is(err, target)`: `target` occurs in the `Wrap` chain of `err`. -/
def GoError.Is : GoError → GoError → Bool
  | .Wrap cause msg, target => (GoError.Wrap cause msg == target) || cause.Is target
  | e, target => e == target

/-- Go's interface type `error`: `none` is `nil`. -/
abbrev error := Option GoError

/-! ## Transport primitives (`sendrecv.go`) -/

/-- What a `select` with a `<-ctx.Done()` case and a send case finds when it is
resolved: whether the context is done, whether a receiver is ready on the
channel, and which case the runtime picks when both can proceed. -/
structure SendSel where
  ctxDone : Bool
  peer : Bool
  pickCtx : Bool
  deriving DecidableEq, Repr

/-- What a `select` with a `<-ctx.Done()` case and a receive case finds when it
is resolved; `peer` is the value a ready sender offers. -/
structure RecvSel (T : Type) where
  ctxDone : Bool
  peer : Option T
  pickCtx : Bool
  deriving DecidableEq, Repr

/-- The surroundings once a script is used up: nobody is ready on the channel
and the context is never cancelled. -/
def SendSel.idle : SendSel := ⟨false, false, false⟩

/-- The receive-side counterpart of `SendSel.idle`. -/
def RecvSel.idle {T : Type} : RecvSel T := ⟨false, none, false⟩

/-- Result of a send primitive: the returned error and the value handed to the channel. -/
structure SendResult (T : Type) where
  err : error
  delivered : Option T
  deriving DecidableEq, Repr

/-- `BlockingSend(ctx, sendChan, sendValue)`; `none`: the `select` never resolves. -/
def BlockingSend {T : Type} (c : SendSel) (sendValue : T) : Option (SendResult T) :=
  match c.ctxDone, c.peer with
  | true, true =>
    if c.pickCtx then some ⟨some .Canceled, none⟩ else some ⟨none, some sendValue⟩
  | true, false => some ⟨some .Canceled, none⟩
  | false, true => some ⟨none, some sendValue⟩
  | false, false => none

/-- `NonBlockingSend(ctx, sendChan, sendValue)`: the `default` case makes it total. -/
def NonBlockingSend {T : Type} (c : SendSel) (sendValue : T) : SendResult T :=
  match c.ctxDone, c.peer with
  | true, true =>
    if c.pickCtx then ⟨some .Canceled, none⟩ else ⟨none, some sendValue⟩
  | true, false => ⟨some .Canceled, none⟩
  | false, true => ⟨none, some sendValue⟩
  | false, false => ⟨some .NotSent, none⟩

/-- `BlockingRecv(ctx, recvChan)`; `default` is the zero value of `T`. -/
def BlockingRecv {T : Type} [Inhabited T] (c : RecvSel T) : Option (T × error) :=
  match c.ctxDone, c.peer with
  | true, some v => if c.pickCtx then some (default, some .Canceled) else some (v, none)
  | true, none => some (default, some .Canceled)
  | false, some v => some (v, none)
  | false, none => none

/-- `NonBlockingRecv(ctx, recvChan)`. -/
def NonBlockingRecv {T : Type} [Inhabited T] (c : RecvSel T) : T × error :=
  match c.ctxDone, c.peer with
  | true, some v => if c.pickCtx then (default, some .Canceled) else (v, none)
  | true, none => (default, some .Canceled)
  | false, some v => (v, none)
  | false, none => (default, some .ReceivedNothing)

/-! ## Traces -/

/-- One action of a node goroutine.  `A`, `B` are the element types of the
input channels, `O` and `S` those of the primary and of the side output
(preview or clone), `X` and `Y` the argument and result types of `step`.
For the channel operations the second component is what the primitive
returned, `none` when it never returned. -/
inductive Event (A B O S X Y : Type) where
  | setup (err : error)
  | teardown (err : error)
  | step (x : X) (y : Y) (err : error)
  | recvA (r : Option (A × error))
  | recvB (r : Option (B × error))
  | sendOut (v : O) (r : Option error)
  | sendSide (v : S) (r : Option error)
  | errSend (e : error) (done : Bool)
  deriving DecidableEq, Repr

/-- A run of a goroutine: what it did, and whether it returned. -/
structure Outcome (E : Type) where
  trace : List E
  returned : Bool
  deriving DecidableEq, Repr

/-- State of a `loop` when its `for` statement is left. -/
structure Exit (σ E : Type) where
  trace : List E
  returned : Bool
  errReads : Nat
  state : σ

section Lifecycle

variable {σ A B O S X Y : Type}

/-- Statement `n.errChan <- e; return` after the actions `pre`: the send on the
unbuffered error channel completes when a reader is left, else it parks. -/
def errSend (pre : List (Event A B O S X Y)) (e : error) (errReads : Nat) (s : σ) :
    Exit σ (Event A B O S X Y) :=
  match errReads with
  | 0 => ⟨pre ++ [.errSend e false], false, 0, s⟩
  | k + 1 => ⟨pre ++ [.errSend e true], true, k, s⟩

/-- A goroutine parked for ever in the channel operation recorded last in `pre`. -/
def parked (pre : List (Event A B O S X Y)) (errReads : Nat) (s : σ) :
    Exit σ (Event A B O S X Y) :=
  ⟨pre, false, errReads, s⟩

/-- Actions `pre` of one completed cycle followed by the rest of the `for` loop. -/
def Exit.after (pre : List (Event A B O S X Y)) (e : Exit σ (Event A B O S X Y)) :
    Exit σ (Event A B O S X Y) :=
  { e with trace := pre ++ e.trace }

/-- First block of every `loop`: `if n.setup != nil { err := n.setup(); if err != nil
{ n.errChan <- errors.Wrap(err, "setup error"); return } }`.  Left: the goroutine
is over.  Right: the trace so far and the closure state, the loop goes on. -/
def setupPhase (setup : Option (σ → error × σ)) (errReads : Nat) (s : σ) :
    Outcome (Event A B O S X Y) ⊕ (List (Event A B O S X Y) × σ) :=
  match setup with
  | none => .inr ([], s)
  | some f =>
    match f s with
    | (some err, _) =>
      .inl ⟨[.setup (some err), .errSend (some (.Wrap err "setup error")) (decide (0 < errReads))],
        decide (0 < errReads)⟩
    | (none, s1) => .inr ([.setup none], s1)

/-- The deferred function of every `loop`, run when the `for` statement has
returned: `if n.teardown != nil { err := n.teardown(); if err != nil
{ n.errChan <- errors.Wrap(err, "teardown error") } }`. -/
def deferred (teardown : Option (σ → error × σ)) (pre : List (Event A B O S X Y))
    (b : Exit σ (Event A B O S X Y)) : Outcome (Event A B O S X Y) :=
  if b.returned then
    match teardown with
    | none => ⟨pre ++ b.trace, true⟩
    | some g =>
      match g b.state with
      | (none, _) => ⟨pre ++ b.trace ++ [.teardown none], true⟩
      | (some err, _) =>
        ⟨pre ++ b.trace ++ [.teardown (some err),
            .errSend (some (.Wrap err "teardown error")) (decide (0 < b.errReads))],
          decide (0 < b.errReads)⟩
  else ⟨pre ++ b.trace, false⟩

/-- The frame shared by the seven `loop` methods: the setup block, the `defer`
statement, and the `for` statement `forStmt` run on the closure state left by
the setup block. -/
def lifecycle (setup teardown : Option (σ → error × σ)) (errReads : Nat) (s : σ)
    (forStmt : σ → Exit σ (Event A B O S X Y)) : Outcome (Event A B O S X Y) :=
  match setupPhase setup errReads s with
  | .inl o => o
  | .inr (pre, s1) => deferred teardown pre (forStmt s1)

end Lifecycle

/-! ## Converter and Transformer -/

/-- `ConverterNode[From, To]`: the callbacks; the channels are the scripts given to `loop`. -/
structure ConverterNode (σ From To : Type) where
  name : String
  setup : Option (σ → error × σ)
  teardown : Option (σ → error × σ)
  step : Option (σ → From → (To × error) × σ)

/-- Events of a Converter goroutine. -/
abbrev ConverterNode.Ev (From To : Type) := Event From Empty To Empty From To

/-- The `for` statement of `ConverterNode.loop`. -/
def ConverterNode.forLoop {σ From To : Type} [Inhabited From]
    (step : σ → From → (To × error) × σ) :
    List (RecvSel From) → List SendSel → Nat → σ → Exit σ (ConverterNode.Ev From To)
  | [], _, errReads, s => parked [.recvA none] errReads s
  | r :: inChan, outChan, errReads, s =>
    match BlockingRecv r with
    | none => parked [.recvA none] errReads s
    | some (v, some err) => errSend [.recvA (some (v, some err))] (some err) errReads s
    | some (v, none) =>
      match step s v with
      | ((v2, some err), s1) =>
        errSend [.recvA (some (v, none)), .step v v2 (some err)] (some err) errReads s1
      | ((v2, none), s1) =>
        match BlockingSend (outChan.headD .idle) v2 with
        | none =>
          parked [.recvA (some (v, none)), .step v v2 none, .sendOut v2 none] errReads s1
        | some ⟨some err, _⟩ =>
          errSend [.recvA (some (v, none)), .step v v2 none, .sendOut v2 (some (some err))]
            (some err) errReads s1
        | some ⟨none, _⟩ =>
          (ConverterNode.forLoop step inChan outChan.tail errReads s1).after
            [.recvA (some (v, none)), .step v v2 none, .sendOut v2 (some none)]

/-- `ConverterNode.loop`, for the step callback `step` that `Run` found set. -/
def ConverterNode.loop {σ From To : Type} [Inhabited From] (n : ConverterNode σ From To)
    (step : σ → From → (To × error) × σ)
    (inChan : List (RecvSel From)) (outChan : List SendSel) (errReads : Nat) (s : σ) :
    Outcome (ConverterNode.Ev From To) :=
  lifecycle n.setup n.teardown errReads s
    (fun s1 => ConverterNode.forLoop step inChan outChan errReads s1)

/-- `ConverterNode.Run`: `none` when no goroutine is started. -/
def ConverterNode.Run {σ From To : Type} [Inhabited From] (n : ConverterNode σ From To)
    (inChan : List (RecvSel From)) (outChan : List SendSel) (errReads : Nat) (s : σ) :
    Option (Outcome (ConverterNode.Ev From To)) :=
  match n.step with
  | none => none
  | some step => some (n.loop step inChan outChan errReads s)

/-! ## Transformer -/

/-- `TransformerNode[T]`. -/
structure TransformerNode (σ T : Type) where
  name : String
  setup : Option (σ → error × σ)
  teardown : Option (σ → error × σ)
  step : Option (σ → T → (T × error) × σ)

/-- Events of a Transformer goroutine. -/
abbrev TransformerNode.Ev (T : Type) := Event T Empty T Empty T T

/-- The `for` statement of `TransformerNode.loop`. -/
def TransformerNode.forLoop {σ T : Type} [Inhabited T] (step : σ → T → (T × error) × σ) :
    List (RecvSel T) → List SendSel → Nat → σ → Exit σ (TransformerNode.Ev T)
  | [], _, errReads, s => parked [.recvA none] errReads s
  | r :: inChan, outChan, errReads, s =>
    match BlockingRecv r with
    | none => parked [.recvA none] errReads s
    | some (v, some err) => errSend [.recvA (some (v, some err))] (some err) errReads s
    | some (v, none) =>
      match step s v with
      | ((v2, some err), s1) =>
        errSend [.recvA (some (v, none)), .step v v2 (some err)] (some err) errReads s1
      | ((v2, none), s1) =>
        match BlockingSend (outChan.headD .idle) v2 with
        | none =>
          parked [.recvA (some (v, none)), .step v v2 none, .sendOut v2 none] errReads s1
        | some ⟨some err, _⟩ =>
          errSend [.recvA (some (v, none)), .step v v2 none, .sendOut v2 (some (some err))]
            (some err) errReads s1
        | some ⟨none, _⟩ =>
          (TransformerNode.forLoop step inChan outChan.tail errReads s1).after
            [.recvA (some (v, none)), .step v v2 none, .sendOut v2 (some none)]

/-- `TransformerNode.loop`, for the step callback `step` that `Run` found set. -/
def TransformerNode.loop {σ T : Type} [Inhabited T] (n : TransformerNode σ T)
    (step : σ → T → (T × error) × σ)
    (inChan : List (RecvSel T)) (outChan : List SendSel) (errReads : Nat) (s : σ) :
    Outcome (TransformerNode.Ev T) :=
  lifecycle n.setup n.teardown errReads s
    (fun s1 => TransformerNode.forLoop step inChan outChan errReads s1)

/-- `TransformerNode.Run`: `none` when no goroutine is started. -/
def TransformerNode.Run {σ T : Type} [Inhabited T] (n : TransformerNode σ T)
    (inChan : List (RecvSel T)) (outChan : List SendSel) (errReads : Nat) (s : σ) :
    Option (Outcome (TransformerNode.Ev T)) :=
  match n.step with
  | none => none
  | some step => some (n.loop step inChan outChan errReads s)

/-! ## Source -/

/-- `SourceNode[T]`. -/
structure SourceNode (σ T : Type) where
  name : String
  setup : Option (σ → error × σ)
  teardown : Option (σ → error × σ)
  step : Option (σ → (T × error) × σ)

/-- Events of a Source goroutine. -/
abbrev SourceNode.Ev (T : Type) := Event Empty Empty T Empty Unit T

/-- The `for` statement of `SourceNode.loop`. -/
def SourceNode.forLoop {σ T : Type} (step : σ → (T × error) × σ) :
    List SendSel → Nat → σ → Exit σ (SourceNode.Ev T)
  | [], errReads, s =>
    match step s with
    | ((v, some err), s1) => errSend [.step () v (some err)] (some err) errReads s1
    | ((v, none), s1) => parked [.step () v none, .sendOut v none] errReads s1
  | c :: outChan, errReads, s =>
    match step s with
    | ((v, some err), s1) => errSend [.step () v (some err)] (some err) errReads s1
    | ((v, none), s1) =>
      match BlockingSend c v with
      | none => parked [.step () v none, .sendOut v none] errReads s1
      | some ⟨some err, _⟩ =>
        errSend [.step () v none, .sendOut v (some (some err))] (some err) errReads s1
      | some ⟨none, _⟩ =>
        (SourceNode.forLoop step outChan errReads s1).after
          [.step () v none, .sendOut v (some none)]

/-- `SourceNode.loop`, for the step callback `step` that `Run` found set. -/
def SourceNode.loop {σ T : Type} (n : SourceNode σ T) (step : σ → (T × error) × σ)
    (outChan : List SendSel) (errReads : Nat) (s : σ) : Outcome (SourceNode.Ev T) :=
  lifecycle n.setup n.teardown errReads s
    (fun s1 => SourceNode.forLoop step outChan errReads s1)

/-- `SourceNode.Run`: `none` when no goroutine is started. -/
def SourceNode.Run {σ T : Type} (n : SourceNode σ T)
    (outChan : List SendSel) (errReads : Nat) (s : σ) : Option (Outcome (SourceNode.Ev T)) :=
  match n.step with
  | none => none
  | some step => some (n.loop step outChan errReads s)

/-! ## Sink -/

/-- `SinkNode[T]`. -/
structure SinkNode (σ T : Type) where
  name : String
  setup : Option (σ → error × σ)
  teardown : Option (σ → error × σ)
  step : Option (σ → T → error × σ)

/-- Events of a Sink goroutine. -/
abbrev SinkNode.Ev (T : Type) := Event T Empty Empty Empty T Unit

/-- The `for` statement of `SinkNode.loop`. -/
def SinkNode.forLoop {σ T : Type} [Inhabited T] (step : σ → T → error × σ) :
    List (RecvSel T) → Nat → σ → Exit σ (SinkNode.Ev T)
  | [], errReads, s => parked [.recvA none] errReads s
  | r :: inChan, errReads, s =>
    match BlockingRecv r with
    | none => parked [.recvA none] errReads s
    | some (v, some err) => errSend [.recvA (some (v, some err))] (some err) errReads s
    | some (v, none) =>
      match step s v with
      | (some err, s1) =>
        errSend [.recvA (some (v, none)), .step v () (some err)] (some err) errReads s1
      | (none, s1) =>
        (SinkNode.forLoop step inChan errReads s1).after
          [.recvA (some (v, none)), .step v () none]

/-- `SinkNode.loop`, for the step callback `step` that `Run` found set. -/
def SinkNode.loop {σ T : Type} [Inhabited T] (n : SinkNode σ T) (step : σ → T → error × σ)
    (inChan : List (RecvSel T)) (errReads : Nat) (s : σ) : Outcome (SinkNode.Ev T) :=
  lifecycle n.setup n.teardown errReads s
    (fun s1 => SinkNode.forLoop step inChan errReads s1)

/-- `SinkNode.Run`: `none` when no goroutine is started. -/
def SinkNode.Run {σ T : Type} [Inhabited T] (n : SinkNode σ T)
    (inChan : List (RecvSel T)) (errReads : Nat) (s : σ) : Option (Outcome (SinkNode.Ev T)) :=
  match n.step with
  | none => none
  | some step => some (n.loop step inChan errReads s)

/-! ## Combiner -/

/-- `CombinerNode[A, B, C]`. -/
structure CombinerNode (σ A B C : Type) where
  name : String
  setup : Option (σ → error × σ)
  teardown : Option (σ → error × σ)
  step : Option (σ → A → B → (C × error) × σ)

/-- Events of a Combiner goroutine. -/
abbrev CombinerNode.Ev (A B C : Type) := Event A B C Empty (A × B) C

/-- The `for` statement of `CombinerNode.loop`. -/
def CombinerNode.forLoop {σ A B C : Type} [Inhabited A] [Inhabited B]
    (step : σ → A → B → (C × error) × σ) :
    List (RecvSel A) → List (RecvSel B) → List SendSel → Nat → σ →
      Exit σ (CombinerNode.Ev A B C)
  | [], _, _, errReads, s => parked [.recvA none] errReads s
  | r :: inChanA, inChanB, outChan, errReads, s =>
    match BlockingRecv r with
    | none => parked [.recvA none] errReads s
    | some (a, some err) => errSend [.recvA (some (a, some err))] (some err) errReads s
    | some (a, none) =>
      match BlockingRecv (inChanB.headD .idle) with
      | none => parked [.recvA (some (a, none)), .recvB none] errReads s
      | some (b, some err) =>
        errSend [.recvA (some (a, none)), .recvB (some (b, some err))] (some err) errReads s
      | some (b, none) =>
        match step s a b with
        | ((c, some err), s1) =>
          errSend [.recvA (some (a, none)), .recvB (some (b, none)), .step (a, b) c (some err)]
            (some err) errReads s1
        | ((c, none), s1) =>
          match BlockingSend (outChan.headD .idle) c with
          | none =>
            parked [.recvA (some (a, none)), .recvB (some (b, none)), .step (a, b) c none,
              .sendOut c none] errReads s1
          | some ⟨some err, _⟩ =>
            errSend [.recvA (some (a, none)), .recvB (some (b, none)), .step (a, b) c none,
              .sendOut c (some (some err))] (some err) errReads s1
          | some ⟨none, _⟩ =>
            (CombinerNode.forLoop step inChanA inChanB.tail outChan.tail errReads s1).after
              [.recvA (some (a, none)), .recvB (some (b, none)), .step (a, b) c none,
                .sendOut c (some none)]

/-- `CombinerNode.loop`, for the step callback `step` that `Run` found set. -/
def CombinerNode.loop {σ A B C : Type} [Inhabited A] [Inhabited B] (n : CombinerNode σ A B C)
    (step : σ → A → B → (C × error) × σ)
    (inChanA : List (RecvSel A)) (inChanB : List (RecvSel B)) (outChan : List SendSel)
    (errReads : Nat) (s : σ) : Outcome (CombinerNode.Ev A B C) :=
  lifecycle n.setup n.teardown errReads s
    (fun s1 => CombinerNode.forLoop step inChanA inChanB outChan errReads s1)

/-- `CombinerNode.Run`: `none` when no goroutine is started. -/
def CombinerNode.Run {σ A B C : Type} [Inhabited A] [Inhabited B] (n : CombinerNode σ A B C)
    (inChanA : List (RecvSel A)) (inChanB : List (RecvSel B)) (outChan : List SendSel)
    (errReads : Nat) (s : σ) : Option (Outcome (CombinerNode.Ev A B C)) :=
  match n.step with
  | none => none
  | some step => some (n.loop step inChanA inChanB outChan errReads s)

/-! ## Previewer -/

/-- `PreviewerNode[T, P]`. -/
structure PreviewerNode (σ T P : Type) where
  name : String
  setup : Option (σ → error × σ)
  teardown : Option (σ → error × σ)
  step : Option (σ → T → (P × error) × σ)

/-- Events of a Previewer goroutine: the side output is the preview channel. -/
abbrev PreviewerNode.Ev (T P : Type) := Event T Empty T P T P

/-- The `for` statement of `PreviewerNode.loop`. -/
def PreviewerNode.forLoop {σ T P : Type} [Inhabited T] (step : σ → T → (P × error) × σ) :
    List (RecvSel T) → List SendSel → List SendSel → Nat → σ → Exit σ (PreviewerNode.Ev T P)
  | [], _, _, errReads, s => parked [.recvA none] errReads s
  | r :: inChan, outChan, previewChan, errReads, s =>
    match BlockingRecv r with
    | none => parked [.recvA none] errReads s
    | some (origValue, some err) =>
      errSend [.recvA (some (origValue, some err))] (some err) errReads s
    | some (origValue, none) =>
      match BlockingSend (outChan.headD .idle) origValue with
      | none => parked [.recvA (some (origValue, none)), .sendOut origValue none] errReads s
      | some ⟨some err, _⟩ =>
        errSend [.recvA (some (origValue, none)), .sendOut origValue (some (some err))]
          (some err) errReads s
      | some ⟨none, _⟩ =>
        match step s origValue with
        | ((previewValue, some err), s1) =>
          errSend [.recvA (some (origValue, none)), .sendOut origValue (some none),
            .step origValue previewValue (some err)] (some err) errReads s1
        | ((previewValue, none), s1) =>
          match (NonBlockingSend (previewChan.headD .idle) previewValue).err with
          | none =>
            (PreviewerNode.forLoop step inChan outChan.tail previewChan.tail errReads s1).after
              [.recvA (some (origValue, none)), .sendOut origValue (some none),
                .step origValue previewValue none, .sendSide previewValue (some none)]
          | some err =>
            if err.Is .NotSent then
              (PreviewerNode.forLoop step inChan outChan.tail previewChan.tail errReads s1).after
                [.recvA (some (origValue, none)), .sendOut origValue (some none),
                  .step origValue previewValue none, .sendSide previewValue (some (some err))]
            else
              errSend [.recvA (some (origValue, none)), .sendOut origValue (some none),
                .step origValue previewValue none, .sendSide previewValue (some (some err))]
                (some err) errReads s1

/-- `PreviewerNode.loop`, for the step callback `step` that `Run` found set. -/
def PreviewerNode.loop {σ T P : Type} [Inhabited T] (n : PreviewerNode σ T P)
    (step : σ → T → (P × error) × σ)
    (inChan : List (RecvSel T)) (outChan previewChan : List SendSel) (errReads : Nat) (s : σ) :
    Outcome (PreviewerNode.Ev T P) :=
  lifecycle n.setup n.teardown errReads s
    (fun s1 => PreviewerNode.forLoop step inChan outChan previewChan errReads s1)

/-- `PreviewerNode.Run`: `none` when no goroutine is started. -/
def PreviewerNode.Run {σ T P : Type} [Inhabited T] (n : PreviewerNode σ T P)
    (inChan : List (RecvSel T)) (outChan previewChan : List SendSel) (errReads : Nat) (s : σ) :
    Option (Outcome (PreviewerNode.Ev T P)) :=
  match n.step with
  | none => none
  | some step => some (n.loop step inChan outChan previewChan errReads s)

/-! ## Cloner -/

/-- `ClonerNode[T]`. -/
structure ClonerNode (σ T : Type) where
  name : String
  setup : Option (σ → error × σ)
  teardown : Option (σ → error × σ)
  step : Option (σ → T → (T × error) × σ)

/-- Events of a Cloner goroutine: the side output is the clone channel. -/
abbrev ClonerNode.Ev (T : Type) := Event T Empty T T T T

/-- The `for` statement of `ClonerNode.loop`. -/
def ClonerNode.forLoop {σ T : Type} [Inhabited T] (step : σ → T → (T × error) × σ) :
    List (RecvSel T) → List SendSel → List SendSel → Nat → σ → Exit σ (ClonerNode.Ev T)
  | [], _, _, errReads, s => parked [.recvA none] errReads s
  | r :: inChan, outChan, cloneChan, errReads, s =>
    match BlockingRecv r with
    | none => parked [.recvA none] errReads s
    | some (origValue, some err) =>
      errSend [.recvA (some (origValue, some err))] (some err) errReads s
    | some (origValue, none) =>
      match step s origValue with
      | ((cloneValue, some err), s1) =>
        errSend [.recvA (some (origValue, none)), .step origValue cloneValue (some err)]
          (some err) errReads s1
      | ((cloneValue, none), s1) =>
        match BlockingSend (outChan.headD .idle) origValue with
        | none =>
          parked [.recvA (some (origValue, none)), .step origValue cloneValue none,
            .sendOut origValue none] errReads s1
        | some ⟨some err, _⟩ =>
          errSend [.recvA (some (origValue, none)), .step origValue cloneValue none,
            .sendOut origValue (some (some err))] (some err) errReads s1
        | some ⟨none, _⟩ =>
          match BlockingSend (cloneChan.headD .idle) cloneValue with
          | none =>
            parked [.recvA (some (origValue, none)), .step origValue cloneValue none,
              .sendOut origValue (some none), .sendSide cloneValue none] errReads s1
          | some ⟨some err, _⟩ =>
            errSend [.recvA (some (origValue, none)), .step origValue cloneValue none,
              .sendOut origValue (some none), .sendSide cloneValue (some (some err))]
              (some err) errReads s1
          | some ⟨none, _⟩ =>
            (ClonerNode.forLoop step inChan outChan.tail cloneChan.tail errReads s1).after
              [.recvA (some (origValue, none)), .step origValue cloneValue none,
                .sendOut origValue (some none), .sendSide cloneValue (some none)]

/-- `ClonerNode.loop`, for the step callback `step` that `Run` found set. -/
def ClonerNode.loop {σ T : Type} [Inhabited T] (n : ClonerNode σ T)
    (step : σ → T → (T × error) × σ)
    (inChan : List (RecvSel T)) (outChan cloneChan : List SendSel) (errReads : Nat) (s : σ) :
    Outcome (ClonerNode.Ev T) :=
  lifecycle n.setup n.teardown errReads s
    (fun s1 => ClonerNode.forLoop step inChan outChan cloneChan errReads s1)

/-- `ClonerNode.Run`: `none` when no goroutine is started. -/
def ClonerNode.Run {σ T : Type} [Inhabited T] (n : ClonerNode σ T)
    (inChan : List (RecvSel T)) (outChan cloneChan : List SendSel) (errReads : Nat) (s : σ) :
    Option (Outcome (ClonerNode.Ev T)) :=
  match n.step with
  | none => none
  | some step => some (n.loop step inChan outChan cloneChan errReads s)

/-! ## Constructors -/

/-- `NewSourceNode(name)`: no callback is set. -/
def NewSourceNode (σ T : Type) (name : String) : SourceNode σ T := ⟨name, none, none, none⟩

/-- `NewSinkNode(name, inChan)`. -/
def NewSinkNode (σ T : Type) (name : String) : SinkNode σ T := ⟨name, none, none, none⟩

/-- `NewTransformerNode(name, inChan)`. -/
def NewTransformerNode (σ T : Type) (name : String) : TransformerNode σ T :=
  ⟨name, none, none, none⟩

/-- `NewConverterNode(name, inChan)`. -/
def NewConverterNode (σ From To : Type) (name : String) : ConverterNode σ From To :=
  ⟨name, none, none, none⟩

/-- `NewCombinerNode(name, inChanA, inChanB)`. -/
def NewCombinerNode (σ A B C : Type) (name : String) : CombinerNode σ A B C :=
  ⟨name, none, none, none⟩

/-- `NewPreviewerNode(name, inChan)`. -/
def NewPreviewerNode (σ T P : Type) (name : String) : PreviewerNode σ T P :=
  ⟨name, none, none, none⟩

/-- `NewClonerNode(name, inChan)`. -/
def NewClonerNode (σ T : Type) (name : String) : ClonerNode σ T := ⟨name, none, none, none⟩

/-! ## Reading traces -/

section Reading

variable {σ A B O S X Y : Type}

/-- The action is an invocation of `setup`. -/
def Event.isSetup : Event A B O S X Y → Bool
  | .setup _ => true
  | _ => false

/-- The action is an invocation of `teardown`. -/
def Event.isTeardown : Event A B O S X Y → Bool
  | .teardown _ => true
  | _ => false

/-- The action is an invocation of `step`. -/
def Event.isStep : Event A B O S X Y → Bool
  | .step _ _ _ => true
  | _ => false

/-- The action is a receive or a send on a stream channel. -/
def Event.isTransfer : Event A B O S X Y → Bool
  | .recvA _ => true
  | .recvB _ => true
  | .sendOut _ _ => true
  | .sendSide _ _ => true
  | _ => false

/-- The action is a send on the error channel. -/
def Event.isErrSend : Event A B O S X Y → Bool
  | .errSend _ _ => true
  | _ => false

/-- The action belongs to a cycle of the `for` statement: a step or a transfer. -/
def Event.inCycle (e : Event A B O S X Y) : Bool := e.isStep || e.isTransfer

/-- The error with which a step or a transfer returned, `nil` for every other action. -/
def Event.failure : Event A B O S X Y → error
  | .step _ _ err => err
  | .recvA (some (_, err)) => err
  | .recvB (some (_, err)) => err
  | .sendOut _ (some err) => err
  | .sendSide _ (some err) => err
  | _ => none

/-- Values handed to a reader of the error channel, in order. -/
def errWritten (tr : List (Event A B O S X Y)) : List error :=
  tr.filterMap fun
    | .errSend e true => some e
    | _ => none

/-- Values delivered on the primary output, in order. -/
def sentOut (tr : List (Event A B O S X Y)) : List O :=
  tr.filterMap fun
    | .sendOut v (some none) => some v
    | _ => none

/-- Values delivered on the side output (preview or clone), in order. -/
def sentSide (tr : List (Event A B O S X Y)) : List S :=
  tr.filterMap fun
    | .sendSide v (some none) => some v
    | _ => none

/-- Values received from the first input, in order. -/
def receivedA (tr : List (Event A B O S X Y)) : List A :=
  tr.filterMap fun
    | .recvA (some (v, none)) => some v
    | _ => none

/-- Values received from the second input, in order. -/
def receivedB (tr : List (Event A B O S X Y)) : List B :=
  tr.filterMap fun
    | .recvB (some (v, none)) => some v
    | _ => none

/-- Values returned by the invocations of `step`, in order. -/
def stepValues (tr : List (Event A B O S X Y)) : List Y :=
  tr.filterMap fun
    | .step _ y _ => some y
    | _ => none

/-- What `setup` returns on the closure state `s`; `nil` when it is unset. -/
def setupErr (setup : Option (σ → error × σ)) (s : σ) : error :=
  match setup with
  | none => none
  | some f => (f s).1

/-- The closure state after the setup block. -/
def afterSetup (setup : Option (σ → error × σ)) (s : σ) : σ :=
  match setup with
  | none => s
  | some f => (f s).2

/-- Results of invoking the closure `step` on the values `xs` one after the
other, the closure state being threaded through the invocations. -/
def stepResults (step : σ → X → (Y × error) × σ) : σ → List X → List (Y × error)
  | _, [] => []
  | s, x :: xs => (step s x).1 :: stepResults step (step s x).2 xs

end Reading

/-! ## Reading traces, continued -/

/-- A step that returned no error, or a send that handed its value over;
every other action counts as clean. -/
def Event.clean {A B O S X Y : Type} : Event A B O S X Y → Bool
  | .step _ _ err => err.isNone
  | .sendOut _ r => r == some none
  | .sendSide _ r => r == some none
  | _ => true

/-- Arguments of the invocations of `step`, in order. -/
def stepArgs {A B O S X Y : Type} (tr : List (Event A B O S X Y)) : List X :=
  tr.filterMap fun
    | .step x _ _ => some x
    | _ => none

/-- Some invocation of teardown in the trace returned an error. -/
def teardownFailed {A B O S X Y : Type} (tr : List (Event A B O S X Y)) : Bool :=
  tr.any fun
    | .teardown (some _) => true
    | _ => false

/-- Every action of a trace paired with the action that follows it at once
(`none` for the last action). -/
def successors {E : Type} : List E → List (E × Option E)
  | [] => []
  | e :: t => (e, t.head?) :: successors t

/-- A step closure of two arguments as a closure on pairs. -/
def uncurryStep {σ A B C : Type} (step : σ → A → B → (C × error) × σ) :
    σ → A × B → (C × error) × σ :=
  fun s p => step s p.1 p.2

/-! ## Shapes of traces used in the statements -/

/-- Control flow of the Previewer `for` statement: what the action that
follows at once has to be, `none` when the goroutine does nothing more. -/
def PreviewerNode.Flow {T P : Type} : PreviewerNode.Ev T P → Option (PreviewerNode.Ev T P) → Prop
  | .recvA none, next => next = none
  | .recvA (some (_, some err)), next => ∃ d, next = some (.errSend (some err) d)
  | .recvA (some (v, none)), next => ∃ r, next = some (.sendOut v r)
  | .sendOut _ none, next => next = none
  | .sendOut _ (some (some err)), next => ∃ d, next = some (.errSend (some err) d)
  | .sendOut v (some none), next => ∃ y err, next = some (.step v y err)
  | .step _ _ (some err), next => ∃ d, next = some (.errSend (some err) d)
  | .step _ y none, next => ∃ r, next = some (.sendSide y (some r))
  | .sendSide _ none, _ => False
  | .sendSide _ (some none), next => ∃ r, next = some (.recvA r)
  | .sendSide _ (some (some err)), next =>
    if err = .NotSent then ∃ r, next = some (.recvA r)
    else ∃ d, next = some (.errSend (some err) d)
  | .errSend _ _, next => next = none
  | _, _ => False

/-- Control flow of the Combiner `for` statement: what the action that follows
at once has to be, `none` when the goroutine does nothing more. -/
def CombinerNode.Flow {A B C : Type} :
    CombinerNode.Ev A B C → Option (CombinerNode.Ev A B C) → Prop
  | .recvA none, next => next = none
  | .recvA (some (_, some err)), next => ∃ d, next = some (.errSend (some err) d)
  | .recvA (some (_, none)), next => ∃ r, next = some (.recvB r)
  | .recvB none, next => next = none
  | .recvB (some (_, some err)), next => ∃ d, next = some (.errSend (some err) d)
  | .recvB (some (b, none)), next => ∃ a c err, next = some (.step (a, b) c err)
  | .step _ _ (some err), next => ∃ d, next = some (.errSend (some err) d)
  | .step _ c none, next => ∃ r, next = some (.sendOut c r)
  | .sendOut _ none, next => next = none
  | .sendOut _ (some (some err)), next => ∃ d, next = some (.errSend (some err) d)
  | .sendOut _ (some none), next => ∃ r, next = some (.recvA r)
  | .errSend _ _, next => next = none
  | _, _ => False

/-- How the `for` statement of a `loop` can end when `errReads` values are
still taken from the error channel: the goroutine is parked in a transfer, or
a step or a transfer `last` failed with `err` and the goroutine went on to
`n.errChan <- err; return`.  Up to there it did nothing but steps and
transfers. -/
def Exit.Ended {σ A B O S X Y : Type} (errReads : Nat) (b : Exit σ (Event A B O S X Y)) : Prop :=
  (b.returned = false ∧ ∀ e ∈ b.trace, e.inCycle = true) ∨
  ∃ pre last err, b.trace = pre ++ [last, .errSend (some err) (decide (0 < errReads))] ∧
    (∀ e ∈ pre, e.inCycle = true) ∧ last.inCycle = true ∧ last.failure = some err ∧
    b.returned = decide (0 < errReads) ∧ b.errReads = errReads - 1

/-- In the trace `tr` teardown is invoked exactly once, and no step is invoked after it. -/
def TeardownOnceAfterSteps {A B O S X Y : Type} (tr : List (Event A B O S X Y)) : Prop :=
  ∃ pre r post, tr = pre ++ .teardown r :: post ∧ (∀ e ∈ pre, e.isTeardown = false) ∧
    ∀ e ∈ post, e.isTeardown = false ∧ e.isStep = false

/-- The trace `tr` ends with: a step or transfer `last` failing with `e`; `e`
handed to a reader of the error channel; teardown returning `t`; the send of
`errors.Wrap(t, "teardown error")` on the error channel, which completes when a
second reader is there.  Nothing was sent on the error channel before. -/
def ReportsBoth {A B O S X Y : Type} (errReads : Nat) (t : GoError)
    (tr : List (Event A B O S X Y)) : Prop :=
  ∃ pre last e, tr = pre ++ [last, .errSend (some e) true, .teardown (some t),
      .errSend (some (.Wrap t "teardown error")) (decide (1 < errReads))] ∧
    (∀ x ∈ pre, x.isErrSend = false ∧ x.isTeardown = false) ∧
    last.inCycle = true ∧ last.failure = some e ∧
    errWritten tr
      = some e :: (if 1 < errReads then [some (.Wrap t "teardown error")] else [])

/-! ## Concrete scripts and closures -/

/-- A `select` on which a receive of `v` completes: a sender is ready, the context is live. -/
def RecvSel.value {T : Type} (v : T) : RecvSel T := ⟨false, some v, false⟩

/-- A `select` on which only the cancellation case can proceed. -/
def RecvSel.cancelled {T : Type} : RecvSel T := ⟨true, none, false⟩

/-- A `select` on which a send completes: a receiver is ready, the context is live. -/
def SendSel.ready : SendSel := ⟨false, true, false⟩

/-- A `select` on which only the cancellation case can proceed. -/
def SendSel.cancelled : SendSel := ⟨true, false, false⟩

/-- A step closure without state that doubles its argument. -/
def doubler : Unit → Nat → (Nat × error) × Unit := fun s x => ((2 * x, none), s)

/-- A step closure without state that fails on every argument. -/
def failing : Unit → Nat → (Nat × error) × Unit :=
  fun s _ => ((0, some (.New "step failed")), s)

/-- A Combiner step closure without state that adds its arguments. -/
def adder : Unit → Nat → Nat → (Nat × error) × Unit := fun s a b => ((a + b, none), s)

/-- A Source step closure that produces `7` for ever. -/
def sourceSeven : Unit → (Nat × error) × Unit := fun s => ((7, none), s)

/-- A Sink step closure that accepts every value. -/
def sinkOk : Unit → Nat → error × Unit := fun s _ => (none, s)

/-- A Sink step closure that fails on every value. -/
def sinkFailing : Unit → Nat → error × Unit := fun s _ => (some (.New "step failed"), s)

/-- A setup or teardown closure that fails. -/
def failingCallback : Unit → error × Unit := fun s => (some (.New "device lost"), s)

/-! ## Graph (`graph.go`) -/

/-- Go maps with string keys: association lists, a key being bound by its
first entry; `assign` and `remove` keep the keys without repetition.  The
order of the entries stands for the order in which a `range` statement yields
them, which Go leaves unspecified. -/
abbrev GoMap (V : Type) := List (String × V)

/-- Index expression `m[k]` with the comma-ok form: the value bound to `k`, if any. -/
def GoMap.entry {V : Type} (m : GoMap V) (k : String) : Option V := List.lookup k m

/-- Built-in `delete(m, k)`. -/
def GoMap.remove {V : Type} (m : GoMap V) (k : String) : GoMap V := m.filter (fun p => p.1 != k)

/-- Assignment `m[k] = v`. -/
def GoMap.assign {V : Type} (m : GoMap V) (k : String) (v : V) : GoMap V := (k, v) :: m.remove k

/-- The keys of a map. -/
def GoMap.keys {V : Type} (m : GoMap V) : List String := m.map Prod.fst

/-- The key a `range` statement over the non-empty map `m` yields when the
runtime's choice is `i`. -/
def GoMap.rangeKey {V : Type} (m : GoMap V) (i : Nat) : String :=
  (m.keys.get? (i % m.length)).getD ""

/-- Interface `Node`, as far as a graph looks into its children: `Name()`.  What
`Run` and `Err()` do is given to `Graph.loop` by the scripts of its polls. -/
class Node (N : Type) where
  Name : N → String

/-- `time.Duration`: a number of nanoseconds. -/
abbrev Duration := Int

/-- `time.Second`. -/
def Second : Duration := 1000000000

/-- Map type `namedNodes`. -/
abbrev namedNodes (N : Type) := GoMap N

/-- Struct `Graph`; the mutex `isRunningMu` shows in the runs as lock events. -/
structure Graph (N : Type) where
  name : String
  nodes : namedNodes N
  minTeardownTimeout : Duration

/-- `NewGraph(name)`. -/
def NewGraph (N : Type) (name : String) : Graph N := ⟨name, [], 1 * Second⟩

/-- `Graph.Name`. -/
def Graph.Name {N : Type} (g : Graph N) : String := g.name

/-- `Graph.SetNode`. -/
def Graph.SetNode {N : Type} [Node N] (g : Graph N) (node : N) : Graph N :=
  { g with nodes := g.nodes.assign (Node.Name node) node }

/-- `Graph.SetNodes`: one assignment per argument, in order. -/
def Graph.SetNodes {N : Type} [Node N] (g : Graph N) (nodes : List N) : Graph N :=
  { g with nodes := nodes.foldl (fun m node => m.assign (Node.Name node) node) g.nodes }

/-- `Graph.RemoveNode`. -/
def Graph.RemoveNode {N : Type} [Node N] (g : Graph N) (node : N) : Graph N :=
  { g with nodes := g.nodes.remove (Node.Name node) }

/-- `Graph.RemoveNodes`: one `delete` per argument, in order. -/
def Graph.RemoveNodes {N : Type} [Node N] (g : Graph N) (nodes : List N) : Graph N :=
  { g with nodes := nodes.foldl (fun m node => m.remove (Node.Name node)) g.nodes }

/-- `Graph.RemoveNodeByName`. -/
def Graph.RemoveNodeByName {N : Type} (g : Graph N) (name : String) : Graph N :=
  { g with nodes := g.nodes.remove name }

/-- `Graph.RemoveNodesByName`: one `delete` per argument, in order. -/
def Graph.RemoveNodesByName {N : Type} (g : Graph N) (names : List String) : Graph N :=
  { g with nodes := names.foldl (fun m name => m.remove name) g.nodes }

/-! ### `float64`, as `math.Log10(float64(n))` uses it

The expression `time.Duration(math.Log10(float64(n)))` of
`teardownTimeoutForNNodes` is computed in `float64`.  What follows is that
arithmetic on finite values, every operation giving the exact result rounded
to the nearest value with a significand of 53 bits, ties to even, and the
functions `Frexp`, `Log` and `Log10` of the package `math` of the Go library
written as in its portable sources.  Not-a-number, the infinities and the
limits of the exponent are left out: no value met for `n` from 1 to `2^63 - 1`
comes near them. -/

/-- Number of binary digits of `n`; `fuel` bounds the number of steps. -/
def bitLen : Nat → Nat → Nat
  | 0, _ => 0
  | fuel + 1, n =>
    if n = 0 then 0
    else if 2 ^ 64 ≤ n then bitLen fuel (n / 2 ^ 64) + 64
    else if 2 ^ 8 ≤ n then bitLen fuel (n / 2 ^ 8) + 8
    else bitLen fuel (n / 2) + 1

/-- A finite `float64`: the value `m * 2 ^ e`, with `2 ^ 52 ≤ |m| < 2 ^ 53`, or
`m = 0` and `e = 0` for zero. -/
structure Float64 where
  m : Int
  e : Int
  deriving DecidableEq, Repr

/-- The `float64` nearest to `n / d * 2 ^ e`, ties to the even significand. -/
def Float64.ofRatio (n : Int) (d : Nat) (e : Int) : Float64 :=
  if n = 0 ∨ d = 0 then ⟨0, 0⟩
  else
    let a := n.natAbs
    let t : Int := (bitLen a a : Int) - (bitLen d d : Int) - 53
    let num := if t ≤ 0 then a * 2 ^ (-t).toNat else a
    let den := if t ≤ 0 then d else d * 2 ^ t.toNat
    let wide := decide (2 ^ 53 ≤ num / den)
    let den1 := if wide then 2 * den else den
    let t1 := if wide then t + 1 else t
    let q := num / den1
    let r := num % den1
    let up := decide (den1 < 2 * r) || (decide (2 * r = den1) && decide (q % 2 = 1))
    let q1 := if up then q + 1 else q
    if q1 = 2 ^ 53 then ⟨n.sign * 2 ^ 52, e + t1 + 1⟩ else ⟨n.sign * q1, e + t1⟩

/-- Conversion `float64(n)` of an integer. -/
def Float64.ofInt (n : Int) : Float64 := .ofRatio n 1 0

/-- A constant written as the decimal literal `digits * 10 ^ (-scale)`. -/
def Float64.ofDecimal (digits scale : Nat) : Float64 := .ofRatio digits (10 ^ scale) 0

/-- Operator `*` of `float64`. -/
def Float64.mul (a b : Float64) : Float64 := .ofRatio (a.m * b.m) 1 (a.e + b.e)

/-- Operator `+` of `float64`. -/
def Float64.add (a b : Float64) : Float64 :=
  .ofRatio (a.m * 2 ^ (a.e - min a.e b.e).toNat + b.m * 2 ^ (b.e - min a.e b.e).toNat) 1
    (min a.e b.e)

/-- Operator `-` of `float64`. -/
def Float64.sub (a b : Float64) : Float64 := a.add ⟨-b.m, b.e⟩

/-- Operator `/` of `float64`, the divisor not zero. -/
def Float64.div (a b : Float64) : Float64 := .ofRatio (a.m * b.m.sign) b.m.natAbs (a.e - b.e)

/-- Operator `<` of `float64`. -/
def Float64.lt (a b : Float64) : Bool :=
  decide (a.m * 2 ^ (a.e - min a.e b.e).toNat < b.m * 2 ^ (b.e - min a.e b.e).toNat)

/-- Conversion of a `float64` to `int64`, as in `time.Duration(x)`: the fraction
is dropped. -/
def Float64.trunc (a : Float64) : Int :=
  if 0 ≤ a.e then a.m * 2 ^ a.e.toNat else a.m.sign * (a.m.natAbs / 2 ^ (-a.e).toNat)

/-- `math.Frexp`: the fraction in `[1/2, 1)` and the exponent. -/
def Frexp (f : Float64) : Float64 × Int := if f.m = 0 then (f, 0) else (⟨f.m, -53⟩, f.e + 53)

/-- Constant `Ln2Hi = 6.93147180369123816490e-01` of `math.Log`. -/
def Ln2Hi : Float64 := .ofDecimal 693147180369123816490 21

/-- Constant `Ln2Lo = 1.90821492927058770002e-10` of `math.Log`. -/
def Ln2Lo : Float64 := .ofDecimal 190821492927058770002 30

/-- Constant `L1 = 6.666666666666735130e-01` of `math.Log`. -/
def L1 : Float64 := .ofDecimal 6666666666666735130 19

/-- Constant `L2 = 3.999999999940941908e-01` of `math.Log`. -/
def L2 : Float64 := .ofDecimal 3999999999940941908 19

/-- Constant `L3 = 2.857142874366239149e-01` of `math.Log`. -/
def L3 : Float64 := .ofDecimal 2857142874366239149 19

/-- Constant `L4 = 2.222219843214978396e-01` of `math.Log`. -/
def L4 : Float64 := .ofDecimal 2222219843214978396 19

/-- Constant `L5 = 1.818357216161805012e-01` of `math.Log`. -/
def L5 : Float64 := .ofDecimal 1818357216161805012 19

/-- Constant `L6 = 1.531383769920937332e-01` of `math.Log`. -/
def L6 : Float64 := .ofDecimal 1531383769920937332 19

/-- Constant `L7 = 1.479819860511658591e-01` of `math.Log`. -/
def L7 : Float64 := .ofDecimal 1479819860511658591 19

/-- Constant expression `Sqrt2 / 2` of `math.Log`, with `math.Sqrt2 =
1.41421356237309504880168872420969807856967187537694807317667974`. -/
def Sqrt2Half : Float64 :=
  .ofRatio 141421356237309504880168872420969807856967187537694807317667974 (2 * 10 ^ 62) 0

/-- Constant expression `1 / Ln10` of `math.Log10`, with `math.Ln10 =
2.30258509299404568401799145468436420760110148862877297603332790`. -/
def Log10E : Float64 :=
  .ofRatio (10 ^ 62) 230258509299404568401799145468436420760110148862877297603332790 0

/-- `math.Log(x)` for finite `x > 0`: `f1, ki := Frexp(x); if f1 < Sqrt2/2 { f1 *= 2;
ki-- }; f := f1 - 1; k := float64(ki); s := f / (2 + f); s2 := s * s; s4 := s2 * s2;
t1 := s2 * (L1 + s4*(L3+s4*(L5+s4*L7))); t2 := s4 * (L2 + s4*(L4+s4*L6)); R := t1 + t2;
hfsq := 0.5 * f * f; return k*Ln2Hi - ((hfsq - (s*(hfsq+R) + k*Ln2Lo)) - f)`. -/
def Log (x : Float64) : Float64 :=
  let small := (Frexp x).1.lt Sqrt2Half
  let f1 := if small then (Frexp x).1.mul (.ofInt 2) else (Frexp x).1
  let ki := if small then (Frexp x).2 - 1 else (Frexp x).2
  let f := f1.sub (.ofInt 1)
  let k := Float64.ofInt ki
  let s := f.div ((Float64.ofInt 2).add f)
  let s2 := s.mul s
  let s4 := s2.mul s2
  let t1 := s2.mul (L1.add (s4.mul (L3.add (s4.mul (L5.add (s4.mul L7))))))
  let t2 := s4.mul (L2.add (s4.mul (L4.add (s4.mul L6))))
  let R := t1.add t2
  let hfsq := ((Float64.ofDecimal 5 1).mul f).mul f
  (k.mul Ln2Hi).sub ((hfsq.sub ((s.mul (hfsq.add R)).add (k.mul Ln2Lo))).sub f)

/-- `math.Log10(x)`: `math.Log(x) * (1 / Ln10)`. -/
def Log10 (x : Float64) : Float64 := (Log x).mul Log10E

/-- Expression `time.Duration(math.Log10(float64(n)))` for `n ≥ 1`: a whole
number of nanoseconds, the fraction of the logarithm being dropped. -/
def truncLog10 (n : Int) : Duration := (Log10 (.ofInt n)).trunc

/-- `Graph.teardownTimeoutForNNodes`. -/
def Graph.teardownTimeoutForNNodes {N : Type} (g : Graph N) (n : Int) : Duration :=
  if n ≤ 0 then g.minTeardownTimeout else g.minTeardownTimeout + truncLog10 n

/-- Local variable `contextCanceledIsAnError` of `Graph.loop`, never reassigned. -/
def contextCanceledIsAnError : Bool := false

/-- The case a `select` of `Graph.loop` takes: the first one (`<-ctx.Done()` while
monitoring, `<-teardownTimeout.C` while tearing down), the receive from the
child's error channel, or `default`. -/
inductive Picked where
  | done
  | report (err : error)
  | default
  deriving DecidableEq, Repr

/-- Resolution of such a `select`: `done` tells whether the first case can
proceed, `report` is the value the polled child is sending on its error
channel, if it is sending one, `pickDone` the runtime's choice when both can
proceed. -/
def pick (done : Bool) (report : Option error) (pickDone : Bool) : Picked :=
  match done, report with
  | true, some err => if pickDone then .done else .report err
  | true, none => .done
  | false, some err => .report err
  | false, none => .default

/-- What one `select` of the monitoring phase finds: `key` is the runtime's
choice of the running child the `range` statement yields. -/
structure MonitorPoll where
  key : Nat
  ctxDone : Bool
  report : Option error
  pickDone : Bool
  deriving DecidableEq, Repr

/-- What one `select` of the teardown phase finds: `elapsed` is the time since
the timer was made, the timer's channel being ready from the timeout on. -/
structure TeardownPoll where
  key : Nat
  elapsed : Duration
  report : Option error
  pickDone : Bool
  deriving DecidableEq, Repr

/-- One action of the goroutine of `Graph.loop`. -/
inductive GraphEvent where
  | lock
  | unlock
  | run (nodeName : String)
  | monitor (nodeName : String) (picked : Picked)
  | newTimer (d : Duration)
  | cancelNodeCtx
  | teardown (nodeName : String) (picked : Picked)
  | sendErr (err : error) (done : Bool)
  deriving DecidableEq, Repr

/-- Local variables `runningNodes` and `nodeErrs` of `Graph.loop`. -/
structure LoopVars (N : Type) where
  runningNodes : GoMap N
  nodeErrs : GoMap error

/-- End of a phase of `Graph.loop`: the error the phase returns, the local
variables, what was done, and whether the phase ended at all. -/
structure PhaseEnd (N : Type) where
  err : error
  vars : LoopVars N
  trace : List GraphEvent
  returned : Bool

/-- Actions `pre` followed by the rest of a phase. -/
def PhaseEnd.after {N : Type} (pre : List GraphEvent) (e : PhaseEnd N) : PhaseEnd N :=
  { e with trace := pre ++ e.trace }

/-- The function literal assigned to `mainLoopErr`, applied to `parentCtx`: the
monitoring phase.  Over an empty `runningNodes` the inner `range` statement
has no iteration and the outer `for` never ends; so does a monitoring whose
polls find nothing, here a script that is used up. -/
def mainLoop {N : Type} (vars : LoopVars N) : List MonitorPoll → PhaseEnd N
  | [] => ⟨none, vars, [], false⟩
  | p :: polls =>
    if vars.runningNodes.isEmpty then ⟨none, vars, [], false⟩
    else
      match pick p.ctxDone p.report p.pickDone with
      | .done =>
        ⟨if contextCanceledIsAnError then some .Canceled else none, vars,
          [.monitor (vars.runningNodes.rangeKey p.key) .done], true⟩
      | .report err =>
        ⟨some (.New "Node error"),
          ⟨vars.runningNodes.remove (vars.runningNodes.rangeKey p.key),
            vars.nodeErrs.assign (vars.runningNodes.rangeKey p.key) err⟩,
          [.monitor (vars.runningNodes.rangeKey p.key) (.report err)], true⟩
      | .default =>
        (mainLoop vars polls).after [.monitor (vars.runningNodes.rangeKey p.key) .default]

/-- Statement `if err != nil { if !errors.Is(err, context.Canceled) ||
contextCanceledIsAnError { nodeErrs[nodeName] = err } }` of the teardown phase. -/
def recordTeardownErr (nodeErrs : GoMap error) (nodeName : String) (err : error) : GoMap error :=
  match err with
  | some e =>
    if !e.Is .Canceled || contextCanceledIsAnError then nodeErrs.assign nodeName err else nodeErrs
  | none => nodeErrs

/-- The loop labelled `TEARDOWN_LOOP`, the timer being set to `d`.  Time goes on:
once the script of polls is used up the next `select` finds the timer fired. -/
def teardownLoop {N : Type} (d : Duration) (vars : LoopVars N) :
    List TeardownPoll → PhaseEnd N
  | [] =>
    if vars.runningNodes.isEmpty then ⟨none, vars, [], true⟩
    else ⟨some .TeardownTimedOut, vars, [.teardown (vars.runningNodes.rangeKey 0) .done], true⟩
  | p :: polls =>
    if vars.runningNodes.isEmpty then ⟨none, vars, [], true⟩
    else
      match pick (decide (d ≤ p.elapsed)) p.report p.pickDone with
      | .done =>
        ⟨some .TeardownTimedOut, vars, [.teardown (vars.runningNodes.rangeKey p.key) .done], true⟩
      | .report err =>
        (teardownLoop d
          ⟨vars.runningNodes.remove (vars.runningNodes.rangeKey p.key),
            recordTeardownErr vars.nodeErrs (vars.runningNodes.rangeKey p.key) err⟩ polls).after
          [.teardown (vars.runningNodes.rangeKey p.key) (.report err)]
      | .default =>
        (teardownLoop d vars polls).after
          [.teardown (vars.runningNodes.rangeKey p.key) .default]

/-- The function literal assigned to `teardownErr`, applied at once: the teardown phase. -/
def Graph.teardown {N : Type} (g : Graph N) (vars : LoopVars N) (polls : List TeardownPoll) :
    PhaseEnd N :=
  if vars.runningNodes.isEmpty then ⟨none, vars, [], true⟩
  else
    (teardownLoop (g.teardownTimeoutForNNodes vars.runningNodes.length) vars polls).after
      [.newTimer (g.teardownTimeoutForNNodes vars.runningNodes.length), .cancelNodeCtx]

/-- One iteration of `for nodeName, err := range nodeErrs`: the message with
the segment of the entry added when its error is not nil. -/
def addNodeErr (msg : String) (p : String × error) : String :=
  match p.2 with
  | some e => msg ++ ("[Node " ++ p.1 ++ ": " ++ e.Error ++ "]")
  | none => msg

/-- Variable `errMsg` of `Graph.loop` once the three parts are added. -/
def errMsg (mainLoopErr teardownErr : error) (nodeErrs : GoMap error) : String :=
  nodeErrs.foldl addNodeErr
    ((match mainLoopErr with
      | some e => "[MainLoop: " ++ e.Error ++ "]"
      | none => "") ++
     (match teardownErr with
      | some e => "[TearDown: " ++ e.Error ++ "]"
      | none => ""))

/-- The value `Graph.loop` hands to `sendErr`. -/
def graphErr {N : Type} (g : Graph N) (msg : String) : error :=
  if msg ≠ "" then some (.New ("Graph " ++ g.name ++ " failed: " ++ msg)) else none

/-- The local variables of `Graph.loop` when it reaches `g.sendErr(err)`. -/
structure Report (N : Type) where
  mainLoopErr : error
  teardownErr : error
  nodeErrs : GoMap error
  runningNodes : GoMap N
  err : error

/-- A run of the goroutine of `Graph.loop`: what it did, whether it returned,
and its local variables at `g.sendErr(err)` when it got there. -/
structure GraphRun (N : Type) where
  trace : List GraphEvent
  returned : Bool
  report : Option (Report N)

/-- Variable `runningNodes` of `Graph.loop` after the statement `for nodeName, node
:= range g.nodes { node.Run(nodeCtx); runningNodes[nodeName] = node }`. -/
def Graph.started {N : Type} (g : Graph N) : GoMap N :=
  g.nodes.foldl (fun r p => r.assign p.1 p.2) []

/-- `Graph.loop`: `monitor` and `teardown` are the scripts of the polls of the
two phases, `errReads` the number of values taken from the graph's own error
channel. -/
def Graph.loop {N : Type} (g : Graph N) (monitor : List MonitorPoll)
    (teardown : List TeardownPoll) (errReads : Nat) : GraphRun N :=
  let m := mainLoop ⟨g.started, []⟩ monitor
  if m.returned then
    let t := g.teardown m.vars teardown
    let err := graphErr g (errMsg m.err t.err t.vars.nodeErrs)
    ⟨.lock :: g.nodes.map (fun p => .run p.1) ++ m.trace ++ t.trace ++
        (if 0 < errReads then [.sendErr err true, .unlock] else [.sendErr err false]),
      decide (0 < errReads), some ⟨m.err, t.err, t.vars.nodeErrs, t.vars.runningNodes, err⟩⟩
  else ⟨.lock :: g.nodes.map (fun p => .run p.1) ++ m.trace, false, none⟩

/-- `Graph.Run`: the goroutine is always started. -/
def Graph.Run {N : Type} (g : Graph N) (monitor : List MonitorPoll)
    (teardown : List TeardownPoll) (errReads : Nat) : Option (GraphRun N) :=
  some (g.loop monitor teardown errReads)

/-- A child for concrete graphs: a name, and a tag telling apart two nodes of one name. -/
structure NamedNode where
  name : String
  tag : Nat
  deriving DecidableEq, Repr

/-- `Name()` of a `NamedNode`. -/
instance NamedNode.instNode : Node NamedNode := ⟨NamedNode.name⟩

/-- A graph `"fx"` with the children `"camera"` and `"screen"`. -/
def twoNodeGraph : Graph NamedNode :=
  (NewGraph NamedNode "fx").SetNodes [⟨"camera", 0⟩, ⟨"screen", 0⟩]

/-- A graph `"fx"` with the only child `"camera"`. -/
def oneNodeGraph : Graph NamedNode := (NewGraph NamedNode "fx").SetNode ⟨"camera", 0⟩

/-- The monitoring phase of the run of `Graph.loop` on the script `monitor`. -/
def Graph.monitoring {N : Type} (g : Graph N) (monitor : List MonitorPoll) : PhaseEnd N :=
  mainLoop ⟨g.started, []⟩ monitor

/-- The loop `TEARDOWN_LOOP` of the run of `Graph.loop` on the scripts `monitor`
and `teardown`. -/
def Graph.tearingDown {N : Type} (g : Graph N) (monitor : List MonitorPoll)
    (teardown : List TeardownPoll) : PhaseEnd N :=
  teardownLoop (g.teardownTimeoutForNNodes (g.monitoring monitor).vars.runningNodes.length)
    (g.monitoring monitor).vars teardown

/-- The segment `fmt.Sprintf("[Node %s: %v]", nodeName, err)` of the message of the graph. -/
def nodeSegment (nodeName : String) (e : GoError) : String :=
  "[Node " ++ nodeName ++ ": " ++ e.Error ++ "]"

/-! ## The scenario Source, Transformer, Sink -/

/-- A Source step closure over the values still to be produced: it returns
them one after the other, and the error `endErr`, the end condition, once
none is left. -/
def emitThenEnd (endErr : GoError) : List Nat → (Nat × error) × List Nat
  | [] => ((0, some endErr), [])
  | v :: rest => ((v, none), rest)

/-- A Sink step closure that appends every value to its state, the record. -/
def record : List Nat → Nat → error × List Nat := fun s v => (none, s ++ [v])

/-- What the reader of an unbuffered channel finds, `select` by `select`, when
the writer hands over the values `vs` and nothing more: each value in turn,
then `last` on a channel without a writer. -/
def fedBy {T : Type} (vs : List T) (last : RecvSel T) : List (RecvSel T) :=
  vs.map RecvSel.value ++ [last]

/-- The Source of the scenario: it produces `vs`, every send finding the
Transformer in its receive. -/
def pipelineSource (endErr : GoError) (vs : List Nat) (errReads : Nat) :
    Outcome (SourceNode.Ev Nat) :=
  (NewSourceNode (List Nat) Nat "source").loop (emitThenEnd endErr)
    (vs.map fun _ => SendSel.ready) errReads vs

/-- The Transformer of the scenario: it doubles what the Source has delivered,
every send finding the Sink in its receive; after the last value its receive
finds `afterEnd`. -/
def pipelineTransformer (endErr : GoError) (vs : List Nat) (afterEnd : RecvSel Nat)
    (errReads : Nat) : Outcome (TransformerNode.Ev Nat) :=
  (NewTransformerNode Unit Nat "double").loop doubler
    (fedBy (sentOut (pipelineSource endErr vs errReads).trace) afterEnd)
    (vs.map fun _ => SendSel.ready) errReads ()

/-- The Sink of the scenario: it records what the Transformer has delivered;
after the last value its receive finds `afterEnd`. -/
def pipelineSink (endErr : GoError) (vs : List Nat) (afterEnd : RecvSel Nat)
    (errReads : Nat) : Outcome (SinkNode.Ev Nat) :=
  (NewSinkNode (List Nat) Nat "sink").loop record
    (fedBy (sentOut (pipelineTransformer endErr vs afterEnd errReads).trace) afterEnd)
    errReads []

/-- The record of the Sink of the scenario when its `for` statement is left. -/
def pipelineRecord (endErr : GoError) (vs : List Nat) (afterEnd : RecvSel Nat)
    (errReads : Nat) : List Nat :=
  (SinkNode.forLoop record
    (fedBy (sentOut (pipelineTransformer endErr vs afterEnd errReads).trace) afterEnd)
    errReads []).state

/-! ## The mutex `isRunningMu` -/

/-- A call of one of the six methods that change `g.nodes`, with its arguments. -/
inductive Mutator (N : Type) where
  | SetNode (node : N)
  | SetNodes (nodes : List N)
  | RemoveNode (node : N)
  | RemoveNodes (nodes : List N)
  | RemoveNodeByName (name : String)
  | RemoveNodesByName (names : List String)

/-- What a mutator does between `g.isRunningMu.Lock()` and the deferred
`g.isRunningMu.Unlock()`. -/
def Mutator.body {N : Type} [Node N] : Mutator N → Graph N → Graph N
  | .SetNode node, g => g.SetNode node
  | .SetNodes nodes, g => g.SetNodes nodes
  | .RemoveNode node, g => g.RemoveNode node
  | .RemoveNodes nodes, g => g.RemoveNodes nodes
  | .RemoveNodeByName name, g => g.RemoveNodeByName name
  | .RemoveNodesByName names, g => g.RemoveNodesByName names

/-- The graph as its goroutines share it: whether `isRunningMu` is held, and
the other fields. -/
structure SharedGraph (N : Type) where
  isRunningMu : Bool
  graph : Graph N

/-- A call of a mutator on the shared graph: `Lock()` does not return while the
mutex is held (`none`); on a free mutex the body runs and the deferred
`Unlock()` leaves the mutex free. -/
def SharedGraph.call {N : Type} [Node N] (s : SharedGraph N) (m : Mutator N) :
    Option (SharedGraph N) :=
  if s.isRunningMu then none else some ⟨false, m.body s.graph⟩

/-- One step of a program in which a goroutine runs `Graph.loop` and others
call mutators: an action of the loop, or a call. -/
inductive Sched (N : Type) where
  | loop (ev : GraphEvent)
  | call (m : Mutator N)

/-- Effect of one step on the shared graph: `Lock()` and `Unlock()` of the loop
take and free the mutex, its other actions touch local variables only, and a
call that is blocked changes nothing. -/
def SharedGraph.step {N : Type} [Node N] (s : SharedGraph N) : Sched N → SharedGraph N
  | .loop .lock => { s with isRunningMu := true }
  | .loop .unlock => { s with isRunningMu := false }
  | .loop _ => s
  | .call m => (s.call m).getD s

/-- Effect of the steps `sched`, in order. -/
def SharedGraph.exec {N : Type} [Node N] (s : SharedGraph N) (sched : List (Sched N)) :
    SharedGraph N :=
  sched.foldl SharedGraph.step s

/-- The actions of the loop in a schedule, in order. -/
def loopEvents {N : Type} (sched : List (Sched N)) : List GraphEvent :=
  sched.filterMap fun
    | .loop ev => some ev
    | .call _ => none

/-- The action is a `select` of `Graph.loop` on the error channel of the child `c`. -/
def GraphEvent.pollOf (c : String) : GraphEvent → Bool
  | .monitor nodeName _ => nodeName == c
  | .teardown nodeName _ => nodeName == c
  | _ => false

/-- The action is a `select` of `Graph.loop` that receives a value from the
error channel of the child `c`. -/
def GraphEvent.reportOf (c : String) : GraphEvent → Bool
  | .monitor nodeName (.report _) => nodeName == c
  | .teardown nodeName (.report _) => nodeName == c
  | _ => false

/-! ## Colours (`conversions.go`) -/

/-- `gocv.Scalar`: four `float64` values.  The values met here are whole
numbers from 0 to 255, on which the `float64` operations of `conversions.go`
are exact; they are taken as rationals. -/
structure Scalar where
  Val1 : ℚ
  Val2 : ℚ
  Val3 : ℚ
  Val4 : ℚ

/-- `color.NRGBA`: channels of type `uint8`, not premultiplied by alpha. -/
structure NRGBA where
  R : Nat
  G : Nat
  B : Nat
  A : Nat
  deriving DecidableEq, Repr

/-- `color.RGBA`: channels of type `uint8`, premultiplied by alpha. -/
structure RGBA where
  R : Nat
  G : Nat
  B : Nat
  A : Nat
  deriving DecidableEq, Repr

/-- The values of the interface `color.Color` considered: an `NRGBA` or an `RGBA`. -/
inductive Color where
  | nrgba (c : NRGBA)
  | rgba (c : RGBA)
  deriving DecidableEq, Repr

/-- `clampFloat64ToUInt8`: `uint8(math.Max(0.0, math.Min(f, 255.0)))`, the
conversion to `uint8` dropping the fraction. -/
def clampFloat64ToUInt8 (f : ℚ) : Nat := ⌊max 0 (min f 255)⌋₊ % 256

/-- `colorFromScalar`. -/
def colorFromScalar (s : Scalar) : NRGBA :=
  { R := clampFloat64ToUInt8 s.Val1
    G := clampFloat64ToUInt8 s.Val2
    B := clampFloat64ToUInt8 s.Val3
    A := clampFloat64ToUInt8 s.Val4 }

/-- One colour channel in the method `RGBA()` of `color.NRGBA`, from the
package `image/color` of the Go library: `r := uint32(v); r |= r << 8;
r *= uint32(a); r /= 0xff`. -/
def premultiplied (v a : Nat) : Nat := ((v ||| (v <<< 8)) % 2 ^ 32 * a % 2 ^ 32) / 0xff

/-- Method `RGBA()` of `color.NRGBA`: the channels on 16 bits, premultiplied. -/
def NRGBA.RGBA (c : NRGBA) : Nat × Nat × Nat × Nat :=
  (premultiplied c.R c.A, premultiplied c.G c.A, premultiplied c.B c.A,
    (c.A ||| (c.A <<< 8)) % 2 ^ 32)

/-- `color.RGBAModel.Convert(c).(color.RGBA)`, from the package `image/color`: an
`RGBA` is returned as it is, another colour gives the high bytes of what its
method `RGBA()` returns. -/
def RGBAModel.Convert : Color → RGBA
  | .rgba c => c
  | .nrgba c =>
    { R := (c.RGBA.1 >>> 8) % 256
      G := (c.RGBA.2.1 >>> 8) % 256
      B := (c.RGBA.2.2.1 >>> 8) % 256
      A := (c.RGBA.2.2.2 >>> 8) % 256 }

/-- `scalarFromColor`: the channels in the order blue, green, red, alpha. -/
def scalarFromColor (c : Color) : Scalar :=
  { Val1 := ((RGBAModel.Convert c).B : ℚ)
    Val2 := ((RGBAModel.Convert c).G : ℚ)
    Val3 := ((RGBAModel.Convert c).R : ℚ)
    Val4 := ((RGBAModel.Convert c).A : ℚ) }

/-! # Theorems -/

/-! ## Lemmas on the shared lifecycle blocks -/

section LifecycleLemmas

variable {σ A B O S X Y : Type}

theorem setupPhase_ok (setup : Option (σ → error × σ)) (errReads : Nat) (s : σ)
    (h : setupErr setup s = none) :
    ∃ pre : List (Event A B O S X Y), (∀ e ∈ pre, e = .setup none) ∧
      setupPhase setup errReads s = .inr (pre, afterSetup setup s) := by
  cases setup with
  | none => exact ⟨[], by simp, rfl⟩
  | some f =>
    refine ⟨[.setup none], by simp, ?_⟩
    simp only [setupErr] at h
    simp only [setupPhase, afterSetup]
    rcases hf : f s with ⟨e, s1⟩
    rw [hf] at h
    simp only at h
    subst h
    rfl

theorem sentOut_append (t u : List (Event A B O S X Y)) :
    sentOut (t ++ u) = sentOut t ++ sentOut u := by
  simp [sentOut, List.filterMap_append]

theorem sentSide_append (t u : List (Event A B O S X Y)) :
    sentSide (t ++ u) = sentSide t ++ sentSide u := by
  simp [sentSide, List.filterMap_append]

theorem receivedA_append (t u : List (Event A B O S X Y)) :
    receivedA (t ++ u) = receivedA t ++ receivedA u := by
  simp [receivedA, List.filterMap_append]

theorem receivedB_append (t u : List (Event A B O S X Y)) :
    receivedB (t ++ u) = receivedB t ++ receivedB u := by
  simp [receivedB, List.filterMap_append]

theorem stepValues_append (t u : List (Event A B O S X Y)) :
    stepValues (t ++ u) = stepValues t ++ stepValues u := by
  simp [stepValues, List.filterMap_append]

theorem stepArgs_append (t u : List (Event A B O S X Y)) :
    stepArgs (t ++ u) = stepArgs t ++ stepArgs u := by
  simp [stepArgs, List.filterMap_append]

theorem errWritten_append (t u : List (Event A B O S X Y)) :
    errWritten (t ++ u) = errWritten t ++ errWritten u := by
  simp [errWritten, List.filterMap_append]

/-- Actions outside the cycles of the `for` statement move no stream value and
invoke no step. -/
theorem quiet_reading (t : List (Event A B O S X Y)) (h : ∀ e ∈ t, e.inCycle = false) :
    sentOut t = [] ∧ sentSide t = [] ∧ receivedA t = [] ∧ receivedB t = [] ∧
      stepValues t = [] ∧ stepArgs t = [] := by
  refine ⟨?_, ?_, ?_, ?_, ?_, ?_⟩ <;>
  · simp only [sentOut, sentSide, receivedA, receivedB, stepValues, stepArgs,
      List.filterMap_eq_nil_iff]
    intro e he
    have hq := h e he
    cases e <;> first | rfl | simp [Event.inCycle, Event.isStep, Event.isTransfer] at hq

theorem Event.inCycle_false (e : Event A B O S X Y)
    (h : e.isTeardown = true ∨ e.isErrSend = true) : e.inCycle = false := by
  cases e <;> first | rfl | simp [Event.isTeardown, Event.isErrSend] at h

/-- The deferred block adds only a teardown invocation and an error send. -/
theorem deferred_trace (teardown : Option (σ → error × σ)) (pre : List (Event A B O S X Y))
    (b : Exit σ (Event A B O S X Y)) :
    ∃ post : List (Event A B O S X Y), (deferred teardown pre b).trace = pre ++ b.trace ++ post ∧
      ∀ e ∈ post, e.isTeardown = true ∨ e.isErrSend = true := by
  unfold deferred
  split
  · split
    · exact ⟨[], by simp, by simp⟩
    · split
      · exact ⟨[.teardown none], by simp, by simp [Event.isTeardown]⟩
      · exact ⟨_, rfl, by simp [Event.isTeardown, Event.isErrSend]⟩
  · exact ⟨[], by simp, by simp⟩

/-- When setup is unset or succeeds, the trace of a `loop` is that of its `for`
statement, framed by actions that move no stream value and invoke no step. -/
theorem lifecycle_trace (setup teardown : Option (σ → error × σ)) (errReads : Nat) (s : σ)
    (forStmt : σ → Exit σ (Event A B O S X Y)) (h : setupErr setup s = none) :
    ∃ pre post : List (Event A B O S X Y),
      (lifecycle setup teardown errReads s forStmt).trace
        = pre ++ (forStmt (afterSetup setup s)).trace ++ post ∧
      (∀ e ∈ pre, e = .setup none) ∧ (∀ e ∈ post, e.isTeardown = true ∨ e.isErrSend = true) := by
  obtain ⟨pre, hpre, hph⟩ := setupPhase_ok (A := A) (B := B) (O := O) (S := S) (X := X) (Y := Y)
    setup errReads s h
  obtain ⟨post, htr, hpost⟩ := deferred_trace teardown pre (forStmt (afterSetup setup s))
  refine ⟨pre, post, ?_, hpre, hpost⟩
  simp only [lifecycle, hph, htr]

/-- The stream values moved by a `loop` are those moved by its `for` statement. -/
theorem lifecycle_reading (setup teardown : Option (σ → error × σ)) (errReads : Nat) (s : σ)
    (forStmt : σ → Exit σ (Event A B O S X Y)) (h : setupErr setup s = none) :
    sentOut (lifecycle setup teardown errReads s forStmt).trace
        = sentOut (forStmt (afterSetup setup s)).trace ∧
      sentSide (lifecycle setup teardown errReads s forStmt).trace
        = sentSide (forStmt (afterSetup setup s)).trace ∧
      receivedA (lifecycle setup teardown errReads s forStmt).trace
        = receivedA (forStmt (afterSetup setup s)).trace ∧
      receivedB (lifecycle setup teardown errReads s forStmt).trace
        = receivedB (forStmt (afterSetup setup s)).trace ∧
      stepValues (lifecycle setup teardown errReads s forStmt).trace
        = stepValues (forStmt (afterSetup setup s)).trace ∧
      stepArgs (lifecycle setup teardown errReads s forStmt).trace
        = stepArgs (forStmt (afterSetup setup s)).trace := by
  obtain ⟨pre, post, htr, hpre, hpost⟩ := lifecycle_trace setup teardown errReads s forStmt h
  have h1 := quiet_reading pre (fun e he => by rw [hpre e he]; rfl)
  have h2 := quiet_reading post (fun e he => Event.inCycle_false e (hpost e he))
  obtain ⟨a1, a2, a3, a4, a5, a6⟩ := h1
  obtain ⟨b1, b2, b3, b4, b5, b6⟩ := h2
  rw [htr]
  simp only [sentOut_append, sentSide_append, receivedA_append, receivedB_append,
    stepValues_append, stepArgs_append, a1, a2, a3, a4, a5, a6, b1, b2, b3, b4, b5, b6,
    List.nil_append, List.append_nil, and_self]

end LifecycleLemmas

theorem stepResults_length {σ X Y : Type} (step : σ → X → (Y × error) × σ) (xs : List X) :
    ∀ s, (stepResults step s xs).length = xs.length := by
  induction xs with
  | nil => intro _; rfl
  | cons x xs ih => intro s; simp [stepResults, ih]

/-- For a closure whose returned value depends on the argument alone, the
returned values are the image of the arguments. -/
theorem stepResults_pure {σ X Y : Type} (step : σ → X → (Y × error) × σ) (f : X → Y)
    (hf : ∀ s x, (step s x).1.1 = f x) (xs : List X) :
    ∀ s, (stepResults step s xs).map Prod.fst = xs.map f := by
  induction xs with
  | nil => intro _; rfl
  | cons x xs ih => intro s; simp [stepResults, ih, hf]

/-! ## Converter and Transformer: the output is the image of the input -/

/-- One full cycle of the Converter `for` statement. -/
theorem ConverterNode.forLoop_cycle {σ From To : Type} [Inhabited From]
    (step : σ → From → (To × error) × σ) (r : RecvSel From) (inChan : List (RecvSel From))
    (outChan : List SendSel) (errReads : Nat) (s s1 : σ) (v : From) (v2 : To) (d : Option To)
    (hr : BlockingRecv r = some (v, none)) (hs : step s v = ((v2, none), s1))
    (hc : BlockingSend (outChan.headD .idle) v2 = some ⟨none, d⟩) :
    ConverterNode.forLoop step (r :: inChan) outChan errReads s =
      (ConverterNode.forLoop step inChan outChan.tail errReads s1).after
        [.recvA (some (v, none)), .step v v2 none, .sendOut v2 (some none)] := by
  simp only [ConverterNode.forLoop, hr, hs, hc]

theorem ConverterNode.forLoop_io {σ From To : Type} [Inhabited From]
    (step : σ → From → (To × error) × σ) (xs : List From) :
    ∀ (good rest : List (RecvSel From)) (outChan : List SendSel) (errReads : Nat) (s : σ),
      good.map BlockingRecv = xs.map (fun x => some (x, none)) →
      (∀ r ∈ rest.head?, ∀ v, BlockingRecv r ≠ some (v, none)) →
      xs.length ≤ outChan.length →
      (∀ c ∈ outChan, ∀ v : To, BlockingSend c v = some ⟨none, some v⟩) →
      (∀ r ∈ stepResults step s xs, r.2 = none) →
      sentOut (ConverterNode.forLoop step (good ++ rest) outChan errReads s).trace
          = (stepResults step s xs).map Prod.fst ∧
        receivedA (ConverterNode.forLoop step (good ++ rest) outChan errReads s).trace = xs := by
  induction xs with
  | nil =>
    intro good rest outChan errReads s hgood hrest _ _ _
    have hg : good = [] := by simpa using hgood
    subst hg
    cases rest with
    | nil => simp [ConverterNode.forLoop, parked, sentOut, receivedA, stepResults]
    | cons r rest =>
      have hr := hrest r (by simp)
      simp only [List.nil_append, ConverterNode.forLoop]
      rcases hb : BlockingRecv r with _ | ⟨v, _ | e⟩
      · simp [parked, sentOut, receivedA, stepResults]
      · exact absurd hb (hr v)
      · cases errReads <;> simp [errSend, sentOut, receivedA, stepResults]
  | cons x xs ih =>
    intro good rest outChan errReads s hgood hrest hlen hout hstep
    cases good with
    | nil => simp at hgood
    | cons r good =>
      simp only [List.map_cons, List.cons.injEq] at hgood
      obtain ⟨hr, hgood⟩ := hgood
      cases outChan with
      | nil => simp at hlen
      | cons c outChan =>
        have hc := hout c (by simp)
        simp only [stepResults, List.mem_cons, forall_eq_or_imp] at hstep
        obtain ⟨hx, hstep⟩ := hstep
        rcases hs : step s x with ⟨⟨v2, e⟩, s1⟩
        rw [hs] at hx hstep
        simp only at hx hstep
        subst hx
        have ih1 := ih good rest outChan errReads s1 hgood hrest
          (by simpa using hlen) (fun c hc v => hout c (by simp [hc]) v) hstep
        rw [List.cons_append, ConverterNode.forLoop_cycle step r _ _ errReads s s1 x v2 _ hr hs
          (by simpa using hc v2)]
        simp only [Exit.after, stepResults, hs, List.map_cons, List.tail_cons]
        rw [sentOut_append, receivedA_append, ih1.1, ih1.2]
        simp [sentOut, receivedA]

/-- The `for` statement of the Transformer is that of the Converter at `From = To`. -/
theorem TransformerNode.forLoop_eq {σ T : Type} [Inhabited T] (step : σ → T → (T × error) × σ)
    (inChan : List (RecvSel T)) :
    ∀ (outChan : List SendSel) (errReads : Nat) (s : σ),
      TransformerNode.forLoop step inChan outChan errReads s =
        ConverterNode.forLoop step inChan outChan errReads s := by
  induction inChan with
  | nil => intro _ _ _; rfl
  | cons r inChan ih =>
    intro outChan errReads s
    simp only [TransformerNode.forLoop, ConverterNode.forLoop, ih]

/-- A Transformer with the callbacks of `n`, seen as a Converter. -/
theorem TransformerNode.loop_eq {σ T : Type} [Inhabited T] (n : TransformerNode σ T)
    (step : σ → T → (T × error) × σ) (inChan : List (RecvSel T)) (outChan : List SendSel)
    (errReads : Nat) (s : σ) :
    n.loop step inChan outChan errReads s =
      (ConverterNode.mk n.name n.setup n.teardown n.step).loop step inChan outChan errReads s := by
  simp only [TransformerNode.loop, ConverterNode.loop, TransformerNode.forLoop_eq]

theorem ConverterNode.loop_io {σ From To : Type} [Inhabited From] (n : ConverterNode σ From To)
    (step : σ → From → (To × error) × σ) (xs : List From)
    (good rest : List (RecvSel From)) (outChan : List SendSel) (errReads : Nat) (s : σ)
    (hsetup : setupErr n.setup s = none)
    (hgood : good.map BlockingRecv = xs.map (fun x => some (x, none)))
    (hrest : ∀ r ∈ rest.head?, ∀ v, BlockingRecv r ≠ some (v, none))
    (hlen : xs.length ≤ outChan.length)
    (hout : ∀ c ∈ outChan, ∀ v : To, BlockingSend c v = some ⟨none, some v⟩)
    (hstep : ∀ r ∈ stepResults step (afterSetup n.setup s) xs, r.2 = none) :
    sentOut (n.loop step (good ++ rest) outChan errReads s).trace
        = (stepResults step (afterSetup n.setup s) xs).map Prod.fst ∧
      receivedA (n.loop step (good ++ rest) outChan errReads s).trace = xs := by
  have hio := ConverterNode.forLoop_io step xs good rest outChan errReads (afterSetup n.setup s)
    hgood hrest hlen hout hstep
  have hl := lifecycle_reading n.setup n.teardown errReads s
    (fun s1 => ConverterNode.forLoop step (good ++ rest) outChan errReads s1) hsetup
  simp only [ConverterNode.loop]
  rw [hl.1, hl.2.2.1]
  exact hio

/-- C1. Transformer and Converter: when setup is unset or succeeds, the receives
deliver the finite sequence `xs` (after which the input is silent or the
receive fails), every send completes and `step` returns no error on `xs`, the
values delivered on the output are, index for index, the values returned by
`step` on `xs`: the same number, and `xs.map f` for a step computing `f`. -/
theorem transformer_converter_output_is_step_image :
    (∀ (σ T : Type) [Inhabited T] (n : TransformerNode σ T) (step : σ → T → (T × error) × σ)
        (xs : List T) (good rest : List (RecvSel T)) (outChan : List SendSel) (errReads : Nat)
        (s : σ),
        setupErr n.setup s = none →
        good.map BlockingRecv = xs.map (fun x => some (x, none)) →
        (∀ r ∈ rest.head?, ∀ v, BlockingRecv r ≠ some (v, none)) →
        xs.length ≤ outChan.length →
        (∀ c ∈ outChan, ∀ v : T, BlockingSend c v = some ⟨none, some v⟩) →
        (∀ r ∈ stepResults step (afterSetup n.setup s) xs, r.2 = none) →
        receivedA (n.loop step (good ++ rest) outChan errReads s).trace = xs ∧
        (sentOut (n.loop step (good ++ rest) outChan errReads s).trace).length = xs.length ∧
        sentOut (n.loop step (good ++ rest) outChan errReads s).trace
          = (stepResults step (afterSetup n.setup s) xs).map Prod.fst ∧
        ∀ f : T → T, (∀ s x, (step s x).1.1 = f x) →
          sentOut (n.loop step (good ++ rest) outChan errReads s).trace = xs.map f) ∧
    (∀ (σ From To : Type) [Inhabited From] (n : ConverterNode σ From To)
        (step : σ → From → (To × error) × σ)
        (xs : List From) (good rest : List (RecvSel From)) (outChan : List SendSel)
        (errReads : Nat) (s : σ),
        setupErr n.setup s = none →
        good.map BlockingRecv = xs.map (fun x => some (x, none)) →
        (∀ r ∈ rest.head?, ∀ v, BlockingRecv r ≠ some (v, none)) →
        xs.length ≤ outChan.length →
        (∀ c ∈ outChan, ∀ v : To, BlockingSend c v = some ⟨none, some v⟩) →
        (∀ r ∈ stepResults step (afterSetup n.setup s) xs, r.2 = none) →
        receivedA (n.loop step (good ++ rest) outChan errReads s).trace = xs ∧
        (sentOut (n.loop step (good ++ rest) outChan errReads s).trace).length = xs.length ∧
        sentOut (n.loop step (good ++ rest) outChan errReads s).trace
          = (stepResults step (afterSetup n.setup s) xs).map Prod.fst ∧
        ∀ f : From → To, (∀ s x, (step s x).1.1 = f x) →
          sentOut (n.loop step (good ++ rest) outChan errReads s).trace = xs.map f) := by
  constructor
  · intro σ T _ n step xs good rest outChan errReads s hsetup hgood hrest hlen hout hstep
    rw [TransformerNode.loop_eq]
    have h := ConverterNode.loop_io (ConverterNode.mk n.name n.setup n.teardown n.step) step xs
      good rest outChan errReads s hsetup hgood hrest hlen hout hstep
    refine ⟨h.2, ?_, h.1, ?_⟩
    · rw [h.1, List.length_map, stepResults_length]
    · intro f hf
      rw [h.1, stepResults_pure step f hf]
  · intro σ From To _ n step xs good rest outChan errReads s hsetup hgood hrest hlen hout hstep
    have h := ConverterNode.loop_io n step xs good rest outChan errReads s hsetup hgood hrest
      hlen hout hstep
    refine ⟨h.2, ?_, h.1, ?_⟩
    · rw [h.1, List.length_map, stepResults_length]
    · intro f hf
      rw [h.1, stepResults_pure step f hf]

/-- Witness for C1: a doubling Transformer fed `[1, 2, 3]` and then cancelled
delivers `[2, 4, 6]`. -/
theorem transformer_converter_output_is_step_image_witness :
    sentOut ((NewTransformerNode Unit Nat "double").loop doubler
      ([.value 1, .value 2, .value 3] ++ [.cancelled])
      [.ready, .ready, .ready] 1 ()).trace = [2, 4, 6] :=
  (transformer_converter_output_is_step_image.1 Unit Nat (NewTransformerNode Unit Nat "double")
    doubler [1, 2, 3] [.value 1, .value 2, .value 3] [.cancelled] [.ready, .ready, .ready] 1 ()
    rfl (by decide) (by simp [BlockingRecv, RecvSel.cancelled]) (by decide)
    (by simp [BlockingSend, SendSel.ready]) (by decide)).2.2.2 (fun x => 2 * x) (fun _ _ => rfl)

/-! ## Cloner -/

section ReadingCons

variable {σ A B O S X Y : Type}

theorem errSend_trace (pre : List (Event A B O S X Y)) (e : error) (errReads : Nat) (s : σ) :
    (errSend pre e errReads s).trace = pre ++ [.errSend e (decide (0 < errReads))] := by
  cases errReads <;> simp [errSend]

theorem errSend_returned (pre : List (Event A B O S X Y)) (e : error) (errReads : Nat) (s : σ) :
    (errSend pre e errReads s).returned = decide (0 < errReads) := by
  cases errReads <;> simp [errSend]

theorem errSend_errReads (pre : List (Event A B O S X Y)) (e : error) (errReads : Nat) (s : σ) :
    (errSend pre e errReads s).errReads = errReads - 1 := by
  cases errReads <;> simp [errSend]

theorem errSend_state (pre : List (Event A B O S X Y)) (e : error) (errReads : Nat) (s : σ) :
    (errSend pre e errReads s).state = s := by
  cases errReads <;> simp [errSend]

end ReadingCons

theorem ClonerNode.cloner_forLoop_outputs {σ T : Type} [Inhabited T] (step : σ → T → (T × error) × σ)
    (inChan : List (RecvSel T)) :
    ∀ (outChan cloneChan : List SendSel) (errReads : Nat) (s : σ),
      (receivedA (ClonerNode.forLoop step inChan outChan cloneChan errReads s).trace
          = sentOut (ClonerNode.forLoop step inChan outChan cloneChan errReads s).trace ∨
        ∃ v, receivedA (ClonerNode.forLoop step inChan outChan cloneChan errReads s).trace
          = sentOut (ClonerNode.forLoop step inChan outChan cloneChan errReads s).trace ++ [v]) ∧
      ((stepResults step s
            (receivedA (ClonerNode.forLoop step inChan outChan cloneChan errReads s).trace)).map
            Prod.fst
          = sentSide (ClonerNode.forLoop step inChan outChan cloneChan errReads s).trace ∨
        ∃ y, (stepResults step s
            (receivedA (ClonerNode.forLoop step inChan outChan cloneChan errReads s).trace)).map
            Prod.fst
          = sentSide (ClonerNode.forLoop step inChan outChan cloneChan errReads s).trace ++ [y]) ∧
      ((∀ e ∈ (ClonerNode.forLoop step inChan outChan cloneChan errReads s).trace,
          e.clean = true) →
        sentOut (ClonerNode.forLoop step inChan outChan cloneChan errReads s).trace
          = receivedA (ClonerNode.forLoop step inChan outChan cloneChan errReads s).trace ∧
        sentSide (ClonerNode.forLoop step inChan outChan cloneChan errReads s).trace
          = (stepResults step s
            (receivedA (ClonerNode.forLoop step inChan outChan cloneChan errReads s).trace)).map
            Prod.fst) := by
  induction inChan with
  | nil =>
    intro outChan cloneChan errReads s
    simp [ClonerNode.forLoop, parked, receivedA, sentOut, sentSide, stepResults]
  | cons r inChan ih =>
    intro outChan cloneChan errReads s
    rcases hr : BlockingRecv r with _ | ⟨v, _ | e⟩
    · simp only [ClonerNode.forLoop, hr, parked]
      simp [receivedA, sentOut, sentSide, stepResults]
    · rcases hs : step s v with ⟨⟨cv, _ | e⟩, s1⟩
      · rcases ho : BlockingSend (outChan.headD .idle) v with _ | ⟨_ | e, d⟩
        · simp only [ClonerNode.forLoop, hr, hs, ho, parked]
          simp [receivedA, sentOut, sentSide, stepResults, Event.clean, hs]
        · rcases hc : BlockingSend (cloneChan.headD .idle) cv with _ | ⟨_ | e, d2⟩
          · simp only [ClonerNode.forLoop, hr, hs, ho, hc, parked]
            simp [receivedA, sentOut, sentSide, stepResults, Event.clean, hs]
          · have ih1 := ih outChan.tail cloneChan.tail errReads s1
            obtain ⟨h1, h2, h3⟩ := ih1
            simp only [ClonerNode.forLoop, hr, hs, ho, hc, Exit.after]
            generalize (ClonerNode.forLoop step inChan outChan.tail cloneChan.tail errReads
              s1).trace = tr at h1 h2 h3 ⊢
            have hR : receivedA ([Event.recvA (some (v, none)), Event.step v cv none,
                Event.sendOut v (some none), Event.sendSide cv (some none)] ++ tr)
                = v :: receivedA tr := by rw [receivedA_append]; rfl
            have hO : sentOut ([Event.recvA (some (v, none)), Event.step v cv none,
                Event.sendOut v (some none), Event.sendSide cv (some none)] ++ tr)
                = v :: sentOut tr := by rw [sentOut_append]; rfl
            have hS : sentSide ([Event.recvA (some (v, none)), Event.step v cv none,
                Event.sendOut v (some none), Event.sendSide cv (some none)] ++ tr)
                = cv :: sentSide tr := by rw [sentSide_append]; rfl
            rw [hR, hO, hS]
            simp only [stepResults, hs, List.map_cons]
            refine ⟨?_, ?_, ?_⟩
            · rcases h1 with h | ⟨w, h⟩
              · left; rw [h]
              · right; exact ⟨w, by rw [h]; rfl⟩
            · rcases h2 with h | ⟨w, h⟩
              · left; rw [h]
              · right; exact ⟨w, by rw [h]; rfl⟩
            · intro hcl
              have h := h3 (fun e he => hcl e (by simp [he]))
              rw [h.1, ← h.2]
              exact ⟨rfl, rfl⟩
          · simp only [ClonerNode.forLoop, hr, hs, ho, hc, errSend_trace]
            simp [receivedA, sentOut, sentSide, stepResults, Event.clean, hs]
        · simp only [ClonerNode.forLoop, hr, hs, ho, errSend_trace]
          simp [receivedA, sentOut, sentSide, stepResults, Event.clean, hs]
      · simp only [ClonerNode.forLoop, hr, hs, errSend_trace]
        simp [receivedA, sentOut, sentSide, stepResults, Event.clean, hs]
    · simp only [ClonerNode.forLoop, hr, errSend_trace]
      simp [receivedA, sentOut, sentSide, stepResults]

section LifecycleFailed

variable {σ A B O S X Y : Type}

/-- A failing setup: the `loop` reports the wrapped error and nothing else happens. -/
theorem lifecycle_setup_failed (setup teardown : Option (σ → error × σ)) (errReads : Nat)
    (s : σ) (forStmt : σ → Exit σ (Event A B O S X Y)) (e : GoError)
    (h : setupErr setup s = some e) :
    lifecycle setup teardown errReads s forStmt =
      ⟨[.setup (some e), .errSend (some (.Wrap e "setup error")) (decide (0 < errReads))],
        decide (0 < errReads)⟩ := by
  cases setup with
  | none => simp [setupErr] at h
  | some f =>
    simp only [setupErr] at h
    rcases hf : f s with ⟨e1, s1⟩
    rw [hf] at h
    simp only at h
    subst h
    simp only [lifecycle, setupPhase, hf]

end LifecycleFailed

/-- C2, amended. Cloner: in every run the values delivered on the primary output
are the received values `xs`, or `xs` without its last element, and the values
delivered on the clone output are the values returned by `step` on `xs`, or
these without the last one; when no step returned an error and every send
completed, the primary output is `xs` and the clone output is `step` on `xs`,
element for element. -/
theorem cloner_outputs_follow_input {σ T : Type} [Inhabited T] (n : ClonerNode σ T)
    (step : σ → T → (T × error) × σ) (inChan : List (RecvSel T))
    (outChan cloneChan : List SendSel) (errReads : Nat) (s : σ) :
    (receivedA (n.loop step inChan outChan cloneChan errReads s).trace
        = sentOut (n.loop step inChan outChan cloneChan errReads s).trace ∨
      ∃ v, receivedA (n.loop step inChan outChan cloneChan errReads s).trace
        = sentOut (n.loop step inChan outChan cloneChan errReads s).trace ++ [v]) ∧
    ((stepResults step (afterSetup n.setup s)
          (receivedA (n.loop step inChan outChan cloneChan errReads s).trace)).map Prod.fst
        = sentSide (n.loop step inChan outChan cloneChan errReads s).trace ∨
      ∃ y, (stepResults step (afterSetup n.setup s)
          (receivedA (n.loop step inChan outChan cloneChan errReads s).trace)).map Prod.fst
        = sentSide (n.loop step inChan outChan cloneChan errReads s).trace ++ [y]) ∧
    ((∀ e ∈ (n.loop step inChan outChan cloneChan errReads s).trace, e.clean = true) →
      sentOut (n.loop step inChan outChan cloneChan errReads s).trace
        = receivedA (n.loop step inChan outChan cloneChan errReads s).trace ∧
      sentSide (n.loop step inChan outChan cloneChan errReads s).trace
        = (stepResults step (afterSetup n.setup s)
          (receivedA (n.loop step inChan outChan cloneChan errReads s).trace)).map Prod.fst) := by
  rcases hse : setupErr n.setup s with _ | e
  · have hl := lifecycle_reading n.setup n.teardown errReads s
      (fun s1 => ClonerNode.forLoop step inChan outChan cloneChan errReads s1) hse
    obtain ⟨pre, post, htr, -, -⟩ := lifecycle_trace n.setup n.teardown errReads s
      (fun s1 => ClonerNode.forLoop step inChan outChan cloneChan errReads s1) hse
    have hf := ClonerNode.cloner_forLoop_outputs step inChan outChan cloneChan errReads
      (afterSetup n.setup s)
    simp only [ClonerNode.loop]
    rw [hl.1, hl.2.1, hl.2.2.1]
    refine ⟨hf.1, hf.2.1, fun hcl => hf.2.2 (fun e he => hcl e ?_)⟩
    rw [htr]
    simp [he]
  · simp only [ClonerNode.loop, lifecycle_setup_failed _ _ _ _ _ e hse]
    simp [receivedA, sentOut, sentSide, stepResults]

/-- Witness for C2: a Cloner whose step doubles, fed `[1, 2]` and then cancelled,
forwards `[1, 2]` and delivers the clones `[2, 4]`. -/
theorem cloner_outputs_follow_input_witness :
    sentOut ((NewClonerNode Unit Nat "clone").loop doubler
        [.value 1, .value 2, .cancelled] [.ready, .ready] [.ready, .ready] 1 ()).trace = [1, 2] ∧
      sentSide ((NewClonerNode Unit Nat "clone").loop doubler
        [.value 1, .value 2, .cancelled] [.ready, .ready] [.ready, .ready] 1 ()).trace = [2, 4] :=
  (cloner_outputs_follow_input (NewClonerNode Unit Nat "clone") doubler
    [.value 1, .value 2, .cancelled] [.ready, .ready] [.ready, .ready] 1 ()).2.2 (by decide)

/-- Counterexample to C2 as stated: a Cloner receives `1` and its step fails, so
nothing is delivered on the primary output; a Cloner receives `1` and the send
on the clone output is cancelled, so the clone `2` is never delivered. -/
theorem cloner_outputs_counterexample :
    receivedA ((NewClonerNode Unit Nat "clone").loop failing
        [.value 1] [.ready] [.ready] 2 ()).trace = [1] ∧
      sentOut ((NewClonerNode Unit Nat "clone").loop failing
        [.value 1] [.ready] [.ready] 2 ()).trace = [] ∧
      sentOut ((NewClonerNode Unit Nat "clone").loop failing
        [.value 1] [.ready] [.ready] 2 ()).trace
        ≠ receivedA ((NewClonerNode Unit Nat "clone").loop failing
          [.value 1] [.ready] [.ready] 2 ()).trace ∧
      receivedA ((NewClonerNode Unit Nat "clone").loop doubler
        [.value 1] [.ready] [.cancelled] 2 ()).trace = [1] ∧
      sentSide ((NewClonerNode Unit Nat "clone").loop doubler
        [.value 1] [.ready] [.cancelled] 2 ()).trace = [] ∧
      sentSide ((NewClonerNode Unit Nat "clone").loop doubler
        [.value 1] [.ready] [.cancelled] 2 ()).trace
        ≠ (receivedA ((NewClonerNode Unit Nat "clone").loop doubler
          [.value 1] [.ready] [.cancelled] 2 ()).trace).map (fun x => 2 * x) := by
  decide

/-! ## Adjacent actions -/

theorem mem_successors {E : Type} (tr : List E) (e : E) (n : Option E) :
    (e, n) ∈ successors tr ↔ ∃ pre post, tr = pre ++ e :: post ∧ post.head? = n := by
  induction tr with
  | nil => simp [successors]
  | cons a t ih =>
    simp only [successors, List.mem_cons, Prod.mk.injEq, ih]
    constructor
    · rintro (⟨rfl, rfl⟩ | ⟨pre, post, rfl, h⟩)
      · exact ⟨[], t, rfl, rfl⟩
      · exact ⟨a :: pre, post, rfl, h⟩
    · rintro ⟨pre, post, h, hn⟩
      cases pre with
      | nil =>
        simp only [List.nil_append, List.cons.injEq] at h
        left
        exact ⟨h.1.symm, by rw [h.2, hn]⟩
      | cons b pre =>
        simp only [List.cons_append, List.cons.injEq] at h
        right
        exact ⟨pre, post, h.2, hn⟩

theorem eq_nil_or_snoc {E : Type} (l : List E) : l = [] ∨ ∃ L b, l = L ++ [b] := by
  rcases List.eq_nil_or_concat l with h | ⟨L, b, h⟩
  · exact Or.inl h
  · exact Or.inr ⟨L, b, by rw [h, List.concat_eq_append]⟩

/-- An action of the kind `P` in a trace whose first part `p0` and last part
`q0` hold no action of that kind lies in the middle part. -/
theorem split_middle {E : Type} (P : E → Prop) (p0 : List E) :
    ∀ (m q0 pre post : List E) (e : E), (∀ x ∈ p0, ¬ P x) → (∀ x ∈ q0, ¬ P x) → P e →
      p0 ++ m ++ q0 = pre ++ e :: post →
      ∃ pre1 post1, pre = p0 ++ pre1 ∧ post = post1 ++ q0 ∧ m = pre1 ++ e :: post1 := by
  induction p0 with
  | nil =>
    intro m q0 pre post e _ hq he h
    simp only [List.nil_append] at h
    rcases List.append_eq_append_iff.1 h with ⟨a, h1, h2⟩ | ⟨c, h1, h2⟩
    · exact absurd he (hq e (by rw [h2]; simp))
    · cases c with
      | nil =>
        simp only [List.nil_append] at h2
        exact absurd he (hq e (by rw [← h2]; simp))
      | cons c0 c =>
        simp only [List.cons_append, List.cons.injEq] at h2
        obtain ⟨rfl, rfl⟩ := h2
        exact ⟨pre, c, rfl, rfl, h1⟩
  | cons x p0 ih =>
    intro m q0 pre post e hp hq he h
    cases pre with
    | nil =>
      simp only [List.cons_append, List.nil_append, List.cons.injEq] at h
      exact absurd (h.1 ▸ he) (hp x (by simp))
    | cons y pre =>
      simp only [List.cons_append, List.cons.injEq] at h
      obtain ⟨rfl, h⟩ := h
      obtain ⟨pre1, post1, h1, h2, h3⟩ := ih m q0 pre post e
        (fun z hz => hp z (by simp [hz])) hq he h
      exact ⟨pre1, post1, by rw [h1]; rfl, h2, h3⟩

/-! ## Previewer -/

theorem NonBlockingSend_cases {T : Type} (c : SendSel) (v : T) :
    NonBlockingSend c v = ⟨none, some v⟩ ∨ NonBlockingSend c v = ⟨some .NotSent, none⟩ ∨
      NonBlockingSend c v = ⟨some .Canceled, none⟩ := by
  rcases c with ⟨_ | _, _ | _, _ | _⟩ <;> simp [NonBlockingSend]

theorem GoError.NotSent_is : GoError.NotSent.Is .NotSent = true := by decide

theorem GoError.Canceled_is_notSent : GoError.Canceled.Is .NotSent = false := by decide

theorem successors_cons {E : Type} (e : E) (t : List E) :
    successors (e :: t) = (e, t.head?) :: successors t := rfl

theorem PreviewerNode.previewer_forLoop_flow {σ T P : Type} [Inhabited T]
    (step : σ → T → (P × error) × σ) (inChan : List (RecvSel T)) :
    ∀ (outChan previewChan : List SendSel) (errReads : Nat) (s : σ),
      (∃ r, (PreviewerNode.forLoop step inChan outChan previewChan errReads s).trace.head?
          = some (.recvA r)) ∧
      ∀ p ∈ successors (PreviewerNode.forLoop step inChan outChan previewChan errReads s).trace,
        PreviewerNode.Flow p.1 p.2 := by
  induction inChan with
  | nil =>
    intro outChan previewChan errReads s
    simp [PreviewerNode.forLoop, parked, successors, PreviewerNode.Flow]
  | cons r inChan ih =>
    intro outChan previewChan errReads s
    rcases hr : BlockingRecv r with _ | ⟨v, _ | e⟩
    · simp only [PreviewerNode.forLoop, hr, parked]
      simp [successors, PreviewerNode.Flow]
    · rcases ho : BlockingSend (outChan.headD .idle) v with _ | ⟨_ | e, d⟩
      · simp only [PreviewerNode.forLoop, hr, ho, parked]
        simp [successors, PreviewerNode.Flow]
      · rcases hs : step s v with ⟨⟨pv, _ | e⟩, s1⟩
        · obtain ⟨⟨r1, hhead⟩, hflow⟩ := ih outChan.tail previewChan.tail errReads s1
          rcases NonBlockingSend_cases (previewChan.headD .idle) pv with hn | hn | hn
          · simp only [PreviewerNode.forLoop, hr, ho, hs, hn, Exit.after]
            simp only [List.cons_append, List.nil_append, successors_cons, List.head?_cons, hhead]
            simpa [PreviewerNode.Flow] using hflow
          · simp only [PreviewerNode.forLoop, hr, ho, hs, hn, Exit.after, GoError.NotSent_is,
              ↓reduceIte]
            simp only [List.cons_append, List.nil_append, successors_cons, List.head?_cons, hhead]
            simpa [PreviewerNode.Flow] using hflow
          · simp only [PreviewerNode.forLoop, hr, ho, hs, hn, errSend_trace,
              GoError.Canceled_is_notSent, Bool.false_eq_true, ↓reduceIte]
            simp [successors, PreviewerNode.Flow]
            exact Nat.eq_zero_or_pos _
        · simp only [PreviewerNode.forLoop, hr, ho, hs, errSend_trace]
          simp [successors, PreviewerNode.Flow]
          exact Nat.eq_zero_or_pos _
      · simp only [PreviewerNode.forLoop, hr, ho, errSend_trace]
        simp [successors, PreviewerNode.Flow]
        exact Nat.eq_zero_or_pos _
    · simp only [PreviewerNode.forLoop, hr, errSend_trace]
      simp [successors, PreviewerNode.Flow]
      exact Nat.eq_zero_or_pos _

theorem PreviewerNode.previewer_forLoop_reading {σ T P : Type} [Inhabited T]
    (step : σ → T → (P × error) × σ) (inChan : List (RecvSel T)) :
    ∀ (outChan previewChan : List SendSel) (errReads : Nat) (s : σ),
      (receivedA (PreviewerNode.forLoop step inChan outChan previewChan errReads s).trace
          = sentOut (PreviewerNode.forLoop step inChan outChan previewChan errReads s).trace ∨
        ∃ v r, r ≠ some none ∧
          .sendOut v r ∈ (PreviewerNode.forLoop step inChan outChan previewChan errReads s).trace ∧
          receivedA (PreviewerNode.forLoop step inChan outChan previewChan errReads s).trace
            = sentOut (PreviewerNode.forLoop step inChan outChan previewChan errReads s).trace
              ++ [v]) ∧
      stepArgs (PreviewerNode.forLoop step inChan outChan previewChan errReads s).trace
        = sentOut (PreviewerNode.forLoop step inChan outChan previewChan errReads s).trace ∧
      (sentSide (PreviewerNode.forLoop step inChan outChan previewChan errReads s).trace).Sublist
        ((stepResults step s
          (receivedA (PreviewerNode.forLoop step inChan outChan previewChan errReads s).trace)).map
          Prod.fst) := by
  induction inChan with
  | nil =>
    intro outChan previewChan errReads s
    simp [PreviewerNode.forLoop, parked, receivedA, sentOut, sentSide, stepArgs, stepResults]
  | cons r inChan ih =>
    intro outChan previewChan errReads s
    rcases hr : BlockingRecv r with _ | ⟨v, _ | e⟩
    · simp only [PreviewerNode.forLoop, hr, parked]
      simp [receivedA, sentOut, sentSide, stepArgs, stepResults]
    · rcases ho : BlockingSend (outChan.headD .idle) v with _ | ⟨_ | e, d⟩
      · simp only [PreviewerNode.forLoop, hr, ho, parked]
        simp [receivedA, sentOut, sentSide, stepArgs, stepResults]
        exact ⟨v, none, by simp, ⟨rfl, rfl⟩, rfl⟩
      · rcases hs : step s v with ⟨⟨pv, _ | e⟩, s1⟩
        · obtain ⟨h1, h2, h3⟩ := ih outChan.tail previewChan.tail errReads s1
          rcases NonBlockingSend_cases (previewChan.headD .idle) pv with hn | hn | hn
          · simp only [PreviewerNode.forLoop, hr, ho, hs, hn, Exit.after]
            generalize (PreviewerNode.forLoop step inChan outChan.tail previewChan.tail errReads
              s1).trace = tr at h1 h2 h3 ⊢
            have hR : receivedA ([Event.recvA (some (v, none)), Event.sendOut v (some none),
                Event.step v pv none, Event.sendSide pv (some none)] ++ tr)
                = v :: receivedA tr := by rw [receivedA_append]; rfl
            have hO : sentOut ([Event.recvA (some (v, none)), Event.sendOut v (some none),
                Event.step v pv none, Event.sendSide pv (some none)] ++ tr)
                = v :: sentOut tr := by rw [sentOut_append]; rfl
            have hS : sentSide ([Event.recvA (some (v, none)), Event.sendOut v (some none),
                Event.step v pv none, Event.sendSide pv (some none)] ++ tr)
                = pv :: sentSide tr := by rw [sentSide_append]; rfl
            have hA : stepArgs ([Event.recvA (some (v, none)), Event.sendOut v (some none),
                Event.step v pv none, Event.sendSide pv (some none)] ++ tr)
                = v :: stepArgs tr := by rw [stepArgs_append]; rfl
            rw [hR, hO, hS, hA]
            simp only [stepResults, hs, List.map_cons]
            refine ⟨?_, by rw [h2], h3.cons₂ pv⟩
            rcases h1 with h | ⟨w, r, hw, hmem, h⟩
            · left; rw [h]
            · right; exact ⟨w, r, hw, by simp [hmem], by rw [h]; rfl⟩
          · simp only [PreviewerNode.forLoop, hr, ho, hs, hn, Exit.after, GoError.NotSent_is,
              ↓reduceIte]
            generalize (PreviewerNode.forLoop step inChan outChan.tail previewChan.tail errReads
              s1).trace = tr at h1 h2 h3 ⊢
            have hR : receivedA ([Event.recvA (some (v, none)), Event.sendOut v (some none),
                Event.step v pv none, Event.sendSide pv (some (some GoError.NotSent))] ++ tr)
                = v :: receivedA tr := by rw [receivedA_append]; rfl
            have hO : sentOut ([Event.recvA (some (v, none)), Event.sendOut v (some none),
                Event.step v pv none, Event.sendSide pv (some (some GoError.NotSent))] ++ tr)
                = v :: sentOut tr := by rw [sentOut_append]; rfl
            have hS : sentSide ([Event.recvA (some (v, none)), Event.sendOut v (some none),
                Event.step v pv none, Event.sendSide pv (some (some GoError.NotSent))] ++ tr)
                = sentSide tr := by rw [sentSide_append]; rfl
            have hA : stepArgs ([Event.recvA (some (v, none)), Event.sendOut v (some none),
                Event.step v pv none, Event.sendSide pv (some (some GoError.NotSent))] ++ tr)
                = v :: stepArgs tr := by rw [stepArgs_append]; rfl
            rw [hR, hO, hS, hA]
            simp only [stepResults, hs, List.map_cons]
            refine ⟨?_, by rw [h2], h3.cons pv⟩
            rcases h1 with h | ⟨w, r, hw, hmem, h⟩
            · left; rw [h]
            · right; exact ⟨w, r, hw, by simp [hmem], by rw [h]; rfl⟩
          · simp only [PreviewerNode.forLoop, hr, ho, hs, hn, errSend_trace,
              GoError.Canceled_is_notSent, Bool.false_eq_true, ↓reduceIte]
            simp [receivedA, sentOut, sentSide, stepArgs, stepResults]
        · simp only [PreviewerNode.forLoop, hr, ho, hs, errSend_trace]
          simp [receivedA, sentOut, sentSide, stepArgs, stepResults]
      · simp only [PreviewerNode.forLoop, hr, ho, errSend_trace]
        simp [receivedA, sentOut, sentSide, stepArgs, stepResults]
        exact ⟨v, some (some e), by simp, ⟨rfl, rfl⟩, rfl⟩
    · simp only [PreviewerNode.forLoop, hr, errSend_trace]
      simp [receivedA, sentOut, sentSide, stepArgs, stepResults]

section LifecycleSplit

variable {σ A B O S X Y : Type}

/-- A step or a transfer found in the trace of a `loop` is an action of its
`for` statement: the trace splits around it accordingly. -/
theorem lifecycle_split (setup teardown : Option (σ → error × σ)) (errReads : Nat) (s : σ)
    (forStmt : σ → Exit σ (Event A B O S X Y)) (pre post : List (Event A B O S X Y))
    (e : Event A B O S X Y) (he : e.inCycle = true)
    (h : (lifecycle setup teardown errReads s forStmt).trace = pre ++ e :: post) :
    ∃ p0 pre1 post1 q0, pre = p0 ++ pre1 ∧ post = post1 ++ q0 ∧
      (forStmt (afterSetup setup s)).trace = pre1 ++ e :: post1 ∧
      (∀ x ∈ p0, x = .setup none) ∧ (∀ x ∈ q0, x.isTeardown = true ∨ x.isErrSend = true) := by
  rcases hse : setupErr setup s with _ | e1
  · obtain ⟨p0, q0, htr, hp, hq⟩ := lifecycle_trace setup teardown errReads s forStmt hse
    rw [htr] at h
    obtain ⟨pre1, post1, h1, h2, h3⟩ := split_middle (fun x => x.inCycle = true) p0 _ q0 pre post e
      (fun x hx => by simp [hp x hx, Event.inCycle, Event.isStep, Event.isTransfer])
      (fun x hx => by simp [Event.inCycle_false x (hq x hx)]) he h
    exact ⟨p0, pre1, post1, q0, h1, h2, h3, hp, hq⟩
  · rw [lifecycle_setup_failed _ _ _ _ _ e1 hse] at h
    have hmem : e ∈ [Event.setup (some e1),
        Event.errSend (some (GoError.Wrap e1 "setup error")) (decide (0 < errReads))] := by
      simp only at h
      rw [h]; simp
    simp only [List.mem_cons, List.mem_singleton, List.not_mem_nil, or_false] at hmem
    rcases hmem with rfl | rfl <;> simp [Event.inCycle, Event.isStep, Event.isTransfer] at he

end LifecycleSplit

/-- C3, amended. Previewer: every received value is passed at once to a blocking
send on the primary output; every invocation of `step` comes right after the
receipt of its argument and the completed send of that argument on the
primary output; so the values on which `step` was invoked, whatever it
returned and whatever became of the preview, are exactly the values delivered
on the primary output, and these are the received values, the last one left
out only when its blocking send was cancelled or never completed. -/
theorem previewer_forwards_before_step {σ T P : Type} [Inhabited T] (n : PreviewerNode σ T P)
    (step : σ → T → (P × error) × σ) (inChan : List (RecvSel T))
    (outChan previewChan : List SendSel) (errReads : Nat) (s : σ) :
    (∀ pre v post,
      (n.loop step inChan outChan previewChan errReads s).trace
        = pre ++ .recvA (some (v, none)) :: post →
      ∃ r post1, post = .sendOut v r :: post1) ∧
    (∀ pre x y err post,
      (n.loop step inChan outChan previewChan errReads s).trace = pre ++ .step x y err :: post →
      ∃ pre1, pre = pre1 ++ [.recvA (some (x, none)), .sendOut x (some none)]) ∧
    stepArgs (n.loop step inChan outChan previewChan errReads s).trace
      = sentOut (n.loop step inChan outChan previewChan errReads s).trace ∧
    (receivedA (n.loop step inChan outChan previewChan errReads s).trace
        = sentOut (n.loop step inChan outChan previewChan errReads s).trace ∨
      ∃ v r, r ≠ some none ∧
        .sendOut v r ∈ (n.loop step inChan outChan previewChan errReads s).trace ∧
        receivedA (n.loop step inChan outChan previewChan errReads s).trace
          = sentOut (n.loop step inChan outChan previewChan errReads s).trace ++ [v]) := by
  have hflow := PreviewerNode.previewer_forLoop_flow step inChan outChan previewChan errReads
    (afterSetup n.setup s)
  have hread := PreviewerNode.previewer_forLoop_reading step inChan outChan previewChan errReads
    (afterSetup n.setup s)
  refine ⟨?_, ?_, ?_, ?_⟩
  · intro pre v post h
    obtain ⟨p0, pre1, post1, q0, -, h2, h3, -, -⟩ := lifecycle_split n.setup n.teardown errReads s
      _ pre post _ (by rfl) h
    have hm := (mem_successors _ _ _).2 ⟨pre1, post1, h3, rfl⟩
    have hf := hflow.2 _ hm
    simp only [PreviewerNode.Flow] at hf
    obtain ⟨r, hr⟩ := hf
    cases post1 with
    | nil => simp at hr
    | cons a post1 =>
      simp only [List.head?_cons, Option.some.injEq] at hr
      subst hr
      exact ⟨r, post1 ++ q0, by rw [h2]; rfl⟩
  · intro pre x y err post h
    obtain ⟨p0, pre1, post1, q0, h1, -, h3, -, -⟩ := lifecycle_split n.setup n.teardown errReads s
      _ pre post _ (by rfl) h
    obtain ⟨r0, hhead⟩ := hflow.1
    rcases eq_nil_or_snoc pre1 with rfl | ⟨pre2, e1, rfl⟩
    · rw [h3] at hhead; simp at hhead
    · have hm1 : (e1, some (Event.step x y err)) ∈ successors (PreviewerNode.forLoop step inChan
          outChan previewChan errReads (afterSetup n.setup s)).trace :=
        (mem_successors _ _ _).2 ⟨pre2, .step x y err :: post1, by rw [h3]; simp, rfl⟩
      have hf1 := hflow.2 _ hm1
      have he1 : e1 = .sendOut x (some none) := by
        rcases e1 with _ | _ | ⟨_, _, _ | _⟩ | ⟨_ | ⟨_, _ | _⟩⟩ | _ | ⟨_, _ | _ | _⟩ |
          ⟨_, _ | _ | e2⟩ | _ <;> simp [PreviewerNode.Flow] at hf1 ⊢
        · exact hf1.symm
      subst he1
      rcases eq_nil_or_snoc pre2 with rfl | ⟨pre3, e0, rfl⟩
      · rw [h3] at hhead; simp at hhead
      · have hm0 : (e0, some (Event.sendOut x (some none))) ∈ successors
            (PreviewerNode.forLoop step inChan outChan previewChan errReads
              (afterSetup n.setup s)).trace :=
          (mem_successors _ _ _).2
            ⟨pre3, .sendOut x (some none) :: .step x y err :: post1, by rw [h3]; simp, rfl⟩
        have hf0 := hflow.2 _ hm0
        have he0 : e0 = .recvA (some (x, none)) := by
          rcases e0 with _ | _ | ⟨_, _, _ | _⟩ | ⟨_ | ⟨_, _ | _⟩⟩ | _ | ⟨_, _ | _ | _⟩ |
            ⟨_, _ | _ | e2⟩ | _ <;> simp [PreviewerNode.Flow] at hf0 ⊢
          · exact hf0.symm
        subst he0
        exact ⟨p0 ++ pre3, by rw [h1]; simp⟩
  · rcases hse : setupErr n.setup s with _ | e
    · have hl := lifecycle_reading n.setup n.teardown errReads s
        (fun s1 => PreviewerNode.forLoop step inChan outChan previewChan errReads s1) hse
      simp only [PreviewerNode.loop]
      rw [hl.1, hl.2.2.2.2.2]
      exact hread.2.1
    · simp only [PreviewerNode.loop, lifecycle_setup_failed _ _ _ _ _ e hse]
      simp [stepArgs, sentOut]
  · rcases hse : setupErr n.setup s with _ | e
    · have hl := lifecycle_reading n.setup n.teardown errReads s
        (fun s1 => PreviewerNode.forLoop step inChan outChan previewChan errReads s1) hse
      obtain ⟨p0, q0, htr, -, -⟩ := lifecycle_trace n.setup n.teardown errReads s
        (fun s1 => PreviewerNode.forLoop step inChan outChan previewChan errReads s1) hse
      simp only [PreviewerNode.loop]
      rw [hl.1, hl.2.2.1]
      rcases hread.1 with h | ⟨v, r, hr, hmem, h⟩
      · exact Or.inl h
      · refine Or.inr ⟨v, r, hr, ?_, h⟩
        rw [htr]
        simp [hmem]
    · simp only [PreviewerNode.loop, lifecycle_setup_failed _ _ _ _ _ e hse]
      simp [receivedA, sentOut]

/-- Witness for C3: a Previewer fed `[1, 2]` and then cancelled, whose first
preview finds no consumer: both values are forwarded, and `step` is invoked on
exactly these. -/
theorem previewer_forwards_before_step_witness :
    stepArgs ((NewPreviewerNode Unit Nat Nat "preview").loop doubler
        [.value 1, .value 2, .cancelled] [.ready, .ready] [.idle, .ready] 1 ()).trace
      = sentOut ((NewPreviewerNode Unit Nat Nat "preview").loop doubler
        [.value 1, .value 2, .cancelled] [.ready, .ready] [.idle, .ready] 1 ()).trace ∧
    sentOut ((NewPreviewerNode Unit Nat Nat "preview").loop doubler
        [.value 1, .value 2, .cancelled] [.ready, .ready] [.idle, .ready] 1 ()).trace = [1, 2] :=
  ⟨(previewer_forwards_before_step (NewPreviewerNode Unit Nat Nat "preview") doubler
    [.value 1, .value 2, .cancelled] [.ready, .ready] [.idle, .ready] 1 ()).2.2.1, by decide⟩

/-- Counterexample to C3 as stated: a Previewer receives `1` and the blocking
send on the primary output is cancelled: the value is received and never
forwarded, and the goroutine reports the cancellation and returns. -/
theorem previewer_forward_cancelled_counterexample :
    receivedA ((NewPreviewerNode Unit Nat Nat "preview").loop doubler
        [.value 1] [.cancelled] [.ready] 1 ()).trace = [1] ∧
    sentOut ((NewPreviewerNode Unit Nat Nat "preview").loop doubler
        [.value 1] [.cancelled] [.ready] 1 ()).trace = [] ∧
    ((NewPreviewerNode Unit Nat Nat "preview").loop doubler
        [.value 1] [.cancelled] [.ready] 1 ()).trace
      = [.recvA (some (1, none)), .sendOut 1 (some (some .Canceled)),
          .errSend (some .Canceled) true] ∧
    ((NewPreviewerNode Unit Nat Nat "preview").loop doubler
        [.value 1] [.cancelled] [.ready] 1 ()).returned = true := by
  decide

/-- C4. Previewer: after a non-blocking send of a preview that returned `NotSent`
the next action of the goroutine is the receive of the next input, so nothing
is written to the error channel on that account; and the values delivered on
the preview channel are a subsequence of the values `step` returns on the
received inputs. -/
theorem previewer_dropped_preview_continues {σ T P : Type} [Inhabited T]
    (n : PreviewerNode σ T P) (step : σ → T → (P × error) × σ) (inChan : List (RecvSel T))
    (outChan previewChan : List SendSel) (errReads : Nat) (s : σ) :
    (∀ pre y post,
      (n.loop step inChan outChan previewChan errReads s).trace
        = pre ++ .sendSide y (some (some .NotSent)) :: post →
      ∃ r post1, post = .recvA r :: post1) ∧
    (sentSide (n.loop step inChan outChan previewChan errReads s).trace).Sublist
      ((stepResults step (afterSetup n.setup s)
        (receivedA (n.loop step inChan outChan previewChan errReads s).trace)).map Prod.fst) := by
  have hflow := PreviewerNode.previewer_forLoop_flow step inChan outChan previewChan errReads
    (afterSetup n.setup s)
  have hread := PreviewerNode.previewer_forLoop_reading step inChan outChan previewChan errReads
    (afterSetup n.setup s)
  refine ⟨?_, ?_⟩
  · intro pre y post h
    obtain ⟨p0, pre1, post1, q0, -, h2, h3, -, -⟩ := lifecycle_split n.setup n.teardown errReads s
      _ pre post _ (by rfl) h
    have hm := (mem_successors _ _ _).2 ⟨pre1, post1, h3, rfl⟩
    have hf := hflow.2 _ hm
    simp only [PreviewerNode.Flow, ↓reduceIte] at hf
    obtain ⟨r, hr⟩ := hf
    cases post1 with
    | nil => simp at hr
    | cons a post1 =>
      simp only [List.head?_cons, Option.some.injEq] at hr
      subst hr
      exact ⟨r, post1 ++ q0, by rw [h2]; rfl⟩
  · rcases hse : setupErr n.setup s with _ | e
    · have hl := lifecycle_reading n.setup n.teardown errReads s
        (fun s1 => PreviewerNode.forLoop step inChan outChan previewChan errReads s1) hse
      simp only [PreviewerNode.loop]
      rw [hl.2.1, hl.2.2.1]
      exact hread.2.2
    · simp only [PreviewerNode.loop, lifecycle_setup_failed _ _ _ _ _ e hse]
      simp [receivedA, sentSide, stepResults]

/-- Witness for C4: in the same run the first preview is dropped and the second
delivered: the previews `[4]` are a subsequence of the step results `[2, 4]`. -/
theorem previewer_dropped_preview_continues_witness :
    sentSide ((NewPreviewerNode Unit Nat Nat "preview").loop doubler
        [.value 1, .value 2, .cancelled] [.ready, .ready] [.idle, .ready] 1 ()).trace = [4] ∧
    (sentSide ((NewPreviewerNode Unit Nat Nat "preview").loop doubler
        [.value 1, .value 2, .cancelled] [.ready, .ready] [.idle, .ready] 1 ()).trace).Sublist
      [2, 4] :=
  ⟨by decide, (previewer_dropped_preview_continues (NewPreviewerNode Unit Nat Nat "preview")
    doubler [.value 1, .value 2, .cancelled] [.ready, .ready] [.idle, .ready] 1 ()).2⟩

/-! ## Combiner -/

theorem CombinerNode.combiner_forLoop_flow {σ A B C : Type} [Inhabited A] [Inhabited B]
    (step : σ → A → B → (C × error) × σ) (inChanA : List (RecvSel A)) :
    ∀ (inChanB : List (RecvSel B)) (outChan : List SendSel) (errReads : Nat) (s : σ),
      (∃ r, (CombinerNode.forLoop step inChanA inChanB outChan errReads s).trace.head?
          = some (.recvA r)) ∧
      ∀ p ∈ successors (CombinerNode.forLoop step inChanA inChanB outChan errReads s).trace,
        CombinerNode.Flow p.1 p.2 := by
  induction inChanA with
  | nil =>
    intro inChanB outChan errReads s
    simp [CombinerNode.forLoop, parked, successors, CombinerNode.Flow]
  | cons r inChanA ih =>
    intro inChanB outChan errReads s
    rcases hr : BlockingRecv r with _ | ⟨a, _ | e⟩
    · simp only [CombinerNode.forLoop, hr, parked]
      simp [successors, CombinerNode.Flow]
    · rcases hb : BlockingRecv (inChanB.headD .idle) with _ | ⟨b, _ | e⟩
      · simp only [CombinerNode.forLoop, hr, hb, parked]
        simp [successors, CombinerNode.Flow]
      · rcases hs : step s a b with ⟨⟨c, _ | e⟩, s1⟩
        · rcases ho : BlockingSend (outChan.headD .idle) c with _ | ⟨_ | e, d⟩
          · simp only [CombinerNode.forLoop, hr, hb, hs, ho, parked]
            simp [successors, CombinerNode.Flow]
          · obtain ⟨⟨r1, hhead⟩, hflow⟩ := ih inChanB.tail outChan.tail errReads s1
            simp only [CombinerNode.forLoop, hr, hb, hs, ho, Exit.after]
            simp only [List.cons_append, List.nil_append, successors_cons, List.head?_cons, hhead]
            simpa [CombinerNode.Flow] using hflow
          · simp only [CombinerNode.forLoop, hr, hb, hs, ho, errSend_trace]
            simp [successors, CombinerNode.Flow]
            exact Nat.eq_zero_or_pos _
        · simp only [CombinerNode.forLoop, hr, hb, hs, errSend_trace]
          simp [successors, CombinerNode.Flow]
          exact Nat.eq_zero_or_pos _
      · simp only [CombinerNode.forLoop, hr, hb, errSend_trace]
        simp [successors, CombinerNode.Flow]
        exact Nat.eq_zero_or_pos _
    · simp only [CombinerNode.forLoop, hr, errSend_trace]
      simp [successors, CombinerNode.Flow]
      exact Nat.eq_zero_or_pos _

theorem CombinerNode.combiner_forLoop_reading {σ A B C : Type} [Inhabited A] [Inhabited B]
    (step : σ → A → B → (C × error) × σ) (inChanA : List (RecvSel A)) :
    ∀ (inChanB : List (RecvSel B)) (outChan : List SendSel) (errReads : Nat) (s : σ),
      (∀ e ∈ (CombinerNode.forLoop step inChanA inChanB outChan errReads s).trace,
        e.clean = true) →
      sentOut (CombinerNode.forLoop step inChanA inChanB outChan errReads s).trace
        = (stepResults (uncurryStep step) s
          ((receivedA (CombinerNode.forLoop step inChanA inChanB outChan errReads s).trace).zip
            (receivedB (CombinerNode.forLoop step inChanA inChanB outChan errReads s).trace))).map
          Prod.fst := by
  induction inChanA with
  | nil =>
    intro inChanB outChan errReads s _
    simp [CombinerNode.forLoop, parked, receivedA, receivedB, sentOut, stepResults]
  | cons r inChanA ih =>
    intro inChanB outChan errReads s
    rcases hr : BlockingRecv r with _ | ⟨a, _ | e⟩
    · simp only [CombinerNode.forLoop, hr, parked]
      simp [receivedA, receivedB, sentOut, stepResults]
    · rcases hb : BlockingRecv (inChanB.headD .idle) with _ | ⟨b, _ | e⟩
      · simp only [CombinerNode.forLoop, hr, hb, parked]
        simp [receivedA, receivedB, sentOut, stepResults]
      · rcases hs : step s a b with ⟨⟨c, _ | e⟩, s1⟩
        · rcases ho : BlockingSend (outChan.headD .idle) c with _ | ⟨_ | e, d⟩
          · simp only [CombinerNode.forLoop, hr, hb, hs, ho, parked]
            simp [Event.clean]
          · have ih1 := ih inChanB.tail outChan.tail errReads s1
            simp only [CombinerNode.forLoop, hr, hb, hs, ho, Exit.after]
            generalize (CombinerNode.forLoop step inChanA inChanB.tail outChan.tail errReads
              s1).trace = tr at ih1 ⊢
            intro hcl
            have hRA : receivedA ([Event.recvA (some (a, none)), Event.recvB (some (b, none)),
                Event.step (a, b) c none, Event.sendOut c (some none)] ++ tr)
                = a :: receivedA tr := by rw [receivedA_append]; rfl
            have hRB : receivedB ([Event.recvA (some (a, none)), Event.recvB (some (b, none)),
                Event.step (a, b) c none, Event.sendOut c (some none)] ++ tr)
                = b :: receivedB tr := by rw [receivedB_append]; rfl
            have hO : sentOut ([Event.recvA (some (a, none)), Event.recvB (some (b, none)),
                Event.step (a, b) c none, Event.sendOut c (some none)] ++ tr)
                = c :: sentOut tr := by rw [sentOut_append]; rfl
            rw [hRA, hRB, hO, ih1 (fun e he => hcl e (by simp [he]))]
            simp only [List.zip_cons_cons, stepResults, uncurryStep, hs, List.map_cons]
            rfl
          · simp only [CombinerNode.forLoop, hr, hb, hs, ho, errSend_trace]
            simp [Event.clean]
        · simp only [CombinerNode.forLoop, hr, hb, hs, errSend_trace]
          simp [Event.clean]
      · simp only [CombinerNode.forLoop, hr, hb, errSend_trace]
        simp [receivedA, receivedB, sentOut, stepResults]
    · simp only [CombinerNode.forLoop, hr, errSend_trace]
      simp [receivedA, receivedB, sentOut, stepResults]

/-- C5. Combiner: a completed receive on input A is followed at once by the
receive on input B, and a receive on B only ever comes right after a completed
receive on A; after a receive on A that fails nothing more is received or
sent and no step is invoked; and when no step returned an error and every send
completed, the values delivered on the output are the values returned by
`step` on the pairs of the i-th values received on A and on B. -/
theorem combiner_receives_a_then_b {σ A B C : Type} [Inhabited A] [Inhabited B]
    (n : CombinerNode σ A B C) (step : σ → A → B → (C × error) × σ)
    (inChanA : List (RecvSel A)) (inChanB : List (RecvSel B)) (outChan : List SendSel)
    (errReads : Nat) (s : σ) :
    (∀ pre a post,
      (n.loop step inChanA inChanB outChan errReads s).trace
        = pre ++ .recvA (some (a, none)) :: post →
      ∃ r post1, post = .recvB r :: post1) ∧
    (∀ pre r post,
      (n.loop step inChanA inChanB outChan errReads s).trace = pre ++ .recvB r :: post →
      ∃ pre1 a, pre = pre1 ++ [.recvA (some (a, none))]) ∧
    (∀ pre r post,
      (n.loop step inChanA inChanB outChan errReads s).trace = pre ++ .recvA r :: post →
      (∀ a, r ≠ some (a, none)) → ∀ x ∈ post, x.inCycle = false) ∧
    ((∀ e ∈ (n.loop step inChanA inChanB outChan errReads s).trace, e.clean = true) →
      sentOut (n.loop step inChanA inChanB outChan errReads s).trace
        = (stepResults (uncurryStep step) (afterSetup n.setup s)
          ((receivedA (n.loop step inChanA inChanB outChan errReads s).trace).zip
            (receivedB (n.loop step inChanA inChanB outChan errReads s).trace))).map Prod.fst ∧
      ∀ f : A → B → C, (∀ s a b, (step s a b).1.1 = f a b) →
        sentOut (n.loop step inChanA inChanB outChan errReads s).trace
          = List.zipWith f (receivedA (n.loop step inChanA inChanB outChan errReads s).trace)
            (receivedB (n.loop step inChanA inChanB outChan errReads s).trace)) := by
  have hflow := CombinerNode.combiner_forLoop_flow step inChanA inChanB outChan errReads
    (afterSetup n.setup s)
  have hread := CombinerNode.combiner_forLoop_reading step inChanA inChanB outChan errReads
    (afterSetup n.setup s)
  refine ⟨?_, ?_, ?_, ?_⟩
  · intro pre a post h
    obtain ⟨p0, pre1, post1, q0, -, h2, h3, -, -⟩ := lifecycle_split n.setup n.teardown errReads s
      _ pre post _ (by rfl) h
    have hf := hflow.2 _ ((mem_successors _ _ _).2 ⟨pre1, post1, h3, rfl⟩)
    simp only [CombinerNode.Flow] at hf
    obtain ⟨r, hr⟩ := hf
    cases post1 with
    | nil => simp at hr
    | cons x post1 =>
      simp only [List.head?_cons, Option.some.injEq] at hr
      subst hr
      exact ⟨r, post1 ++ q0, by rw [h2]; rfl⟩
  · intro pre r post h
    obtain ⟨p0, pre1, post1, q0, h1, -, h3, -, -⟩ := lifecycle_split n.setup n.teardown errReads s
      _ pre post _ (by rfl) h
    obtain ⟨r0, hhead⟩ := hflow.1
    rcases eq_nil_or_snoc pre1 with rfl | ⟨pre2, e1, rfl⟩
    · rw [h3] at hhead; simp at hhead
    · have hm1 : (e1, some (Event.recvB r)) ∈ successors (CombinerNode.forLoop step inChanA
          inChanB outChan errReads (afterSetup n.setup s)).trace :=
        (mem_successors _ _ _).2 ⟨pre2, .recvB r :: post1, by rw [h3]; simp, rfl⟩
      have hf1 := hflow.2 _ hm1
      have he1 : ∃ a, e1 = .recvA (some (a, none)) := by
        rcases e1 with _ | _ | ⟨_, _, _ | _⟩ | ⟨_ | ⟨_, _ | _⟩⟩ | ⟨_ | ⟨_, _ | _⟩⟩ |
          ⟨_, _ | _ | _⟩ | _ | _ <;> simp [CombinerNode.Flow] at hf1 ⊢
      obtain ⟨a, rfl⟩ := he1
      exact ⟨p0 ++ pre2, a, by rw [h1]; simp⟩
  · intro pre r post h hr x hx
    obtain ⟨p0, pre1, post1, q0, -, h2, h3, -, hq⟩ := lifecycle_split n.setup n.teardown errReads
      s _ pre post _ (by rfl) h
    have hf := hflow.2 _ ((mem_successors _ _ _).2 ⟨pre1, post1, h3, rfl⟩)
    have hpost1 : ∀ y ∈ post1, y.inCycle = false := by
      rcases r with _ | ⟨a, _ | e⟩
      · simp only [CombinerNode.Flow] at hf
        have : post1 = [] := by
          cases post1 with
          | nil => rfl
          | cons _ _ => simp at hf
        simp [this]
      · exact absurd rfl (hr a)
      · simp only [CombinerNode.Flow] at hf
        obtain ⟨d, hd⟩ := hf
        cases post1 with
        | nil => simp at hd
        | cons y post2 =>
          simp only [List.head?_cons, Option.some.injEq] at hd
          subst hd
          have hm2 : (Event.errSend (some e) d, post2.head?) ∈ successors
              (CombinerNode.forLoop step inChanA inChanB outChan errReads
                (afterSetup n.setup s)).trace :=
            (mem_successors _ _ _).2
              ⟨pre1 ++ [Event.recvA (some (a, some e))], post2, by rw [h3]; simp, rfl⟩
          have hf2 := hflow.2 _ hm2
          simp only [CombinerNode.Flow] at hf2
          have : post2 = [] := by
            cases post2 with
            | nil => rfl
            | cons _ _ => simp at hf2
          simp [this, Event.inCycle, Event.isStep, Event.isTransfer]
    rw [h2] at hx
    rcases List.mem_append.1 hx with hx | hx
    · exact hpost1 x hx
    · exact Event.inCycle_false x (hq x hx)
  · intro hcl
    have hmain : sentOut (n.loop step inChanA inChanB outChan errReads s).trace
        = (stepResults (uncurryStep step) (afterSetup n.setup s)
          ((receivedA (n.loop step inChanA inChanB outChan errReads s).trace).zip
            (receivedB (n.loop step inChanA inChanB outChan errReads s).trace))).map Prod.fst := by
      rcases hse : setupErr n.setup s with _ | e
      · have hl := lifecycle_reading n.setup n.teardown errReads s
          (fun s1 => CombinerNode.forLoop step inChanA inChanB outChan errReads s1) hse
        obtain ⟨p0, q0, htr, -, -⟩ := lifecycle_trace n.setup n.teardown errReads s
          (fun s1 => CombinerNode.forLoop step inChanA inChanB outChan errReads s1) hse
        simp only [CombinerNode.loop] at hcl ⊢
        rw [hl.1, hl.2.2.1, hl.2.2.2.1]
        exact hread (fun e he => hcl e (by rw [htr]; simp [he]))
      · simp only [CombinerNode.loop, lifecycle_setup_failed _ _ _ _ _ e hse]
        simp [receivedA, receivedB, sentOut, stepResults]
    refine ⟨hmain, fun f hf => ?_⟩
    rw [hmain, stepResults_pure (uncurryStep step) (fun p => f p.1 p.2)
      (fun s p => hf s p.1 p.2), ← List.map_uncurry_zip_eq_zipWith]
    rfl

/-- Witness for C5: a Combiner that adds, fed `[1, 2]` on A and `[10, 20]` on B
and then cancelled, delivers `[11, 22]`. -/
theorem combiner_receives_a_then_b_witness :
    sentOut ((NewCombinerNode Unit Nat Nat Nat "add").loop adder
      [.value 1, .value 2, .cancelled] [.value 10, .value 20] [.ready, .ready] 1 ()).trace
      = [11, 22] :=
  ((combiner_receives_a_then_b (NewCombinerNode Unit Nat Nat Nat "add") adder
    [.value 1, .value 2, .cancelled] [.value 10, .value 20] [.ready, .ready] 1 ()).2.2.2
    (by decide)).2 (fun a b => a + b) (fun _ _ _ => rfl)

/-! ## How the `for` statements end -/

section Ended

variable {σ A B O S X Y : Type}

theorem ended_parked (pre : List (Event A B O S X Y)) (errReads : Nat) (s : σ)
    (h : ∀ e ∈ pre, e.inCycle = true) : (parked pre errReads s).Ended errReads :=
  Or.inl ⟨rfl, h⟩

theorem ended_errSend (pre : List (Event A B O S X Y)) (last : Event A B O S X Y)
    (err : GoError) (errReads : Nat) (s : σ) (hpre : ∀ e ∈ pre, e.inCycle = true)
    (hlast : last.inCycle = true) (hf : last.failure = some err) :
    (errSend (pre ++ [last]) (some err) errReads s).Ended errReads := by
  refine Or.inr ⟨pre, last, err, ?_, hpre, hlast, hf, errSend_returned _ _ _ _,
    errSend_errReads _ _ _ _⟩
  rw [errSend_trace]
  simp

theorem ended_after (pre : List (Event A B O S X Y)) (errReads : Nat)
    (b : Exit σ (Event A B O S X Y)) (hpre : ∀ e ∈ pre, e.inCycle = true)
    (h : b.Ended errReads) : (b.after pre).Ended errReads := by
  rcases h with ⟨h1, h2⟩ | ⟨p, last, err, h1, h2, h3, h4, h5, h6⟩
  · refine Or.inl ⟨h1, ?_⟩
    intro e he
    simp only [Exit.after, List.mem_append] at he
    rcases he with he | he
    · exact hpre e he
    · exact h2 e he
  · refine Or.inr ⟨pre ++ p, last, err, ?_, ?_, h3, h4, h5, h6⟩
    · simp only [Exit.after, h1, List.append_assoc]
    · intro e he
      rcases List.mem_append.1 he with he | he
      · exact hpre e he
      · exact h2 e he

end Ended

theorem SourceNode.source_forLoop_ended {σ T : Type} (step : σ → (T × error) × σ)
    (outChan : List SendSel) :
    ∀ (errReads : Nat) (s : σ), (SourceNode.forLoop step outChan errReads s).Ended errReads := by
  induction outChan with
  | nil =>
    intro errReads s
    rcases hs : step s with ⟨⟨v, _ | e⟩, s1⟩
    · simp only [SourceNode.forLoop, hs]
      exact ended_parked _ _ _ (by simp [Event.inCycle, Event.isStep, Event.isTransfer])
    · simp only [SourceNode.forLoop, hs]
      exact ended_errSend [] _ e _ _ (by simp) rfl rfl
  | cons c outChan ih =>
    intro errReads s
    rcases hs : step s with ⟨⟨v, _ | e⟩, s1⟩
    · rcases hc : BlockingSend c v with _ | ⟨_ | e, d⟩
      · simp only [SourceNode.forLoop, hs, hc]
        exact ended_parked _ _ _ (by simp [Event.inCycle, Event.isStep, Event.isTransfer])
      · simp only [SourceNode.forLoop, hs, hc]
        exact ended_after _ _ _ (by simp [Event.inCycle, Event.isStep, Event.isTransfer])
          (ih errReads s1)
      · simp only [SourceNode.forLoop, hs, hc]
        exact ended_errSend [_] _ e _ _
          (by simp [Event.inCycle, Event.isStep, Event.isTransfer]) rfl rfl
    · simp only [SourceNode.forLoop, hs]
      exact ended_errSend [] _ e _ _ (by simp) rfl rfl

theorem SinkNode.sink_forLoop_ended {σ T : Type} [Inhabited T] (step : σ → T → error × σ)
    (inChan : List (RecvSel T)) :
    ∀ (errReads : Nat) (s : σ), (SinkNode.forLoop step inChan errReads s).Ended errReads := by
  induction inChan with
  | nil =>
    intro errReads s
    exact ended_parked _ _ _ (by simp [Event.inCycle, Event.isStep, Event.isTransfer])
  | cons r inChan ih =>
    intro errReads s
    rcases hr : BlockingRecv r with _ | ⟨v, _ | e⟩
    · simp only [SinkNode.forLoop, hr]
      exact ended_parked _ _ _ (by simp [Event.inCycle, Event.isStep, Event.isTransfer])
    · rcases hs : step s v with ⟨_ | e, s1⟩
      · simp only [SinkNode.forLoop, hr, hs]
        exact ended_after _ _ _ (by simp [Event.inCycle, Event.isStep, Event.isTransfer])
          (ih errReads s1)
      · simp only [SinkNode.forLoop, hr, hs]
        exact ended_errSend [_] _ e _ _
          (by simp [Event.inCycle, Event.isStep, Event.isTransfer]) rfl rfl
    · simp only [SinkNode.forLoop, hr]
      exact ended_errSend [] _ e _ _ (by simp) rfl rfl

theorem ConverterNode.converter_forLoop_ended {σ From To : Type} [Inhabited From]
    (step : σ → From → (To × error) × σ) (inChan : List (RecvSel From)) :
    ∀ (outChan : List SendSel) (errReads : Nat) (s : σ),
      (ConverterNode.forLoop step inChan outChan errReads s).Ended errReads := by
  induction inChan with
  | nil =>
    intro outChan errReads s
    exact ended_parked _ _ _ (by simp [Event.inCycle, Event.isStep, Event.isTransfer])
  | cons r inChan ih =>
    intro outChan errReads s
    rcases hr : BlockingRecv r with _ | ⟨v, _ | e⟩
    · simp only [ConverterNode.forLoop, hr]
      exact ended_parked _ _ _ (by simp [Event.inCycle, Event.isStep, Event.isTransfer])
    · rcases hs : step s v with ⟨⟨v2, _ | e⟩, s1⟩
      · rcases hc : BlockingSend (outChan.headD .idle) v2 with _ | ⟨_ | e, d⟩
        · simp only [ConverterNode.forLoop, hr, hs, hc]
          exact ended_parked _ _ _ (by simp [Event.inCycle, Event.isStep, Event.isTransfer])
        · simp only [ConverterNode.forLoop, hr, hs, hc]
          exact ended_after _ _ _ (by simp [Event.inCycle, Event.isStep, Event.isTransfer])
            (ih outChan.tail errReads s1)
        · simp only [ConverterNode.forLoop, hr, hs, hc]
          exact ended_errSend [_, _] _ e _ _
            (by simp [Event.inCycle, Event.isStep, Event.isTransfer]) rfl rfl
      · simp only [ConverterNode.forLoop, hr, hs]
        exact ended_errSend [_] _ e _ _
          (by simp [Event.inCycle, Event.isStep, Event.isTransfer]) rfl rfl
    · simp only [ConverterNode.forLoop, hr]
      exact ended_errSend [] _ e _ _ (by simp) rfl rfl

theorem TransformerNode.transformer_forLoop_ended {σ T : Type} [Inhabited T]
    (step : σ → T → (T × error) × σ) (inChan : List (RecvSel T)) (outChan : List SendSel)
    (errReads : Nat) (s : σ) :
    (TransformerNode.forLoop step inChan outChan errReads s).Ended errReads := by
  rw [TransformerNode.forLoop_eq]
  exact ConverterNode.converter_forLoop_ended step inChan outChan errReads s

theorem CombinerNode.combiner_forLoop_ended {σ A B C : Type} [Inhabited A] [Inhabited B]
    (step : σ → A → B → (C × error) × σ) (inChanA : List (RecvSel A)) :
    ∀ (inChanB : List (RecvSel B)) (outChan : List SendSel) (errReads : Nat) (s : σ),
      (CombinerNode.forLoop step inChanA inChanB outChan errReads s).Ended errReads := by
  induction inChanA with
  | nil =>
    intro inChanB outChan errReads s
    exact ended_parked _ _ _ (by simp [Event.inCycle, Event.isStep, Event.isTransfer])
  | cons r inChanA ih =>
    intro inChanB outChan errReads s
    rcases hr : BlockingRecv r with _ | ⟨a, _ | e⟩
    · simp only [CombinerNode.forLoop, hr]
      exact ended_parked _ _ _ (by simp [Event.inCycle, Event.isStep, Event.isTransfer])
    · rcases hb : BlockingRecv (inChanB.headD .idle) with _ | ⟨b, _ | e⟩
      · simp only [CombinerNode.forLoop, hr, hb]
        exact ended_parked _ _ _ (by simp [Event.inCycle, Event.isStep, Event.isTransfer])
      · rcases hs : step s a b with ⟨⟨c, _ | e⟩, s1⟩
        · rcases ho : BlockingSend (outChan.headD .idle) c with _ | ⟨_ | e, d⟩
          · simp only [CombinerNode.forLoop, hr, hb, hs, ho]
            exact ended_parked _ _ _ (by simp [Event.inCycle, Event.isStep, Event.isTransfer])
          · simp only [CombinerNode.forLoop, hr, hb, hs, ho]
            exact ended_after _ _ _ (by simp [Event.inCycle, Event.isStep, Event.isTransfer])
              (ih inChanB.tail outChan.tail errReads s1)
          · simp only [CombinerNode.forLoop, hr, hb, hs, ho]
            exact ended_errSend [_, _, _] _ e _ _
              (by simp [Event.inCycle, Event.isStep, Event.isTransfer]) rfl rfl
        · simp only [CombinerNode.forLoop, hr, hb, hs]
          exact ended_errSend [_, _] _ e _ _
            (by simp [Event.inCycle, Event.isStep, Event.isTransfer]) rfl rfl
      · simp only [CombinerNode.forLoop, hr, hb]
        exact ended_errSend [_] _ e _ _
          (by simp [Event.inCycle, Event.isStep, Event.isTransfer]) rfl rfl
    · simp only [CombinerNode.forLoop, hr]
      exact ended_errSend [] _ e _ _ (by simp) rfl rfl

theorem PreviewerNode.previewer_forLoop_ended {σ T P : Type} [Inhabited T]
    (step : σ → T → (P × error) × σ) (inChan : List (RecvSel T)) :
    ∀ (outChan previewChan : List SendSel) (errReads : Nat) (s : σ),
      (PreviewerNode.forLoop step inChan outChan previewChan errReads s).Ended errReads := by
  induction inChan with
  | nil =>
    intro outChan previewChan errReads s
    exact ended_parked _ _ _ (by simp [Event.inCycle, Event.isStep, Event.isTransfer])
  | cons r inChan ih =>
    intro outChan previewChan errReads s
    rcases hr : BlockingRecv r with _ | ⟨v, _ | e⟩
    · simp only [PreviewerNode.forLoop, hr]
      exact ended_parked _ _ _ (by simp [Event.inCycle, Event.isStep, Event.isTransfer])
    · rcases ho : BlockingSend (outChan.headD .idle) v with _ | ⟨_ | e, d⟩
      · simp only [PreviewerNode.forLoop, hr, ho]
        exact ended_parked _ _ _ (by simp [Event.inCycle, Event.isStep, Event.isTransfer])
      · rcases hs : step s v with ⟨⟨pv, _ | e⟩, s1⟩
        · rcases NonBlockingSend_cases (previewChan.headD .idle) pv with hn | hn | hn
          · simp only [PreviewerNode.forLoop, hr, ho, hs, hn]
            exact ended_after _ _ _ (by simp [Event.inCycle, Event.isStep, Event.isTransfer])
              (ih outChan.tail previewChan.tail errReads s1)
          · simp only [PreviewerNode.forLoop, hr, ho, hs, hn, GoError.NotSent_is, ↓reduceIte]
            exact ended_after _ _ _ (by simp [Event.inCycle, Event.isStep, Event.isTransfer])
              (ih outChan.tail previewChan.tail errReads s1)
          · simp only [PreviewerNode.forLoop, hr, ho, hs, hn, GoError.Canceled_is_notSent,
              Bool.false_eq_true, ↓reduceIte]
            exact ended_errSend [_, _, _] _ .Canceled _ _
              (by simp [Event.inCycle, Event.isStep, Event.isTransfer]) rfl rfl
        · simp only [PreviewerNode.forLoop, hr, ho, hs]
          exact ended_errSend [_, _] _ e _ _
            (by simp [Event.inCycle, Event.isStep, Event.isTransfer]) rfl rfl
      · simp only [PreviewerNode.forLoop, hr, ho]
        exact ended_errSend [_] _ e _ _
          (by simp [Event.inCycle, Event.isStep, Event.isTransfer]) rfl rfl
    · simp only [PreviewerNode.forLoop, hr]
      exact ended_errSend [] _ e _ _ (by simp) rfl rfl

theorem ClonerNode.cloner_forLoop_ended {σ T : Type} [Inhabited T]
    (step : σ → T → (T × error) × σ) (inChan : List (RecvSel T)) :
    ∀ (outChan cloneChan : List SendSel) (errReads : Nat) (s : σ),
      (ClonerNode.forLoop step inChan outChan cloneChan errReads s).Ended errReads := by
  induction inChan with
  | nil =>
    intro outChan cloneChan errReads s
    exact ended_parked _ _ _ (by simp [Event.inCycle, Event.isStep, Event.isTransfer])
  | cons r inChan ih =>
    intro outChan cloneChan errReads s
    rcases hr : BlockingRecv r with _ | ⟨v, _ | e⟩
    · simp only [ClonerNode.forLoop, hr]
      exact ended_parked _ _ _ (by simp [Event.inCycle, Event.isStep, Event.isTransfer])
    · rcases hs : step s v with ⟨⟨cv, _ | e⟩, s1⟩
      · rcases ho : BlockingSend (outChan.headD .idle) v with _ | ⟨_ | e, d⟩
        · simp only [ClonerNode.forLoop, hr, hs, ho]
          exact ended_parked _ _ _ (by simp [Event.inCycle, Event.isStep, Event.isTransfer])
        · rcases hc : BlockingSend (cloneChan.headD .idle) cv with _ | ⟨_ | e, d2⟩
          · simp only [ClonerNode.forLoop, hr, hs, ho, hc]
            exact ended_parked _ _ _ (by simp [Event.inCycle, Event.isStep, Event.isTransfer])
          · simp only [ClonerNode.forLoop, hr, hs, ho, hc]
            exact ended_after _ _ _ (by simp [Event.inCycle, Event.isStep, Event.isTransfer])
              (ih outChan.tail cloneChan.tail errReads s1)
          · simp only [ClonerNode.forLoop, hr, hs, ho, hc]
            exact ended_errSend [_, _, _] _ e _ _
              (by simp [Event.inCycle, Event.isStep, Event.isTransfer]) rfl rfl
        · simp only [ClonerNode.forLoop, hr, hs, ho]
          exact ended_errSend [_, _] _ e _ _
            (by simp [Event.inCycle, Event.isStep, Event.isTransfer]) rfl rfl
      · simp only [ClonerNode.forLoop, hr, hs]
        exact ended_errSend [_] _ e _ _
          (by simp [Event.inCycle, Event.isStep, Event.isTransfer]) rfl rfl
    · simp only [ClonerNode.forLoop, hr]
      exact ended_errSend [] _ e _ _ (by simp) rfl rfl

/-! ## The runs of a `loop` whose setup is unset or succeeds -/

section LifecycleEnded

variable {σ A B O S X Y : Type}

theorem Event.isTeardown_false_of_inCycle (e : Event A B O S X Y) (h : e.inCycle = true) :
    e.isTeardown = false := by
  cases e <;> first | rfl | simp [Event.inCycle, Event.isStep, Event.isTransfer] at h

theorem Event.isErrSend_false_of_inCycle (e : Event A B O S X Y) (h : e.inCycle = true) :
    e.isErrSend = false := by
  cases e <;> first | rfl | simp [Event.inCycle, Event.isStep, Event.isTransfer] at h

/-- Every run of a `loop` whose setup is unset or succeeds: either the `for`
statement never returns and teardown is not invoked, or a step or transfer
`last` fails with `err`, `err` is handed to a reader of the error channel, and
the deferred block runs: nothing more when teardown is unset, the invocation of
teardown, and the send of its wrapped error when it returns one. -/
theorem lifecycle_ended (setup teardown : Option (σ → error × σ)) (errReads : Nat) (s : σ)
    (forStmt : σ → Exit σ (Event A B O S X Y)) (hse : setupErr setup s = none)
    (hE : (forStmt (afterSetup setup s)).Ended errReads) :
    ∃ p0 : List (Event A B O S X Y), (∀ x ∈ p0, x = .setup none) ∧
      (((lifecycle setup teardown errReads s forStmt).returned = false ∧
          ∀ x ∈ (lifecycle setup teardown errReads s forStmt).trace, x.isTeardown = false) ∨
        ∃ pre last err, (∀ x ∈ pre, x.inCycle = true) ∧ last.inCycle = true ∧
          last.failure = some err ∧ 0 < errReads ∧
          ((teardown = none ∧ lifecycle setup teardown errReads s forStmt
              = ⟨p0 ++ pre ++ [last, .errSend (some err) true], true⟩) ∨
            (∃ g, teardown = some g ∧ lifecycle setup teardown errReads s forStmt
              = ⟨p0 ++ pre ++ [last, .errSend (some err) true, .teardown none], true⟩) ∨
            (∃ g t, teardown = some g ∧ lifecycle setup teardown errReads s forStmt
              = ⟨p0 ++ pre ++ [last, .errSend (some err) true, .teardown (some t),
                  .errSend (some (.Wrap t "teardown error")) (decide (1 < errReads))],
                decide (1 < errReads)⟩))) := by
  obtain ⟨p0, hp0, hph⟩ := setupPhase_ok (A := A) (B := B) (O := O) (S := S) (X := X) (Y := Y)
    setup errReads s hse
  refine ⟨p0, hp0, ?_⟩
  have hp0t : ∀ x ∈ p0, x.isTeardown = false := fun x hx => by rw [hp0 x hx]; rfl
  simp only [lifecycle, hph]
  rcases hE with ⟨h1, h2⟩ | ⟨pre, last, err, h1, h2, h3, h4, h5, h6⟩
  · left
    simp only [deferred, h1, Bool.false_eq_true, ↓reduceIte, true_and]
    intro x hx
    rcases List.mem_append.1 hx with hx | hx
    · exact hp0t x hx
    · exact Event.isTeardown_false_of_inCycle x (h2 x hx)
  · rcases Nat.eq_zero_or_pos errReads with h0 | hpos
    · left
      have hr : (forStmt (afterSetup setup s)).returned = false := by
        rw [h5]; simp [h0]
      simp only [deferred, hr, Bool.false_eq_true, ↓reduceIte, true_and, h1]
      intro x hx
      simp only [List.mem_append, List.mem_cons, List.mem_singleton, List.not_mem_nil,
        or_false] at hx
      rcases hx with hx | hx | rfl | rfl
      · exact hp0t x hx
      · exact Event.isTeardown_false_of_inCycle x (h2 x hx)
      · exact Event.isTeardown_false_of_inCycle _ h3
      · rfl
    · right
      refine ⟨pre, last, err, h2, h3, h4, hpos, ?_⟩
      have hr : (forStmt (afterSetup setup s)).returned = true := by
        rw [h5]; simp [hpos]
      have hd : decide (0 < errReads) = true := by simp [hpos]
      have hd2 : decide (0 < (forStmt (afterSetup setup s)).errReads) = decide (1 < errReads) := by
        rw [h6]
        apply decide_eq_decide.2
        omega
      cases teardown with
      | none =>
        left
        simp only [deferred, hr, ↓reduceIte, h1, hd, List.append_assoc, true_and]
      | some g =>
        right
        rcases hg : g (forStmt (afterSetup setup s)).state with ⟨_ | t, s2⟩
        · left
          refine ⟨g, rfl, ?_⟩
          simp only [deferred, hr, ↓reduceIte, hg, h1, hd, List.append_assoc, List.cons_append,
            List.nil_append]
        · right
          refine ⟨g, t, rfl, ?_⟩
          simp only [deferred, hr, ↓reduceIte, hg, h1, hd, hd2, List.append_assoc,
            List.cons_append, List.nil_append]

end LifecycleEnded

section LifecycleClaims

variable {σ A B O S X Y : Type}

theorem lifecycle_teardown_once (setup teardown : Option (σ → error × σ)) (errReads : Nat)
    (s : σ) (forStmt : σ → Exit σ (Event A B O S X Y)) (hse : setupErr setup s = none)
    (hE : (forStmt (afterSetup setup s)).Ended errReads) (htd : teardown.isSome = true)
    (hret : (lifecycle setup teardown errReads s forStmt).returned = true) :
    TeardownOnceAfterSteps (lifecycle setup teardown errReads s forStmt).trace := by
  obtain ⟨p0, hp0, h⟩ := lifecycle_ended setup teardown errReads s forStmt hse hE
  have hpre : ∀ (pre : List (Event A B O S X Y)) (last : Event A B O S X Y) (err : GoError),
      (∀ x ∈ pre, x.inCycle = true) → last.inCycle = true →
      ∀ e ∈ p0 ++ pre ++ [last, Event.errSend (some err) true], e.isTeardown = false := by
    intro pre last err h1 h2 e he
    simp only [List.mem_append, List.mem_cons, List.mem_singleton, List.not_mem_nil,
      or_false] at he
    rcases he with (he | he) | rfl | rfl
    · rw [hp0 e he]; rfl
    · exact Event.isTeardown_false_of_inCycle e (h1 e he)
    · exact Event.isTeardown_false_of_inCycle _ h2
    · rfl
  rcases h with ⟨h1, -⟩ | ⟨pre, last, err, h1, h2, -, -, h4⟩
  · rw [h1] at hret; simp at hret
  · rcases h4 with ⟨h5, -⟩ | ⟨g, -, h5⟩ | ⟨g, t, -, h5⟩
    · rw [h5] at htd; simp at htd
    · refine ⟨p0 ++ pre ++ [last, .errSend (some err) true], none, [], ?_, hpre pre last err h1 h2,
        by simp⟩
      rw [h5]; simp
    · refine ⟨p0 ++ pre ++ [last, .errSend (some err) true], some t,
        [.errSend (some (.Wrap t "teardown error")) (decide (1 < errReads))], ?_,
        hpre pre last err h1 h2, by simp [Event.isTeardown, Event.isStep]⟩
      rw [h5]; simp

theorem errWritten_quiet (t : List (Event A B O S X Y)) (h : ∀ x ∈ t, x.isErrSend = false) :
    errWritten t = [] := by
  simp only [errWritten, List.filterMap_eq_nil_iff]
  intro e he
  have hq := h e he
  cases e <;> first | rfl | simp [Event.isErrSend] at hq

theorem teardownFailed_quiet (t : List (Event A B O S X Y)) (h : ∀ x ∈ t, x.isTeardown = false) :
    teardownFailed t = false := by
  simp only [teardownFailed, List.any_eq_false]
  intro e he
  have hq := h e he
  cases e <;> simp [Event.isTeardown] at hq ⊢

theorem teardownFailed_append (t u : List (Event A B O S X Y)) :
    teardownFailed (t ++ u) = (teardownFailed t || teardownFailed u) := by
  simp [teardownFailed, List.any_append]

/-- The part of a run up to the failing step or transfer sends nothing on the
error channel and invokes no teardown. -/
theorem quiet_front (p0 pre : List (Event A B O S X Y)) (last : Event A B O S X Y)
    (hp0 : ∀ x ∈ p0, x = .setup none) (hpre : ∀ x ∈ pre, x.inCycle = true)
    (hlast : last.inCycle = true) :
    ∀ x ∈ p0 ++ pre ++ [last], x.isErrSend = false ∧ x.isTeardown = false := by
  intro x hx
  simp only [List.mem_append, List.mem_singleton] at hx
  rcases hx with (hx | hx) | rfl
  · rw [hp0 x hx]; exact ⟨rfl, rfl⟩
  · exact ⟨Event.isErrSend_false_of_inCycle x (hpre x hx),
      Event.isTeardown_false_of_inCycle x (hpre x hx)⟩
  · exact ⟨Event.isErrSend_false_of_inCycle _ hlast, Event.isTeardown_false_of_inCycle _ hlast⟩

theorem lifecycle_err_count (setup teardown : Option (σ → error × σ)) (errReads : Nat)
    (s : σ) (forStmt : σ → Exit σ (Event A B O S X Y))
    (hE : (forStmt (afterSetup setup s)).Ended errReads)
    (hret : (lifecycle setup teardown errReads s forStmt).returned = true) :
    (errWritten (lifecycle setup teardown errReads s forStmt).trace).length
      = if teardownFailed (lifecycle setup teardown errReads s forStmt).trace then 2 else 1 := by
  rcases hse : setupErr setup s with _ | e
  · obtain ⟨p0, hp0, h⟩ := lifecycle_ended setup teardown errReads s forStmt hse hE
    rcases h with ⟨h1, -⟩ | ⟨pre, last, err, h1, h2, -, -, h4⟩
    · rw [h1] at hret; simp at hret
    · have hq := quiet_front p0 pre last hp0 h1 h2
      have hw := errWritten_quiet _ (fun x hx => (hq x hx).1)
      have ht := teardownFailed_quiet _ (fun x hx => (hq x hx).2)
      rcases h4 with ⟨-, h5⟩ | ⟨g, -, h5⟩ | ⟨g, t, -, h5⟩
      · have htr : (lifecycle setup teardown errReads s forStmt).trace
            = (p0 ++ pre ++ [last]) ++ [.errSend (some err) true] := by rw [h5]; simp
        rw [htr, errWritten_append, teardownFailed_append, hw, ht]
        simp [errWritten, teardownFailed]
      · have htr : (lifecycle setup teardown errReads s forStmt).trace
            = (p0 ++ pre ++ [last]) ++ [.errSend (some err) true, .teardown none] := by
          rw [h5]; simp
        rw [htr, errWritten_append, teardownFailed_append, hw, ht]
        simp [errWritten, teardownFailed]
      · have hd : decide (1 < errReads) = true := by rw [h5] at hret; exact hret
        have htr : (lifecycle setup teardown errReads s forStmt).trace
            = (p0 ++ pre ++ [last]) ++ [.errSend (some err) true, .teardown (some t),
              .errSend (some (.Wrap t "teardown error")) true] := by
          rw [h5, hd]; simp
        rw [htr, errWritten_append, teardownFailed_append, hw, ht]
        simp [errWritten, teardownFailed]
  · rw [lifecycle_setup_failed _ _ _ _ _ e hse] at hret ⊢
    simp only at hret
    simp [errWritten, teardownFailed, hret]

theorem lifecycle_reports_both (setup teardown : Option (σ → error × σ)) (errReads : Nat)
    (s : σ) (forStmt : σ → Exit σ (Event A B O S X Y))
    (hE : (forStmt (afterSetup setup s)).Ended errReads) (t : GoError)
    (ht : .teardown (some t) ∈ (lifecycle setup teardown errReads s forStmt).trace) :
    ReportsBoth errReads t (lifecycle setup teardown errReads s forStmt).trace := by
  have hse : setupErr setup s = none := by
    rcases hse : setupErr setup s with _ | e
    · rfl
    · rw [lifecycle_setup_failed _ _ _ _ _ e hse] at ht
      simp at ht
  obtain ⟨p0, hp0, h⟩ := lifecycle_ended setup teardown errReads s forStmt hse hE
  rcases h with ⟨-, h1⟩ | ⟨pre, last, err, h1, h2, h3, -, h4⟩
  · have := h1 _ ht
    simp [Event.isTeardown] at this
  · have hq := quiet_front p0 pre last hp0 h1 h2
    have hfront : ∀ x ∈ p0 ++ pre, x.isErrSend = false ∧ x.isTeardown = false :=
      fun x hx => hq x (by simp only [List.mem_append] at hx ⊢; exact Or.inl hx)
    have hlast := hq last (by simp)
    rcases h4 with ⟨-, h5⟩ | ⟨g, -, h5⟩ | ⟨g, t1, -, h5⟩
    · rw [h5] at ht
      simp only [List.mem_append, List.mem_cons, List.mem_singleton, List.not_mem_nil,
        or_false] at ht
      rcases ht with ht | ht | ht
      · have := (hfront _ (List.mem_append.2 ht)).2
        simp [Event.isTeardown] at this
      · rw [← ht] at hlast; simp [Event.isTeardown] at hlast
      · simp at ht
    · rw [h5] at ht
      simp only [List.mem_append, List.mem_cons, List.mem_singleton, List.not_mem_nil,
        or_false] at ht
      rcases ht with ht | ht | ht | ht
      · have := (hfront _ (List.mem_append.2 ht)).2
        simp [Event.isTeardown] at this
      · rw [← ht] at hlast; simp [Event.isTeardown] at hlast
      · simp at ht
      · simp at ht
    · rw [h5] at ht
      simp only [List.mem_append, List.mem_cons, List.mem_singleton, List.not_mem_nil,
        or_false] at ht
      have htt : t = t1 := by
        rcases ht with ht | ht | ht | ht | ht
        · have := (hfront _ (List.mem_append.2 ht)).2
          simp [Event.isTeardown] at this
        · rw [← ht] at hlast; simp [Event.isTeardown] at hlast
        · simp at ht
        · simpa using ht
        · simp at ht
      subst htt
      refine ⟨p0 ++ pre, last, err, by rw [h5], hfront, h2, h3, ?_⟩
      have hw := errWritten_quiet _ (fun x hx => (hq x hx).1)
      have htr : (lifecycle setup teardown errReads s forStmt).trace
          = (p0 ++ pre ++ [last]) ++ [.errSend (some err) true, .teardown (some t),
            .errSend (some (.Wrap t "teardown error")) (decide (1 < errReads))] := by
        rw [h5]; simp
      rw [htr, errWritten_append, hw]
      by_cases h1r : 1 < errReads <;> simp [errWritten, h1r]

end LifecycleClaims

/-! ## Statements on every node shape -/

/-- C6. Every node shape: when setup is set and returns the error `e`, the run of
`loop` consists of the invocation of setup and of the send, on the error
channel, of an error whose message is `"setup error: "` followed by the message
of `e`; the goroutine returns as soon as that error is taken from the channel.
No step, no teardown, no receive and no send on a stream takes place. -/
theorem setup_error_ends_loop :
    (∀ (σ T : Type) (n : SourceNode σ T)
        (step : σ → (T × error) × σ)
        (outChan : List SendSel)
        (errReads : Nat) (s : σ) (f : σ → error × σ) (e : GoError),
        n.setup = some f → (f s).1 = some e →
        n.loop step outChan errReads s
          = ⟨[.setup (some e), .errSend (some (.Wrap e "setup error")) (decide (0 < errReads))],
            decide (0 < errReads)⟩) ∧
    (∀ (σ T : Type) [Inhabited T] (n : SinkNode σ T)
        (step : σ → T → error × σ)
        (inChan : List (RecvSel T))
        (errReads : Nat) (s : σ) (f : σ → error × σ) (e : GoError),
        n.setup = some f → (f s).1 = some e →
        n.loop step inChan errReads s
          = ⟨[.setup (some e), .errSend (some (.Wrap e "setup error")) (decide (0 < errReads))],
            decide (0 < errReads)⟩) ∧
    (∀ (σ T : Type) [Inhabited T] (n : TransformerNode σ T)
        (step : σ → T → (T × error) × σ)
        (inChan : List (RecvSel T)) (outChan : List SendSel)
        (errReads : Nat) (s : σ) (f : σ → error × σ) (e : GoError),
        n.setup = some f → (f s).1 = some e →
        n.loop step inChan outChan errReads s
          = ⟨[.setup (some e), .errSend (some (.Wrap e "setup error")) (decide (0 < errReads))],
            decide (0 < errReads)⟩) ∧
    (∀ (σ From To : Type) [Inhabited From] (n : ConverterNode σ From To)
        (step : σ → From → (To × error) × σ)
        (inChan : List (RecvSel From)) (outChan : List SendSel)
        (errReads : Nat) (s : σ) (f : σ → error × σ) (e : GoError),
        n.setup = some f → (f s).1 = some e →
        n.loop step inChan outChan errReads s
          = ⟨[.setup (some e), .errSend (some (.Wrap e "setup error")) (decide (0 < errReads))],
            decide (0 < errReads)⟩) ∧
    (∀ (σ A B C : Type) [Inhabited A] [Inhabited B] (n : CombinerNode σ A B C)
        (step : σ → A → B → (C × error) × σ)
        (inChanA : List (RecvSel A)) (inChanB : List (RecvSel B)) (outChan : List SendSel)
        (errReads : Nat) (s : σ) (f : σ → error × σ) (e : GoError),
        n.setup = some f → (f s).1 = some e →
        n.loop step inChanA inChanB outChan errReads s
          = ⟨[.setup (some e), .errSend (some (.Wrap e "setup error")) (decide (0 < errReads))],
            decide (0 < errReads)⟩) ∧
    (∀ (σ T P : Type) [Inhabited T] (n : PreviewerNode σ T P)
        (step : σ → T → (P × error) × σ)
        (inChan : List (RecvSel T)) (outChan previewChan : List SendSel)
        (errReads : Nat) (s : σ) (f : σ → error × σ) (e : GoError),
        n.setup = some f → (f s).1 = some e →
        n.loop step inChan outChan previewChan errReads s
          = ⟨[.setup (some e), .errSend (some (.Wrap e "setup error")) (decide (0 < errReads))],
            decide (0 < errReads)⟩) ∧
    (∀ (σ T : Type) [Inhabited T] (n : ClonerNode σ T)
        (step : σ → T → (T × error) × σ)
        (inChan : List (RecvSel T)) (outChan cloneChan : List SendSel)
        (errReads : Nat) (s : σ) (f : σ → error × σ) (e : GoError),
        n.setup = some f → (f s).1 = some e →
        n.loop step inChan outChan cloneChan errReads s
          = ⟨[.setup (some e), .errSend (some (.Wrap e "setup error")) (decide (0 < errReads))],
            decide (0 < errReads)⟩) ∧
    (∀ e : GoError, (GoError.Wrap e "setup error").Error = "setup error: " ++ e.Error) := by
  refine ⟨?_, ?_, ?_, ?_, ?_, ?_, ?_, fun _ => rfl⟩
  · intro σ T n step outChan errReads s f e hf he
    exact lifecycle_setup_failed n.setup n.teardown errReads s _ e
      (by simp only [setupErr, hf, he])
  · intro σ T _ n step inChan errReads s f e hf he
    exact lifecycle_setup_failed n.setup n.teardown errReads s _ e
      (by simp only [setupErr, hf, he])
  · intro σ T _ n step inChan outChan errReads s f e hf he
    exact lifecycle_setup_failed n.setup n.teardown errReads s _ e
      (by simp only [setupErr, hf, he])
  · intro σ From To _ n step inChan outChan errReads s f e hf he
    exact lifecycle_setup_failed n.setup n.teardown errReads s _ e
      (by simp only [setupErr, hf, he])
  · intro σ A B C _ _ n step inChanA inChanB outChan errReads s f e hf he
    exact lifecycle_setup_failed n.setup n.teardown errReads s _ e
      (by simp only [setupErr, hf, he])
  · intro σ T P _ n step inChan outChan previewChan errReads s f e hf he
    exact lifecycle_setup_failed n.setup n.teardown errReads s _ e
      (by simp only [setupErr, hf, he])
  · intro σ T _ n step inChan outChan cloneChan errReads s f e hf he
    exact lifecycle_setup_failed n.setup n.teardown errReads s _ e
      (by simp only [setupErr, hf, he])

/-- C7. Every node shape: when setup is unset or succeeds and teardown is set, in
every run of `loop` in which the goroutine returns, whatever ended the step
loop, teardown is invoked exactly once and no step is invoked after it. -/
theorem teardown_runs_once_after_steps :
    (∀ (σ T : Type) (n : SourceNode σ T)
        (step : σ → (T × error) × σ)
        (outChan : List SendSel)
        (errReads : Nat) (s : σ),
        setupErr n.setup s = none → n.teardown.isSome = true →
        (n.loop step outChan errReads s).returned = true →
        TeardownOnceAfterSteps (n.loop step outChan errReads s).trace) ∧
    (∀ (σ T : Type) [Inhabited T] (n : SinkNode σ T)
        (step : σ → T → error × σ)
        (inChan : List (RecvSel T))
        (errReads : Nat) (s : σ),
        setupErr n.setup s = none → n.teardown.isSome = true →
        (n.loop step inChan errReads s).returned = true →
        TeardownOnceAfterSteps (n.loop step inChan errReads s).trace) ∧
    (∀ (σ T : Type) [Inhabited T] (n : TransformerNode σ T)
        (step : σ → T → (T × error) × σ)
        (inChan : List (RecvSel T)) (outChan : List SendSel)
        (errReads : Nat) (s : σ),
        setupErr n.setup s = none → n.teardown.isSome = true →
        (n.loop step inChan outChan errReads s).returned = true →
        TeardownOnceAfterSteps (n.loop step inChan outChan errReads s).trace) ∧
    (∀ (σ From To : Type) [Inhabited From] (n : ConverterNode σ From To)
        (step : σ → From → (To × error) × σ)
        (inChan : List (RecvSel From)) (outChan : List SendSel)
        (errReads : Nat) (s : σ),
        setupErr n.setup s = none → n.teardown.isSome = true →
        (n.loop step inChan outChan errReads s).returned = true →
        TeardownOnceAfterSteps (n.loop step inChan outChan errReads s).trace) ∧
    (∀ (σ A B C : Type) [Inhabited A] [Inhabited B] (n : CombinerNode σ A B C)
        (step : σ → A → B → (C × error) × σ)
        (inChanA : List (RecvSel A)) (inChanB : List (RecvSel B)) (outChan : List SendSel)
        (errReads : Nat) (s : σ),
        setupErr n.setup s = none → n.teardown.isSome = true →
        (n.loop step inChanA inChanB outChan errReads s).returned = true →
        TeardownOnceAfterSteps (n.loop step inChanA inChanB outChan errReads s).trace) ∧
    (∀ (σ T P : Type) [Inhabited T] (n : PreviewerNode σ T P)
        (step : σ → T → (P × error) × σ)
        (inChan : List (RecvSel T)) (outChan previewChan : List SendSel)
        (errReads : Nat) (s : σ),
        setupErr n.setup s = none → n.teardown.isSome = true →
        (n.loop step inChan outChan previewChan errReads s).returned = true →
        TeardownOnceAfterSteps (n.loop step inChan outChan previewChan errReads s).trace) ∧
    (∀ (σ T : Type) [Inhabited T] (n : ClonerNode σ T)
        (step : σ → T → (T × error) × σ)
        (inChan : List (RecvSel T)) (outChan cloneChan : List SendSel)
        (errReads : Nat) (s : σ),
        setupErr n.setup s = none → n.teardown.isSome = true →
        (n.loop step inChan outChan cloneChan errReads s).returned = true →
        TeardownOnceAfterSteps (n.loop step inChan outChan cloneChan errReads s).trace) := by
  refine ⟨?_, ?_, ?_, ?_, ?_, ?_, ?_⟩
  · intro σ T n step outChan errReads s hse htd hret
    exact lifecycle_teardown_once n.setup n.teardown errReads s _ hse
      (SourceNode.source_forLoop_ended step outChan errReads _) htd hret
  · intro σ T _ n step inChan errReads s hse htd hret
    exact lifecycle_teardown_once n.setup n.teardown errReads s _ hse
      (SinkNode.sink_forLoop_ended step inChan errReads _) htd hret
  · intro σ T _ n step inChan outChan errReads s hse htd hret
    exact lifecycle_teardown_once n.setup n.teardown errReads s _ hse
      (TransformerNode.transformer_forLoop_ended step inChan outChan errReads _) htd hret
  · intro σ From To _ n step inChan outChan errReads s hse htd hret
    exact lifecycle_teardown_once n.setup n.teardown errReads s _ hse
      (ConverterNode.converter_forLoop_ended step inChan outChan errReads _) htd hret
  · intro σ A B C _ _ n step inChanA inChanB outChan errReads s hse htd hret
    exact lifecycle_teardown_once n.setup n.teardown errReads s _ hse
      (CombinerNode.combiner_forLoop_ended step inChanA inChanB outChan errReads _) htd hret
  · intro σ T P _ n step inChan outChan previewChan errReads s hse htd hret
    exact lifecycle_teardown_once n.setup n.teardown errReads s _ hse
      (PreviewerNode.previewer_forLoop_ended step inChan outChan previewChan errReads _) htd hret
  · intro σ T _ n step inChan outChan cloneChan errReads s hse htd hret
    exact lifecycle_teardown_once n.setup n.teardown errReads s _ hse
      (ClonerNode.cloner_forLoop_ended step inChan outChan cloneChan errReads _) htd hret

/-- C8, amended. Every node shape: in every run of `loop` in which the goroutine
returns, exactly one value is handed over on the error channel, unless
teardown returned an error, in which case exactly two are. -/
theorem error_channel_one_or_two_values :
    (∀ (σ T : Type) (n : SourceNode σ T)
        (step : σ → (T × error) × σ)
        (outChan : List SendSel)
        (errReads : Nat) (s : σ),
        (n.loop step outChan errReads s).returned = true →
        (errWritten (n.loop step outChan errReads s).trace).length
          = if teardownFailed (n.loop step outChan errReads s).trace then 2 else 1) ∧
    (∀ (σ T : Type) [Inhabited T] (n : SinkNode σ T)
        (step : σ → T → error × σ)
        (inChan : List (RecvSel T))
        (errReads : Nat) (s : σ),
        (n.loop step inChan errReads s).returned = true →
        (errWritten (n.loop step inChan errReads s).trace).length
          = if teardownFailed (n.loop step inChan errReads s).trace then 2 else 1) ∧
    (∀ (σ T : Type) [Inhabited T] (n : TransformerNode σ T)
        (step : σ → T → (T × error) × σ)
        (inChan : List (RecvSel T)) (outChan : List SendSel)
        (errReads : Nat) (s : σ),
        (n.loop step inChan outChan errReads s).returned = true →
        (errWritten (n.loop step inChan outChan errReads s).trace).length
          = if teardownFailed (n.loop step inChan outChan errReads s).trace then 2 else 1) ∧
    (∀ (σ From To : Type) [Inhabited From] (n : ConverterNode σ From To)
        (step : σ → From → (To × error) × σ)
        (inChan : List (RecvSel From)) (outChan : List SendSel)
        (errReads : Nat) (s : σ),
        (n.loop step inChan outChan errReads s).returned = true →
        (errWritten (n.loop step inChan outChan errReads s).trace).length
          = if teardownFailed (n.loop step inChan outChan errReads s).trace then 2 else 1) ∧
    (∀ (σ A B C : Type) [Inhabited A] [Inhabited B] (n : CombinerNode σ A B C)
        (step : σ → A → B → (C × error) × σ)
        (inChanA : List (RecvSel A)) (inChanB : List (RecvSel B)) (outChan : List SendSel)
        (errReads : Nat) (s : σ),
        (n.loop step inChanA inChanB outChan errReads s).returned = true →
        (errWritten (n.loop step inChanA inChanB outChan errReads s).trace).length
          = if teardownFailed (n.loop step inChanA inChanB outChan errReads s).trace then 2 else 1) ∧
    (∀ (σ T P : Type) [Inhabited T] (n : PreviewerNode σ T P)
        (step : σ → T → (P × error) × σ)
        (inChan : List (RecvSel T)) (outChan previewChan : List SendSel)
        (errReads : Nat) (s : σ),
        (n.loop step inChan outChan previewChan errReads s).returned = true →
        (errWritten (n.loop step inChan outChan previewChan errReads s).trace).length
          = if teardownFailed (n.loop step inChan outChan previewChan errReads s).trace then 2 else 1) ∧
    (∀ (σ T : Type) [Inhabited T] (n : ClonerNode σ T)
        (step : σ → T → (T × error) × σ)
        (inChan : List (RecvSel T)) (outChan cloneChan : List SendSel)
        (errReads : Nat) (s : σ),
        (n.loop step inChan outChan cloneChan errReads s).returned = true →
        (errWritten (n.loop step inChan outChan cloneChan errReads s).trace).length
          = if teardownFailed (n.loop step inChan outChan cloneChan errReads s).trace then 2 else 1) := by
  refine ⟨?_, ?_, ?_, ?_, ?_, ?_, ?_⟩
  · intro σ T n step outChan errReads s hret
    exact lifecycle_err_count n.setup n.teardown errReads s _
      (SourceNode.source_forLoop_ended step outChan errReads _) hret
  · intro σ T _ n step inChan errReads s hret
    exact lifecycle_err_count n.setup n.teardown errReads s _
      (SinkNode.sink_forLoop_ended step inChan errReads _) hret
  · intro σ T _ n step inChan outChan errReads s hret
    exact lifecycle_err_count n.setup n.teardown errReads s _
      (TransformerNode.transformer_forLoop_ended step inChan outChan errReads _) hret
  · intro σ From To _ n step inChan outChan errReads s hret
    exact lifecycle_err_count n.setup n.teardown errReads s _
      (ConverterNode.converter_forLoop_ended step inChan outChan errReads _) hret
  · intro σ A B C _ _ n step inChanA inChanB outChan errReads s hret
    exact lifecycle_err_count n.setup n.teardown errReads s _
      (CombinerNode.combiner_forLoop_ended step inChanA inChanB outChan errReads _) hret
  · intro σ T P _ n step inChan outChan previewChan errReads s hret
    exact lifecycle_err_count n.setup n.teardown errReads s _
      (PreviewerNode.previewer_forLoop_ended step inChan outChan previewChan errReads _) hret
  · intro σ T _ n step inChan outChan cloneChan errReads s hret
    exact lifecycle_err_count n.setup n.teardown errReads s _
      (ClonerNode.cloner_forLoop_ended step inChan outChan cloneChan errReads _) hret

/-- C9. Every node shape: when teardown returns the error `t`, the step loop had
ended with an error `e` (that of a failing step or transfer), `e` was handed
over on the error channel first, and the node next sends on the error channel
an error whose message is `"teardown error: "` followed by the message of `t`:
both are written, in that order, once a reader takes the second one. -/
theorem teardown_error_follows_loop_error :
    (∀ (σ T : Type) (n : SourceNode σ T)
        (step : σ → (T × error) × σ)
        (outChan : List SendSel)
        (errReads : Nat) (s : σ) (t : GoError),
        .teardown (some t) ∈ (n.loop step outChan errReads s).trace →
        ReportsBoth errReads t (n.loop step outChan errReads s).trace) ∧
    (∀ (σ T : Type) [Inhabited T] (n : SinkNode σ T)
        (step : σ → T → error × σ)
        (inChan : List (RecvSel T))
        (errReads : Nat) (s : σ) (t : GoError),
        .teardown (some t) ∈ (n.loop step inChan errReads s).trace →
        ReportsBoth errReads t (n.loop step inChan errReads s).trace) ∧
    (∀ (σ T : Type) [Inhabited T] (n : TransformerNode σ T)
        (step : σ → T → (T × error) × σ)
        (inChan : List (RecvSel T)) (outChan : List SendSel)
        (errReads : Nat) (s : σ) (t : GoError),
        .teardown (some t) ∈ (n.loop step inChan outChan errReads s).trace →
        ReportsBoth errReads t (n.loop step inChan outChan errReads s).trace) ∧
    (∀ (σ From To : Type) [Inhabited From] (n : ConverterNode σ From To)
        (step : σ → From → (To × error) × σ)
        (inChan : List (RecvSel From)) (outChan : List SendSel)
        (errReads : Nat) (s : σ) (t : GoError),
        .teardown (some t) ∈ (n.loop step inChan outChan errReads s).trace →
        ReportsBoth errReads t (n.loop step inChan outChan errReads s).trace) ∧
    (∀ (σ A B C : Type) [Inhabited A] [Inhabited B] (n : CombinerNode σ A B C)
        (step : σ → A → B → (C × error) × σ)
        (inChanA : List (RecvSel A)) (inChanB : List (RecvSel B)) (outChan : List SendSel)
        (errReads : Nat) (s : σ) (t : GoError),
        .teardown (some t) ∈ (n.loop step inChanA inChanB outChan errReads s).trace →
        ReportsBoth errReads t (n.loop step inChanA inChanB outChan errReads s).trace) ∧
    (∀ (σ T P : Type) [Inhabited T] (n : PreviewerNode σ T P)
        (step : σ → T → (P × error) × σ)
        (inChan : List (RecvSel T)) (outChan previewChan : List SendSel)
        (errReads : Nat) (s : σ) (t : GoError),
        .teardown (some t) ∈ (n.loop step inChan outChan previewChan errReads s).trace →
        ReportsBoth errReads t (n.loop step inChan outChan previewChan errReads s).trace) ∧
    (∀ (σ T : Type) [Inhabited T] (n : ClonerNode σ T)
        (step : σ → T → (T × error) × σ)
        (inChan : List (RecvSel T)) (outChan cloneChan : List SendSel)
        (errReads : Nat) (s : σ) (t : GoError),
        .teardown (some t) ∈ (n.loop step inChan outChan cloneChan errReads s).trace →
        ReportsBoth errReads t (n.loop step inChan outChan cloneChan errReads s).trace) ∧
    (∀ t : GoError, (GoError.Wrap t "teardown error").Error = "teardown error: " ++ t.Error) := by
  refine ⟨?_, ?_, ?_, ?_, ?_, ?_, ?_, fun _ => rfl⟩
  · intro σ T n step outChan errReads s t ht
    exact lifecycle_reports_both n.setup n.teardown errReads s _
      (SourceNode.source_forLoop_ended step outChan errReads _) t ht
  · intro σ T _ n step inChan errReads s t ht
    exact lifecycle_reports_both n.setup n.teardown errReads s _
      (SinkNode.sink_forLoop_ended step inChan errReads _) t ht
  · intro σ T _ n step inChan outChan errReads s t ht
    exact lifecycle_reports_both n.setup n.teardown errReads s _
      (TransformerNode.transformer_forLoop_ended step inChan outChan errReads _) t ht
  · intro σ From To _ n step inChan outChan errReads s t ht
    exact lifecycle_reports_both n.setup n.teardown errReads s _
      (ConverterNode.converter_forLoop_ended step inChan outChan errReads _) t ht
  · intro σ A B C _ _ n step inChanA inChanB outChan errReads s t ht
    exact lifecycle_reports_both n.setup n.teardown errReads s _
      (CombinerNode.combiner_forLoop_ended step inChanA inChanB outChan errReads _) t ht
  · intro σ T P _ n step inChan outChan previewChan errReads s t ht
    exact lifecycle_reports_both n.setup n.teardown errReads s _
      (PreviewerNode.previewer_forLoop_ended step inChan outChan previewChan errReads _) t ht
  · intro σ T _ n step inChan outChan cloneChan errReads s t ht
    exact lifecycle_reports_both n.setup n.teardown errReads s _
      (ClonerNode.cloner_forLoop_ended step inChan outChan cloneChan errReads _) t ht

/-- C10. Every node shape: `Run` starts the goroutine of `loop` if and only if the
step callback is set; on a node whose step is unset, in particular on a
freshly constructed node, `Run` starts nothing, so no callback is invoked and
nothing is received, sent or written to the error channel. -/
theorem run_starts_loop_iff_step_set :
    (∀ (σ T : Type) (n : SourceNode σ T)
        (outChan : List SendSel)
        (errReads : Nat) (s : σ) (name : String),
        ((n.Run outChan errReads s).isSome ↔ n.step.isSome) ∧
        (n.step = none → n.Run outChan errReads s = none) ∧
        (∀ step, n.step = some step →
          n.Run outChan errReads s = some (n.loop step outChan errReads s)) ∧
        (NewSourceNode σ T name).Run outChan errReads s = none) ∧
    (∀ (σ T : Type) [Inhabited T] (n : SinkNode σ T)
        (inChan : List (RecvSel T))
        (errReads : Nat) (s : σ) (name : String),
        ((n.Run inChan errReads s).isSome ↔ n.step.isSome) ∧
        (n.step = none → n.Run inChan errReads s = none) ∧
        (∀ step, n.step = some step →
          n.Run inChan errReads s = some (n.loop step inChan errReads s)) ∧
        (NewSinkNode σ T name).Run inChan errReads s = none) ∧
    (∀ (σ T : Type) [Inhabited T] (n : TransformerNode σ T)
        (inChan : List (RecvSel T)) (outChan : List SendSel)
        (errReads : Nat) (s : σ) (name : String),
        ((n.Run inChan outChan errReads s).isSome ↔ n.step.isSome) ∧
        (n.step = none → n.Run inChan outChan errReads s = none) ∧
        (∀ step, n.step = some step →
          n.Run inChan outChan errReads s = some (n.loop step inChan outChan errReads s)) ∧
        (NewTransformerNode σ T name).Run inChan outChan errReads s = none) ∧
    (∀ (σ From To : Type) [Inhabited From] (n : ConverterNode σ From To)
        (inChan : List (RecvSel From)) (outChan : List SendSel)
        (errReads : Nat) (s : σ) (name : String),
        ((n.Run inChan outChan errReads s).isSome ↔ n.step.isSome) ∧
        (n.step = none → n.Run inChan outChan errReads s = none) ∧
        (∀ step, n.step = some step →
          n.Run inChan outChan errReads s = some (n.loop step inChan outChan errReads s)) ∧
        (NewConverterNode σ From To name).Run inChan outChan errReads s = none) ∧
    (∀ (σ A B C : Type) [Inhabited A] [Inhabited B] (n : CombinerNode σ A B C)
        (inChanA : List (RecvSel A)) (inChanB : List (RecvSel B)) (outChan : List SendSel)
        (errReads : Nat) (s : σ) (name : String),
        ((n.Run inChanA inChanB outChan errReads s).isSome ↔ n.step.isSome) ∧
        (n.step = none → n.Run inChanA inChanB outChan errReads s = none) ∧
        (∀ step, n.step = some step →
          n.Run inChanA inChanB outChan errReads s = some (n.loop step inChanA inChanB outChan errReads s)) ∧
        (NewCombinerNode σ A B C name).Run inChanA inChanB outChan errReads s = none) ∧
    (∀ (σ T P : Type) [Inhabited T] (n : PreviewerNode σ T P)
        (inChan : List (RecvSel T)) (outChan previewChan : List SendSel)
        (errReads : Nat) (s : σ) (name : String),
        ((n.Run inChan outChan previewChan errReads s).isSome ↔ n.step.isSome) ∧
        (n.step = none → n.Run inChan outChan previewChan errReads s = none) ∧
        (∀ step, n.step = some step →
          n.Run inChan outChan previewChan errReads s = some (n.loop step inChan outChan previewChan errReads s)) ∧
        (NewPreviewerNode σ T P name).Run inChan outChan previewChan errReads s = none) ∧
    (∀ (σ T : Type) [Inhabited T] (n : ClonerNode σ T)
        (inChan : List (RecvSel T)) (outChan cloneChan : List SendSel)
        (errReads : Nat) (s : σ) (name : String),
        ((n.Run inChan outChan cloneChan errReads s).isSome ↔ n.step.isSome) ∧
        (n.step = none → n.Run inChan outChan cloneChan errReads s = none) ∧
        (∀ step, n.step = some step →
          n.Run inChan outChan cloneChan errReads s = some (n.loop step inChan outChan cloneChan errReads s)) ∧
        (NewClonerNode σ T name).Run inChan outChan cloneChan errReads s = none) := by
  refine ⟨?_, ?_, ?_, ?_, ?_, ?_, ?_⟩
  · intro σ T n outChan errReads s name
    refine ⟨?_, ?_, ?_, rfl⟩
    · cases hs : n.step <;> simp [SourceNode.Run, hs]
    · intro hs; simp only [SourceNode.Run, hs]
    · intro step hs; simp only [SourceNode.Run, hs]
  · intro σ T _ n inChan errReads s name
    refine ⟨?_, ?_, ?_, rfl⟩
    · cases hs : n.step <;> simp [SinkNode.Run, hs]
    · intro hs; simp only [SinkNode.Run, hs]
    · intro step hs; simp only [SinkNode.Run, hs]
  · intro σ T _ n inChan outChan errReads s name
    refine ⟨?_, ?_, ?_, rfl⟩
    · cases hs : n.step <;> simp [TransformerNode.Run, hs]
    · intro hs; simp only [TransformerNode.Run, hs]
    · intro step hs; simp only [TransformerNode.Run, hs]
  · intro σ From To _ n inChan outChan errReads s name
    refine ⟨?_, ?_, ?_, rfl⟩
    · cases hs : n.step <;> simp [ConverterNode.Run, hs]
    · intro hs; simp only [ConverterNode.Run, hs]
    · intro step hs; simp only [ConverterNode.Run, hs]
  · intro σ A B C _ _ n inChanA inChanB outChan errReads s name
    refine ⟨?_, ?_, ?_, rfl⟩
    · cases hs : n.step <;> simp [CombinerNode.Run, hs]
    · intro hs; simp only [CombinerNode.Run, hs]
    · intro step hs; simp only [CombinerNode.Run, hs]
  · intro σ T P _ n inChan outChan previewChan errReads s name
    refine ⟨?_, ?_, ?_, rfl⟩
    · cases hs : n.step <;> simp [PreviewerNode.Run, hs]
    · intro hs; simp only [PreviewerNode.Run, hs]
    · intro step hs; simp only [PreviewerNode.Run, hs]
  · intro σ T _ n inChan outChan cloneChan errReads s name
    refine ⟨?_, ?_, ?_, rfl⟩
    · cases hs : n.step <;> simp [ClonerNode.Run, hs]
    · intro hs; simp only [ClonerNode.Run, hs]
    · intro step hs; simp only [ClonerNode.Run, hs]

/-- Witness for C6: a Source whose setup fails reports the wrapped error and returns. -/
theorem setup_error_ends_loop_witness :
    (SourceNode.mk "camera" (some failingCallback) (some failingCallback) (some sourceSeven)).loop
        sourceSeven [.ready] 1 ()
      = ⟨[.setup (some (.New "device lost")),
          .errSend (some (.Wrap (.New "device lost") "setup error")) true], true⟩ :=
  setup_error_ends_loop.1 Unit Nat
    (SourceNode.mk "camera" (some failingCallback) (some failingCallback) (some sourceSeven))
    sourceSeven [.ready] 1 () failingCallback (.New "device lost") rfl rfl

/-- Witness for C7: a Sink with a teardown, fed one value and then cancelled. -/
theorem teardown_runs_once_after_steps_witness :
    TeardownOnceAfterSteps
      ((SinkNode.mk "screen" none (some failingCallback) (some sinkOk)).loop sinkOk
        [.value 1, .cancelled] 2 ()).trace :=
  teardown_runs_once_after_steps.2.1 Unit Nat
    (SinkNode.mk "screen" none (some failingCallback) (some sinkOk)) sinkOk
    [.value 1, .cancelled] 2 () rfl rfl (by decide)

/-- Counterexample to C8 as stated: a Sink whose step fails and whose teardown
fails, with a reader that takes two values, returns after writing two values
to its error channel. -/
theorem error_channel_two_values_counterexample :
    ((SinkNode.mk "screen" none (some failingCallback) (some sinkFailing)).loop sinkFailing
        [.value 1] 2 ()).returned = true ∧
      errWritten ((SinkNode.mk "screen" none (some failingCallback) (some sinkFailing)).loop
        sinkFailing [.value 1] 2 ()).trace
        = [some (.New "step failed"), some (.Wrap (.New "device lost") "teardown error")] ∧
      (errWritten ((SinkNode.mk "screen" none (some failingCallback) (some sinkFailing)).loop
        sinkFailing [.value 1] 2 ()).trace).length ≠ 1 := by
  decide

/-- Witness for C8: a Sink without teardown whose step fails writes one value. -/
theorem error_channel_one_or_two_values_witness :
    (errWritten ((SinkNode.mk "screen" none none (some sinkFailing)).loop sinkFailing
      [.value 1] 1 ()).trace).length = 1 :=
  error_channel_one_or_two_values.2.1 Unit Nat (SinkNode.mk "screen" none none (some sinkFailing))
    sinkFailing [.value 1] 1 () (by decide)

/-- Witness for C9: a Sink whose step fails and whose teardown fails. -/
theorem teardown_error_follows_loop_error_witness :
    ReportsBoth 2 (.New "device lost")
      ((SinkNode.mk "screen" none (some failingCallback) (some sinkFailing)).loop sinkFailing
        [.value 1] 2 ()).trace :=
  teardown_error_follows_loop_error.2.1 Unit Nat
    (SinkNode.mk "screen" none (some failingCallback) (some sinkFailing)) sinkFailing
    [.value 1] 2 () (.New "device lost") (by decide)

/-- Witness for C10: `Run` on a freshly constructed Source starts nothing. -/
theorem run_starts_loop_iff_step_set_witness :
    (NewSourceNode Unit Nat "camera").Run [.ready] 1 () = none :=
  (run_starts_loop_iff_step_set.1 Unit Nat (NewSourceNode Unit Nat "camera") [.ready] 1 ()
    "camera").2.1 rfl

/-! ## Transport primitives -/

/-- C11. `BlockingSend` returns nil only when its value was handed to the
channel, and `context.Canceled`, its only error, only when the context is done
and then nothing is delivered; with the context done and no receiver ready it
returns `context.Canceled`, with a receiver ready and the context live it
delivers exactly `v` and returns nil; it stays blocked exactly while neither
holds.  `BlockingRecv` returns `(w, nil)` for a value `w` a sender offered, or
the zero value with `context.Canceled` when the context is done. -/
theorem blocking_transfer_outcomes {T : Type} [Inhabited T] (c : SendSel) (r : RecvSel T)
    (v : T) :
    (∀ res, BlockingSend c v = some res →
      (res.err = none → res.delivered = some v ∧ c.peer = true) ∧
      (∀ e, res.err = some e → e = .Canceled ∧ c.ctxDone = true ∧ res.delivered = none)) ∧
    (c.ctxDone = true → c.peer = false → BlockingSend c v = some ⟨some .Canceled, none⟩) ∧
    (c.peer = true → c.ctxDone = false → BlockingSend c v = some ⟨none, some v⟩) ∧
    (BlockingSend c v = none ↔ c.ctxDone = false ∧ c.peer = false) ∧
    (∀ res, BlockingRecv r = some res →
      (∃ w, r.peer = some w ∧ res = (w, none)) ∨
        (r.ctxDone = true ∧ res = (default, some .Canceled))) ∧
    (r.ctxDone = true → r.peer = none → BlockingRecv r = some (default, some .Canceled)) ∧
    (∀ w, r.peer = some w → r.ctxDone = false → BlockingRecv r = some (w, none)) ∧
    (BlockingRecv r = none ↔ r.ctxDone = false ∧ r.peer = none) := by
  rcases c with ⟨_ | _, _ | _, _ | _⟩ <;> rcases r with ⟨_ | _, _ | w, _ | _⟩ <;>
    simp [BlockingSend, BlockingRecv]

/-- Witness for C11: a send with a receiver ready and the context live, and a
receive on a cancelled context with no sender. -/
theorem blocking_transfer_outcomes_witness :
    BlockingSend SendSel.ready 5 = some ⟨none, some 5⟩ ∧
      BlockingRecv (RecvSel.cancelled : RecvSel Nat) = some (default, some .Canceled) :=
  ⟨(blocking_transfer_outcomes SendSel.ready (RecvSel.cancelled : RecvSel Nat) 5).2.2.1 rfl rfl,
    (blocking_transfer_outcomes SendSel.ready (RecvSel.cancelled : RecvSel Nat) 5).2.2.2.2.2.1
      rfl rfl⟩

/-- C12. `NonBlockingSend` and `NonBlockingRecv` always return: where the blocking
primitive returns they return the same, and where it would stay blocked (the
context is not cancelled and no peer is ready) `NonBlockingSend` returns
`NotSent` and delivers nothing and `NonBlockingRecv` returns the zero value
with `ReceivedNothing`; they return these two conditions in no other
situation. -/
theorem nonblocking_transfer_outcomes {T : Type} [Inhabited T] (c : SendSel) (r : RecvSel T)
    (v : T) :
    (c.ctxDone = false → c.peer = false → NonBlockingSend c v = ⟨some .NotSent, none⟩) ∧
    ((NonBlockingSend c v).err = some .NotSent ↔ c.ctxDone = false ∧ c.peer = false) ∧
    (∀ res, BlockingSend c v = some res → NonBlockingSend c v = res) ∧
    (BlockingSend c v = none → NonBlockingSend c v = ⟨some .NotSent, none⟩) ∧
    (r.ctxDone = false → r.peer = none →
      NonBlockingRecv r = (default, some .ReceivedNothing)) ∧
    ((NonBlockingRecv r).2 = some .ReceivedNothing ↔ r.ctxDone = false ∧ r.peer = none) ∧
    (∀ res, BlockingRecv r = some res → NonBlockingRecv r = res) ∧
    (BlockingRecv r = none → NonBlockingRecv r = (default, some .ReceivedNothing)) := by
  rcases c with ⟨_ | _, _ | _, _ | _⟩ <;> rcases r with ⟨_ | _, _ | w, _ | _⟩ <;>
    simp [BlockingSend, BlockingRecv, NonBlockingSend, NonBlockingRecv]

/-- Witness for C12: nobody is ready and the context is live. -/
theorem nonblocking_transfer_outcomes_witness :
    NonBlockingSend SendSel.idle 5 = ⟨some .NotSent, none⟩ ∧
      NonBlockingRecv (RecvSel.idle : RecvSel Nat) = (default, some .ReceivedNothing) :=
  ⟨(nonblocking_transfer_outcomes SendSel.idle (RecvSel.idle : RecvSel Nat) 5).1 rfl rfl,
    (nonblocking_transfer_outcomes SendSel.idle (RecvSel.idle : RecvSel Nat) 5).2.2.2.2.1
      rfl rfl⟩

/-! ## Go maps -/

section GoMapLemmas

variable {V : Type}

theorem GoMap.lookup_filter_ne (m : GoMap V) (k k1 : String) (h : k1 ≠ k) :
    List.lookup k1 (m.filter (fun p => p.1 != k)) = List.lookup k1 m := by
  induction m with
  | nil => rfl
  | cons p m ih =>
    rcases p with ⟨a, v⟩
    by_cases ha : a = k
    · subst ha
      have h1 : (k1 == a) = false := by simpa using h
      simp [List.filter_cons, List.lookup_cons, h1, ih]
    · have h2 : (a != k) = true := by simpa using ha
      simp only [List.filter_cons, h2, ↓reduceIte, List.lookup_cons, ih]

theorem GoMap.entry_assign_self (m : GoMap V) (k : String) (v : V) :
    (m.assign k v).entry k = some v := by
  simp [GoMap.entry, GoMap.assign, List.lookup_cons]

theorem GoMap.entry_assign_ne (m : GoMap V) (k k1 : String) (v : V) (h : k1 ≠ k) :
    (m.assign k v).entry k1 = m.entry k1 := by
  have h1 : (k1 == k) = false := by simpa using h
  simp only [GoMap.entry, GoMap.assign, GoMap.remove, List.lookup_cons, h1]
  exact GoMap.lookup_filter_ne m k k1 h

theorem GoMap.entry_remove_self (m : GoMap V) (k : String) : (m.remove k).entry k = none := by
  induction m with
  | nil => rfl
  | cons p m ih =>
    rcases p with ⟨a, v⟩
    by_cases ha : a = k
    · subst ha
      simpa [GoMap.remove, GoMap.entry, List.filter_cons] using ih
    · have h2 : (a != k) = true := by simpa using ha
      have h3 : (k == a) = false := by simpa using fun h : k = a => ha h.symm
      simp only [GoMap.remove, GoMap.entry, List.filter_cons, h2, ↓reduceIte, List.lookup_cons,
        h3]
      exact ih

theorem GoMap.entry_remove_ne (m : GoMap V) (k k1 : String) (h : k1 ≠ k) :
    (m.remove k).entry k1 = m.entry k1 :=
  GoMap.lookup_filter_ne m k k1 h

theorem GoMap.entry_eq_none_iff (m : GoMap V) (k : String) :
    m.entry k = none ↔ k ∉ m.keys := by
  induction m with
  | nil => simp [GoMap.entry, GoMap.keys]
  | cons p m ih =>
    rcases p with ⟨a, v⟩
    by_cases ha : k = a
    · subst ha
      simp [GoMap.entry, GoMap.keys, List.lookup_cons]
    · have h3 : (k == a) = false := by simpa using ha
      simp only [GoMap.entry, GoMap.keys, List.lookup_cons, h3, List.map_cons, List.mem_cons, ha,
        false_or]
      exact ih

/-- Deleting a key that is not bound leaves the map as it is. -/
theorem GoMap.remove_absent (m : GoMap V) (k : String) (h : m.entry k = none) :
    m.remove k = m := by
  rw [GoMap.entry_eq_none_iff] at h
  simp only [GoMap.remove, List.filter_eq_self]
  intro p hp
  have : p.1 ≠ k := fun hk => h (by rw [← hk]; exact List.mem_map_of_mem _ hp)
  simpa using this

theorem GoMap.keys_remove (m : GoMap V) (k : String) :
    (m.remove k).keys = m.keys.filter (fun a => a != k) := by
  simp [GoMap.remove, GoMap.keys, List.filter_map, Function.comp_def]

theorem GoMap.not_mem_keys_remove (m : GoMap V) (k : String) : k ∉ (m.remove k).keys := by
  rw [GoMap.keys_remove]
  simp

theorem GoMap.mem_keys_remove (m : GoMap V) (k c : String) :
    c ∈ (m.remove k).keys ↔ c ∈ m.keys ∧ c ≠ k := by
  rw [GoMap.keys_remove]
  simp

theorem GoMap.keys_nodup_remove (m : GoMap V) (k : String) (h : m.keys.Nodup) :
    (m.remove k).keys.Nodup := by
  rw [GoMap.keys_remove]
  exact h.filter _

theorem GoMap.keys_nodup_assign (m : GoMap V) (k : String) (v : V) (h : m.keys.Nodup) :
    (m.assign k v).keys.Nodup := by
  have h1 : (m.assign k v).keys = k :: (m.remove k).keys := rfl
  rw [h1, List.nodup_cons]
  exact ⟨GoMap.not_mem_keys_remove m k, GoMap.keys_nodup_remove m k h⟩

end GoMapLemmas

section SetNodesLemmas

variable {N : Type} [Node N]

/-- A key not among the names of the assigned nodes keeps its binding. -/
theorem GoMap.entry_foldl_assign_other (nodes : List N) (k : String) :
    ∀ m : GoMap N, k ∉ nodes.map Node.Name →
      (nodes.foldl (fun m node => m.assign (Node.Name node) node) m).entry k = m.entry k := by
  induction nodes with
  | nil => intro m _; rfl
  | cons x xs ih =>
    intro m hk
    simp only [List.map_cons, List.mem_cons, not_or] at hk
    rw [List.foldl_cons, ih _ hk.2, GoMap.entry_assign_ne _ _ _ _ hk.1]

/-- With pairwise distinct names, each assigned node ends up bound to its name. -/
theorem GoMap.entry_foldl_assign_mem (nodes : List N) :
    ∀ (m : GoMap N) (node : N), (nodes.map Node.Name).Nodup → node ∈ nodes →
      (nodes.foldl (fun m node => m.assign (Node.Name node) node) m).entry (Node.Name node)
        = some node := by
  induction nodes with
  | nil => intro m node _ h; simp at h
  | cons x xs ih =>
    intro m node hnd hmem
    simp only [List.map_cons, List.nodup_cons] at hnd
    rw [List.foldl_cons]
    rcases List.mem_cons.1 hmem with rfl | hmem
    · rw [GoMap.entry_foldl_assign_other xs _ _ hnd.1, GoMap.entry_assign_self]
    · exact ih _ node hnd.2 hmem

end SetNodesLemmas

theorem Graph.removeNodesByName_eq_foldl {N : Type} (names : List String) :
    ∀ g : Graph N, g.RemoveNodesByName names = names.foldl Graph.RemoveNodeByName g := by
  induction names with
  | nil => intro g; rfl
  | cons x xs ih =>
    intro g
    rw [List.foldl_cons, ← ih (g.RemoveNodeByName x)]
    rfl

section GraphMembership

variable {N : Type} [Node N]

theorem Graph.setNodes_eq_foldl (nodes : List N) :
    ∀ g : Graph N, g.SetNodes nodes = nodes.foldl Graph.SetNode g := by
  induction nodes with
  | nil => intro g; rfl
  | cons x xs ih =>
    intro g
    rw [List.foldl_cons, ← ih (g.SetNode x)]
    rfl

theorem Graph.removeNodes_eq_foldl (nodes : List N) :
    ∀ g : Graph N, g.RemoveNodes nodes = nodes.foldl Graph.RemoveNode g := by
  induction nodes with
  | nil => intro g; rfl
  | cons x xs ih =>
    intro g
    rw [List.foldl_cons, ← ih (g.RemoveNode x)]
    rfl

/-- C20. The node set of a graph is a map keyed by `Name()`: `SetNode` binds the
name of its argument to the argument, replacing what was bound to it, leaves
every other name as it was and keeps the keys without repetition; `RemoveNode`
is `RemoveNodeByName` on the name of its argument, which unbinds exactly that
name and changes nothing when the name is not bound; `SetNodes`, `RemoveNodes`
and `RemoveNodesByName` are the single operation applied to every argument in
order; so two orders of insertion of nodes with pairwise distinct names bind
every name alike. -/
theorem graph_nodes_behave_as_map (g : Graph N) (node : N) (name : String) (nodes : List N)
    (names : List String) :
    (g.SetNode node).nodes.entry (Node.Name node) = some node ∧
    (∀ k, k ≠ Node.Name node → (g.SetNode node).nodes.entry k = g.nodes.entry k) ∧
    (g.nodes.keys.Nodup → (g.SetNode node).nodes.keys.Nodup) ∧
    g.RemoveNode node = g.RemoveNodeByName (Node.Name node) ∧
    (g.RemoveNodeByName name).nodes.entry name = none ∧
    (∀ k, k ≠ name → (g.RemoveNodeByName name).nodes.entry k = g.nodes.entry k) ∧
    (g.nodes.entry name = none → g.RemoveNodeByName name = g) ∧
    (g.nodes.keys.Nodup → (g.RemoveNodeByName name).nodes.keys.Nodup) ∧
    g.SetNodes nodes = nodes.foldl Graph.SetNode g ∧
    g.RemoveNodes nodes = nodes.foldl Graph.RemoveNode g ∧
    g.RemoveNodesByName names = names.foldl Graph.RemoveNodeByName g ∧
    (∀ nodes2 : List N, nodes.Perm nodes2 → (nodes.map Node.Name).Nodup →
      ∀ k, (g.SetNodes nodes).nodes.entry k = (g.SetNodes nodes2).nodes.entry k) := by
  refine ⟨GoMap.entry_assign_self _ _ _, fun k hk => GoMap.entry_assign_ne _ _ _ _ hk,
    GoMap.keys_nodup_assign _ _ _, rfl, GoMap.entry_remove_self _ _,
    fun k hk => GoMap.entry_remove_ne _ _ _ hk, ?_, GoMap.keys_nodup_remove _ _,
    Graph.setNodes_eq_foldl nodes g, Graph.removeNodes_eq_foldl nodes g,
    Graph.removeNodesByName_eq_foldl names g, ?_⟩
  · intro h
    have := GoMap.remove_absent g.nodes name h
    simp only [Graph.RemoveNodeByName, this]
  · intro nodes2 hperm hnd k
    have hnd2 : (nodes2.map Node.Name).Nodup := (hperm.map Node.Name).nodup_iff.1 hnd
    simp only [Graph.SetNodes]
    by_cases hk : k ∈ nodes.map Node.Name
    · obtain ⟨n, hn, rfl⟩ := List.mem_map.1 hk
      rw [GoMap.entry_foldl_assign_mem nodes g.nodes n hnd hn,
        GoMap.entry_foldl_assign_mem nodes2 g.nodes n hnd2 (hperm.mem_iff.1 hn)]
    · have hk2 : k ∉ nodes2.map Node.Name := fun h => hk ((hperm.map Node.Name).mem_iff.2 h)
      rw [GoMap.entry_foldl_assign_other nodes k g.nodes hk,
        GoMap.entry_foldl_assign_other nodes2 k g.nodes hk2]

end GraphMembership

/-- Witness for C20: setting a second node named `"camera"` replaces the first,
and the two orders of inserting `"camera"` and `"screen"` bind `"screen"` alike. -/
theorem graph_nodes_behave_as_map_witness :
    (twoNodeGraph.SetNode ⟨"camera", 1⟩).nodes.entry "camera" = some ⟨"camera", 1⟩ ∧
      ((NewGraph NamedNode "fx").SetNodes [⟨"camera", 0⟩, ⟨"screen", 0⟩]).nodes.entry "screen"
        = ((NewGraph NamedNode "fx").SetNodes [⟨"screen", 0⟩, ⟨"camera", 0⟩]).nodes.entry
          "screen" :=
  ⟨(graph_nodes_behave_as_map twoNodeGraph ⟨"camera", 1⟩ "camera" [] []).1,
    (graph_nodes_behave_as_map (NewGraph NamedNode "fx") ⟨"camera", 0⟩ "camera"
      [⟨"camera", 0⟩, ⟨"screen", 0⟩] []).2.2.2.2.2.2.2.2.2.2.2
      [⟨"screen", 0⟩, ⟨"camera", 0⟩] (List.Perm.swap _ _ _) (by decide) "screen"⟩

/-! ## The monitoring phase of `Graph.loop` -/

theorem pick_report (done : Bool) (report : Option error) (pickDone : Bool) (err : error)
    (h : pick done report pickDone = .report err) : report = some err := by
  rcases done with _ | _ <;> rcases report with _ | e <;> rcases pickDone with _ | _ <;>
    simp [pick] at h ⊢ <;> exact h

theorem pick_done (done : Bool) (report : Option error) (pickDone : Bool)
    (h : pick done report pickDone = .done) : done = true := by
  rcases done with _ | _ <;> rcases report with _ | e <;> rcases pickDone with _ | _ <;>
    simp [pick] at h ⊢

section GraphPhases

variable {N : Type}

theorem GoMap.rangeKey_mem {V : Type} (m : GoMap V) (i : Nat) (h : m.isEmpty = false) :
    m.rangeKey i ∈ m.keys := by
  have hpos : 0 < m.length := by
    cases m with
    | nil => simp at h
    | cons _ _ => simp
  have hlt : i % m.length < m.keys.length := by
    simp only [GoMap.keys, List.length_map]
    exact Nat.mod_lt _ hpos
  simp only [GoMap.rangeKey, List.get?_eq_getElem?, List.getElem?_eq_getElem hlt,
    Option.getD_some]
  exact List.getElem_mem _

theorem GoMap.isEmpty_remove_of_not_mem {V : Type} (m : GoMap V) (k : String) :
    (m.remove k).isEmpty = true → ∀ c ∈ m.keys, c = k := by
  intro h c hc
  by_contra hne
  have : c ∈ (m.remove k).keys := (GoMap.mem_keys_remove m k c).2 ⟨hc, hne⟩
  cases hm : m.remove k with
  | nil => rw [hm] at this; simp [GoMap.keys] at this
  | cons _ _ => rw [hm] at h; simp at h

theorem PhaseEnd.after_after (a b : List GraphEvent) (e : PhaseEnd N) :
    (e.after a).after b = e.after (b ++ a) := by
  simp [PhaseEnd.after]

theorem mainLoop_default (vars : LoopVars N) (h : vars.runningNodes.isEmpty = false)
    (p : MonitorPoll) (rest : List MonitorPoll)
    (hp : pick p.ctxDone p.report p.pickDone = .default) :
    mainLoop vars (p :: rest)
      = (mainLoop vars rest).after [.monitor (vars.runningNodes.rangeKey p.key) .default] := by
  simp only [mainLoop, h, Bool.false_eq_true, ↓reduceIte, hp]

/-- Polls that find nothing leave the monitoring phase where it is. -/
theorem mainLoop_quiet (vars : LoopVars N) (h : vars.runningNodes.isEmpty = false)
    (quiet polls : List MonitorPoll)
    (hq : ∀ q ∈ quiet, pick q.ctxDone q.report q.pickDone = .default) :
    mainLoop vars (quiet ++ polls)
      = (mainLoop vars polls).after
        (quiet.map fun q => .monitor (vars.runningNodes.rangeKey q.key) .default) := by
  induction quiet with
  | nil => simp [PhaseEnd.after]
  | cons q quiet ih =>
    have hq1 := hq q (by simp)
    have ih1 := ih (fun x hx => hq x (by simp [hx]))
    rw [List.cons_append, mainLoop_default vars h q _ hq1, ih1, PhaseEnd.after_after]
    rfl

theorem mainLoop_report (vars : LoopVars N) (h : vars.runningNodes.isEmpty = false)
    (p : MonitorPoll) (rest : List MonitorPoll) (err : error)
    (hp : pick p.ctxDone p.report p.pickDone = .report err) :
    mainLoop vars (p :: rest)
      = ⟨some (.New "Node error"),
          ⟨vars.runningNodes.remove (vars.runningNodes.rangeKey p.key),
            vars.nodeErrs.assign (vars.runningNodes.rangeKey p.key) err⟩,
          [.monitor (vars.runningNodes.rangeKey p.key) (.report err)], true⟩ := by
  simp only [mainLoop, h, Bool.false_eq_true, ↓reduceIte, hp]

theorem mainLoop_done (vars : LoopVars N) (h : vars.runningNodes.isEmpty = false)
    (p : MonitorPoll) (rest : List MonitorPoll)
    (hp : pick p.ctxDone p.report p.pickDone = .done) :
    mainLoop vars (p :: rest)
      = ⟨none, vars, [.monitor (vars.runningNodes.rangeKey p.key) .done], true⟩ := by
  simp only [mainLoop, h, Bool.false_eq_true, ↓reduceIte, hp, contextCanceledIsAnError]

theorem Graph.started_nonempty (g : Graph N) (h : g.nodes ≠ []) : g.started.isEmpty = false := by
  have key : ∀ (l : List (String × N)) (m : GoMap N), m.isEmpty = false →
      (l.foldl (fun r p => r.assign p.1 p.2) m).isEmpty = false := by
    intro l
    induction l with
    | nil => intro m hm; exact hm
    | cons x xs ih => intro m _; exact ih _ rfl
  cases hn : g.nodes with
  | nil => exact absurd hn h
  | cons x xs =>
    simp only [Graph.started, hn, List.foldl_cons]
    exact key xs _ rfl

end GraphPhases

/-- C13. Monitoring phase of `Graph.loop`, for a graph with a child: after polls
that find nothing, the first poll that receives a value `err`, nil or not, from
the error channel of the polled child ends the phase with the error `"Node
error"`: `err` is recorded in `nodeErrs` under the name of that child, the
child is deleted from `runningNodes`, the polls left in the script are not
made, and the run goes on with the teardown phase on these variables. -/
theorem first_report_ends_monitoring {N : Type} (g : Graph N) (quiet rest : List MonitorPoll)
    (p : MonitorPoll) (err : error) (teardown : List TeardownPoll) (errReads : Nat)
    (hg : g.nodes ≠ [])
    (hquiet : ∀ q ∈ quiet, pick q.ctxDone q.report q.pickDone = .default)
    (hp : pick p.ctxDone p.report p.pickDone = .report err) :
    mainLoop ⟨g.started, []⟩ (quiet ++ p :: rest)
      = ⟨some (.New "Node error"),
          ⟨g.started.remove (g.started.rangeKey p.key), [(g.started.rangeKey p.key, err)]⟩,
          quiet.map (fun q => .monitor (g.started.rangeKey q.key) .default) ++
            [.monitor (g.started.rangeKey p.key) (.report err)], true⟩ ∧
    g.started.rangeKey p.key ∈ g.started.keys ∧
    g.started.rangeKey p.key ∉ (g.started.remove (g.started.rangeKey p.key)).keys ∧
    GoMap.entry [(g.started.rangeKey p.key, err)] (g.started.rangeKey p.key) = some err ∧
    ∃ v, (g.loop (quiet ++ p :: rest) teardown errReads).trace
      = .lock :: g.nodes.map (fun n => .run n.1) ++
          (quiet.map (fun q => .monitor (g.started.rangeKey q.key) .default) ++
            [.monitor (g.started.rangeKey p.key) (.report err)]) ++
          (g.teardown ⟨g.started.remove (g.started.rangeKey p.key),
            [(g.started.rangeKey p.key, err)]⟩ teardown).trace ++
          (if 0 < errReads then [.sendErr v true, .unlock] else [.sendErr v false]) := by
  have hne := Graph.started_nonempty g hg
  have hm : mainLoop ⟨g.started, []⟩ (quiet ++ p :: rest)
      = ⟨some (.New "Node error"),
          ⟨g.started.remove (g.started.rangeKey p.key), [(g.started.rangeKey p.key, err)]⟩,
          quiet.map (fun q => .monitor (g.started.rangeKey q.key) .default) ++
            [.monitor (g.started.rangeKey p.key) (.report err)], true⟩ := by
    rw [mainLoop_quiet ⟨g.started, []⟩ hne quiet _ hquiet,
      mainLoop_report ⟨g.started, []⟩ hne p rest err hp]
    rfl
  refine ⟨hm, GoMap.rangeKey_mem _ _ hne, GoMap.not_mem_keys_remove _ _,
    GoMap.entry_assign_self [] _ _, ?_⟩
  simp only [Graph.loop, hm, ↓reduceIte]
  exact ⟨_, rfl⟩

/-- Witness for C13: in a graph of two children the second poll receives nil from
`"camera"`: monitoring ends with `"Node error"`, nil recorded under `"camera"`
and `"screen"` alone left running. -/
theorem first_report_ends_monitoring_witness :
    mainLoop ⟨twoNodeGraph.started, []⟩
        ([⟨0, false, none, false⟩] ++ ⟨0, false, some none, false⟩ :: [⟨1, true, none, false⟩])
      = ⟨some (.New "Node error"), ⟨[("screen", ⟨"screen", 0⟩)], [("camera", none)]⟩,
          [.monitor "camera" .default, .monitor "camera" (.report none)], true⟩ := by
  have h := (first_report_ends_monitoring twoNodeGraph [⟨0, false, none, false⟩]
    [⟨1, true, none, false⟩] ⟨0, false, some none, false⟩ none [] 1
    (by decide) (by decide) (by decide)).1
  exact h

/-! ## The teardown phase of `Graph.loop` -/

section TeardownPhase

variable {N : Type}

theorem recordTeardownErr_clean (nodeErrs : GoMap error) (c : String) (err : error)
    (h : err = none ∨ ∃ e, err = some e ∧ e.Is .Canceled = true) :
    recordTeardownErr nodeErrs c err = nodeErrs := by
  rcases h with rfl | ⟨e, rfl, he⟩
  · rfl
  · simp [recordTeardownErr, he, contextCanceledIsAnError]

theorem recordTeardownErr_failure (nodeErrs : GoMap error) (c : String) (e : GoError)
    (h : e.Is .Canceled = false) :
    recordTeardownErr nodeErrs c (some e) = nodeErrs.assign c (some e) := by
  simp [recordTeardownErr, h]

theorem recordTeardownErr_entry_ne (nodeErrs : GoMap error) (c k : String) (err : error)
    (h : k ≠ c) : (recordTeardownErr nodeErrs c err).entry k = nodeErrs.entry k := by
  cases err with
  | none => rfl
  | some e =>
    simp only [recordTeardownErr]
    split
    · exact GoMap.entry_assign_ne nodeErrs c k _ h
    · rfl

theorem teardownLoop_empty (d : Duration) (vars : LoopVars N)
    (h : vars.runningNodes.isEmpty = true) (polls : List TeardownPoll) :
    teardownLoop d vars polls = ⟨none, vars, [], true⟩ := by
  cases polls <;> simp [teardownLoop, h]

theorem teardownLoop_nil (d : Duration) (vars : LoopVars N)
    (h : vars.runningNodes.isEmpty = false) :
    teardownLoop d vars []
      = ⟨some .TeardownTimedOut, vars, [.teardown (vars.runningNodes.rangeKey 0) .done], true⟩ := by
  simp [teardownLoop, h]

theorem teardownLoop_done (d : Duration) (vars : LoopVars N)
    (h : vars.runningNodes.isEmpty = false) (p : TeardownPoll) (rest : List TeardownPoll)
    (hp : pick (decide (d ≤ p.elapsed)) p.report p.pickDone = .done) :
    teardownLoop d vars (p :: rest)
      = ⟨some .TeardownTimedOut, vars,
          [.teardown (vars.runningNodes.rangeKey p.key) .done], true⟩ := by
  simp only [teardownLoop, h, Bool.false_eq_true, ↓reduceIte, hp]

theorem teardownLoop_report (d : Duration) (vars : LoopVars N)
    (h : vars.runningNodes.isEmpty = false) (p : TeardownPoll) (rest : List TeardownPoll)
    (err : error) (hp : pick (decide (d ≤ p.elapsed)) p.report p.pickDone = .report err) :
    teardownLoop d vars (p :: rest)
      = (teardownLoop d
          ⟨vars.runningNodes.remove (vars.runningNodes.rangeKey p.key),
            recordTeardownErr vars.nodeErrs (vars.runningNodes.rangeKey p.key) err⟩ rest).after
          [.teardown (vars.runningNodes.rangeKey p.key) (.report err)] := by
  simp only [teardownLoop, h, Bool.false_eq_true, ↓reduceIte, hp]

theorem teardownLoop_default (d : Duration) (vars : LoopVars N)
    (h : vars.runningNodes.isEmpty = false) (p : TeardownPoll) (rest : List TeardownPoll)
    (hp : pick (decide (d ≤ p.elapsed)) p.report p.pickDone = .default) :
    teardownLoop d vars (p :: rest)
      = (teardownLoop d vars rest).after
          [.teardown (vars.runningNodes.rangeKey p.key) .default] := by
  simp only [teardownLoop, h, Bool.false_eq_true, ↓reduceIte, hp]

/-- The shape shared by the proofs on `teardownLoop`: a property that holds of the
four ways a `select` of the loop can go holds of every run of the loop. -/
theorem teardownLoop_cases (d : Duration) (P : LoopVars N → List TeardownPoll → PhaseEnd N → Prop)
    (hempty : ∀ vars polls, vars.runningNodes.isEmpty = true → P vars polls ⟨none, vars, [], true⟩)
    (hfired : ∀ vars polls k, vars.runningNodes.isEmpty = false → k ∈ vars.runningNodes.keys →
      P vars polls ⟨some .TeardownTimedOut, vars, [.teardown k .done], true⟩)
    (hreport : ∀ vars p polls k err, vars.runningNodes.isEmpty = false →
      k ∈ vars.runningNodes.keys →
      P ⟨vars.runningNodes.remove k, recordTeardownErr vars.nodeErrs k err⟩ polls
        (teardownLoop d ⟨vars.runningNodes.remove k, recordTeardownErr vars.nodeErrs k err⟩ polls) →
      P vars (p :: polls)
        ((teardownLoop d ⟨vars.runningNodes.remove k, recordTeardownErr vars.nodeErrs k err⟩
          polls).after [.teardown k (.report err)]))
    (hdefault : ∀ vars p polls k, vars.runningNodes.isEmpty = false →
      k ∈ vars.runningNodes.keys → P vars polls (teardownLoop d vars polls) →
      P vars (p :: polls) ((teardownLoop d vars polls).after [.teardown k .default]))
    (vars : LoopVars N) (polls : List TeardownPoll) :
    P vars polls (teardownLoop d vars polls) := by
  induction polls generalizing vars with
  | nil =>
    cases h : vars.runningNodes.isEmpty with
    | true => rw [teardownLoop_empty d vars h]; exact hempty vars [] h
    | false =>
      rw [teardownLoop_nil d vars h]
      exact hfired vars [] _ h (GoMap.rangeKey_mem _ _ h)
  | cons p polls ih =>
    cases h : vars.runningNodes.isEmpty with
    | true => rw [teardownLoop_empty d vars h]; exact hempty vars _ h
    | false =>
      have hk := GoMap.rangeKey_mem vars.runningNodes p.key h
      cases hp : pick (decide (d ≤ p.elapsed)) p.report p.pickDone with
      | done => rw [teardownLoop_done d vars h p polls hp]; exact hfired vars _ _ h hk
      | report err =>
        rw [teardownLoop_report d vars h p polls err hp]
        exact hreport vars p polls _ err h hk (ih _)
      | default =>
        rw [teardownLoop_default d vars h p polls hp]
        exact hdefault vars p polls _ h hk (ih _)

end TeardownPhase

section TeardownRuns

variable {N : Type}

/-- The teardown loop always ends: either every child has reported, or the timer
fired at the poll of a child that has not, which is the last action of the loop. -/
theorem teardownLoop_ended (d : Duration) (vars : LoopVars N) (polls : List TeardownPoll) :
    (teardownLoop d vars polls).returned = true ∧
    (((teardownLoop d vars polls).err = none ∧
        (teardownLoop d vars polls).vars.runningNodes = [] ∧
        ∀ c, GraphEvent.teardown c .done ∉ (teardownLoop d vars polls).trace) ∨
     ((teardownLoop d vars polls).err = some .TeardownTimedOut ∧
        ∃ pre c, c ∈ (teardownLoop d vars polls).vars.runningNodes.keys ∧
          (teardownLoop d vars polls).trace = pre ++ [.teardown c .done] ∧
          ∀ k, GraphEvent.teardown k .done ∉ pre)) := by
  refine teardownLoop_cases d
    (fun _ _ e => e.returned = true ∧
      ((e.err = none ∧ e.vars.runningNodes = [] ∧ ∀ c, GraphEvent.teardown c .done ∉ e.trace) ∨
       (e.err = some .TeardownTimedOut ∧
          ∃ pre c, c ∈ e.vars.runningNodes.keys ∧ e.trace = pre ++ [.teardown c .done] ∧
            ∀ k, GraphEvent.teardown k .done ∉ pre))) ?_ ?_ ?_ ?_ vars polls
  · intro vars _ h
    exact ⟨rfl, Or.inl ⟨rfl, List.isEmpty_iff.1 h, fun c => by simp⟩⟩
  · intro vars _ k _ hk
    exact ⟨rfl, Or.inr ⟨rfl, [], k, hk, rfl, fun c => by simp⟩⟩
  · intro vars p polls k err _ _ ih
    rcases ih with ⟨hr, ⟨he, hn, ht⟩ | ⟨he, pre, c, hc, ht, hpre⟩⟩
    · exact ⟨hr, Or.inl ⟨he, hn, fun c => by simpa [PhaseEnd.after] using ht c⟩⟩
    · refine ⟨hr, Or.inr ⟨he, .teardown k (.report err) :: pre, c, hc, ?_, fun c => ?_⟩⟩
      · simp [PhaseEnd.after, ht]
      · simpa using hpre c
  · intro vars p polls k _ _ ih
    rcases ih with ⟨hr, ⟨he, hn, ht⟩ | ⟨he, pre, c, hc, ht, hpre⟩⟩
    · exact ⟨hr, Or.inl ⟨he, hn, fun c => by simpa [PhaseEnd.after] using ht c⟩⟩
    · refine ⟨hr, Or.inr ⟨he, .teardown k .default :: pre, c, hc, ?_, fun c => ?_⟩⟩
      · simp [PhaseEnd.after, ht]
      · simpa using hpre c

/-- The teardown loop does nothing but poll children. -/
theorem teardownLoop_trace (d : Duration) (vars : LoopVars N) (polls : List TeardownPoll) :
    ∀ ev ∈ (teardownLoop d vars polls).trace, ∃ c k, ev = .teardown c k := by
  refine teardownLoop_cases d (fun _ _ e => ∀ ev ∈ e.trace, ∃ c k, ev = .teardown c k)
    ?_ ?_ ?_ ?_ vars polls
  · intro _ _ _ ev hev
    simp at hev
  · intro _ _ k _ _ ev hev
    exact ⟨k, .done, by simpa using hev⟩
  · intro _ _ _ k err _ _ ih ev hev
    simp only [PhaseEnd.after, List.singleton_append, List.mem_cons] at hev
    rcases hev with rfl | hev
    · exact ⟨k, .report err, rfl⟩
    · exact ih ev hev
  · intro _ _ _ k _ _ ih ev hev
    simp only [PhaseEnd.after, List.singleton_append, List.mem_cons] at hev
    rcases hev with rfl | hev
    · exact ⟨k, .default, rfl⟩
    · exact ih ev hev

/-- The teardown loop leaves the entry of a child that is not running as it is. -/
theorem teardownLoop_entry_of_not_running (d : Duration) (c : String) (vars : LoopVars N)
    (polls : List TeardownPoll) :
    c ∉ vars.runningNodes.keys →
      (teardownLoop d vars polls).vars.nodeErrs.entry c = vars.nodeErrs.entry c := by
  refine teardownLoop_cases d
    (fun vars _ e => c ∉ vars.runningNodes.keys → e.vars.nodeErrs.entry c = vars.nodeErrs.entry c)
    ?_ ?_ ?_ ?_ vars polls
  · intro _ _ _ _
    rfl
  · intro _ _ _ _ _ _
    rfl
  · intro vars _ _ k err _ hk ih hc
    have hne : c ≠ k := fun h => hc (h ▸ hk)
    have h1 := ih (fun h => hc ((GoMap.mem_keys_remove _ _ _).1 h).1)
    simp only [PhaseEnd.after] at h1 ⊢
    rw [h1]
    exact recordTeardownErr_entry_ne _ _ _ _ hne
  · intro _ _ _ _ _ _ ih hc
    exact ih hc

/-- A failure received in the teardown loop is in `nodeErrs` when the loop ends. -/
theorem teardownLoop_records (d : Duration) (c : String) (e : GoError)
    (he : e.Is .Canceled = false) (vars : LoopVars N) (polls : List TeardownPoll) :
    GraphEvent.teardown c (.report (some e)) ∈ (teardownLoop d vars polls).trace →
      (teardownLoop d vars polls).vars.nodeErrs.entry c = some (some e) := by
  refine teardownLoop_cases d
    (fun _ _ r => GraphEvent.teardown c (.report (some e)) ∈ r.trace →
      r.vars.nodeErrs.entry c = some (some e)) ?_ ?_ ?_ ?_ vars polls
  · intro _ _ _ h
    simp at h
  · intro _ _ _ _ _ h
    simp at h
  · intro vars _ polls k err _ _ ih h
    simp only [PhaseEnd.after, List.singleton_append, List.mem_cons, GraphEvent.teardown.injEq,
      Picked.report.injEq] at h
    rcases h with ⟨rfl, rfl⟩ | h
    · simp only [PhaseEnd.after]
      rw [teardownLoop_entry_of_not_running d c _ polls (GoMap.not_mem_keys_remove _ _),
        recordTeardownErr_failure _ _ _ he]
      exact GoMap.entry_assign_self _ _ _
    · exact ih h
  · intro _ _ _ _ _ _ ih h
    simp only [PhaseEnd.after, List.singleton_append, List.mem_cons, GraphEvent.teardown.injEq,
      reduceCtorEq, and_false, false_or] at h
    exact ih h

/-- A teardown loop that receives only nil and cancellation leaves `nodeErrs` as it is. -/
theorem teardownLoop_clean (d : Duration) (vars : LoopVars N) (polls : List TeardownPoll) :
    (∀ c err, GraphEvent.teardown c (.report err) ∈ (teardownLoop d vars polls).trace →
        err = none ∨ ∃ e, err = some e ∧ e.Is .Canceled = true) →
      (teardownLoop d vars polls).vars.nodeErrs = vars.nodeErrs := by
  refine teardownLoop_cases d
    (fun vars _ r => (∀ c err, GraphEvent.teardown c (.report err) ∈ r.trace →
        err = none ∨ ∃ e, err = some e ∧ e.Is .Canceled = true) →
      r.vars.nodeErrs = vars.nodeErrs) ?_ ?_ ?_ ?_ vars polls
  · intro _ _ _ _
    rfl
  · intro _ _ _ _ _ _
    rfl
  · intro vars _ _ k err _ _ ih h
    have h1 := ih (fun c err1 hm => h c err1 (by simp [PhaseEnd.after, hm]))
    simp only [PhaseEnd.after] at h1 ⊢
    rw [h1]
    exact recordTeardownErr_clean _ _ _ (h k err (by simp [PhaseEnd.after]))
  · intro _ _ _ _ _ _ ih h
    exact ih (fun c err1 hm => h c err1 (by simp [PhaseEnd.after, hm]))

/-- A child leaves `runningNodes` in the teardown loop only by a report. -/
theorem teardownLoop_unreported (d : Duration) (c : String) (vars : LoopVars N)
    (polls : List TeardownPoll) :
    c ∈ vars.runningNodes.keys →
      (∀ err, GraphEvent.teardown c (.report err) ∉ (teardownLoop d vars polls).trace) →
      c ∈ (teardownLoop d vars polls).vars.runningNodes.keys := by
  refine teardownLoop_cases d
    (fun vars _ r => c ∈ vars.runningNodes.keys →
      (∀ err, GraphEvent.teardown c (.report err) ∉ r.trace) → c ∈ r.vars.runningNodes.keys)
    ?_ ?_ ?_ ?_ vars polls
  · intro _ _ _ hc _
    exact hc
  · intro _ _ _ _ _ hc _
    exact hc
  · intro vars _ _ k err _ _ ih hc h
    have hne : c ≠ k := by
      rintro rfl
      exact h err (by simp [PhaseEnd.after])
    exact ih ((GoMap.mem_keys_remove _ _ _).2 ⟨hc, hne⟩)
      (fun err1 hm => h err1 (by simp [PhaseEnd.after, hm]))
  · intro _ _ _ _ _ _ ih hc h
    exact ih hc (fun err1 hm => h err1 (by simp [PhaseEnd.after, hm]))

end TeardownRuns

/-! ## The message of `Graph.loop` -/

theorem addNodeErr_eq (init : String) (p : String × error) :
    addNodeErr init p = init ++ addNodeErr "" p := by
  rcases p with ⟨c, _ | e⟩
  · simp [addNodeErr]
  · simp [addNodeErr]

theorem foldl_addNodeErr (l : GoMap error) (init : String) :
    l.foldl addNodeErr init = init ++ l.foldl addNodeErr "" := by
  induction l generalizing init with
  | nil => simp
  | cons p l ih =>
    rw [List.foldl_cons, List.foldl_cons, ih (addNodeErr init p), ih (addNodeErr "" p),
      addNodeErr_eq init p, String.append_assoc]

theorem foldl_addNodeErr_mem (l : GoMap error) (c : String) (e : GoError)
    (h : (c, some e) ∈ l) :
    ∃ pre post, l.foldl addNodeErr "" = pre ++ nodeSegment c e ++ post := by
  induction l with
  | nil => simp at h
  | cons p l ih =>
    rw [List.foldl_cons, foldl_addNodeErr]
    rcases List.mem_cons.1 h with rfl | h
    · exact ⟨"", l.foldl addNodeErr "", by simp [addNodeErr, nodeSegment]⟩
    · obtain ⟨pre, post, hl⟩ := ih h
      exact ⟨addNodeErr "" p ++ pre, post, by rw [hl]; simp [String.append_assoc]⟩

theorem foldl_addNodeErr_none (l : GoMap error) (h : ∀ p ∈ l, p.2 = none) :
    l.foldl addNodeErr "" = "" := by
  induction l with
  | nil => rfl
  | cons p l ih =>
    have hp : addNodeErr "" p = "" := by simp [addNodeErr, h p (by simp)]
    rw [List.foldl_cons, hp]
    exact ih (fun q hq => h q (by simp [hq]))

theorem closingBracket_length : "]".length = 1 := by decide

theorem nodeSegment_ne_empty (pre post c : String) (e : GoError) :
    pre ++ nodeSegment c e ++ post ≠ "" := by
  intro h
  have h1 := congrArg String.length h
  simp [nodeSegment, String.length_append, closingBracket_length] at h1

theorem GoMap.mem_of_entry {V : Type} (m : GoMap V) (k : String) (v : V)
    (h : m.entry k = some v) : (k, v) ∈ m := by
  induction m with
  | nil => simp [GoMap.entry] at h
  | cons p m ih =>
    rcases p with ⟨a, b⟩
    by_cases hk : k = a
    · subst hk
      simp [GoMap.entry, List.lookup_cons] at h
      simp [h]
    · have hk1 : (k == a) = false := by simpa using hk
      simp only [GoMap.entry, List.lookup_cons, hk1] at h
      exact List.mem_cons_of_mem _ (ih h)

theorem errMsg_eq (mainLoopErr teardownErr : error) (nodeErrs : GoMap error) :
    errMsg mainLoopErr teardownErr nodeErrs
      = (match mainLoopErr with
          | some e => "[MainLoop: " ++ e.Error ++ "]"
          | none => "") ++
        (match teardownErr with
          | some e => "[TearDown: " ++ e.Error ++ "]"
          | none => "") ++ nodeErrs.foldl addNodeErr "" := by
  unfold errMsg
  rw [foldl_addNodeErr]

theorem errMsg_eq_empty_iff (mainLoopErr teardownErr : error) (nodeErrs : GoMap error) :
    errMsg mainLoopErr teardownErr nodeErrs = "" ↔
      mainLoopErr = none ∧ teardownErr = none ∧ ∀ p ∈ nodeErrs, p.2 = none := by
  constructor
  · intro h
    have h1 := congrArg String.length h
    rw [errMsg_eq] at h1
    refine ⟨?_, ?_, ?_⟩
    · cases mainLoopErr with
      | none => rfl
      | some e => simp [String.length_append, closingBracket_length] at h1
    · cases teardownErr with
      | none => rfl
      | some e => simp [String.length_append, closingBracket_length] at h1
    · rintro ⟨c, v⟩ hp
      cases v with
      | none => rfl
      | some e =>
        exfalso
        obtain ⟨pre, post, hl⟩ := foldl_addNodeErr_mem nodeErrs c e hp
        rw [errMsg_eq, hl, ← String.append_assoc, ← String.append_assoc] at h
        exact nodeSegment_ne_empty _ _ _ _ h
  · rintro ⟨rfl, rfl, h⟩
    rw [errMsg_eq, foldl_addNodeErr_none nodeErrs h]
    rfl

theorem graphErr_eq_none_iff {N : Type} (g : Graph N) (msg : String) :
    graphErr g msg = none ↔ msg = "" := by
  by_cases h : msg = "" <;> simp [graphErr, h]

theorem graphErr_of_ne {N : Type} (g : Graph N) (msg : String) (h : msg ≠ "") :
    graphErr g msg = some (.New ("Graph " ++ g.name ++ " failed: " ++ msg)) := by
  simp [graphErr, h]

/-! ## Runs of `Graph.loop` -/

section GraphRuns

variable {N : Type}

/-- The monitoring phase does nothing but poll children; when it ends, either
the parent context was found done and nothing changed, or one report was
received, which is the last action of the phase. -/
theorem mainLoop_ended (vars : LoopVars N) (polls : List MonitorPoll) :
    (∀ ev ∈ (mainLoop vars polls).trace, ∃ c k, ev = .monitor c k) ∧
    ((mainLoop vars polls).returned = true →
      ((mainLoop vars polls).err = none ∧ (mainLoop vars polls).vars = vars ∧
        ∀ c err, GraphEvent.monitor c (.report err) ∉ (mainLoop vars polls).trace) ∨
      (∃ c err, c ∈ vars.runningNodes.keys ∧
        (mainLoop vars polls).err = some (.New "Node error") ∧
        (mainLoop vars polls).vars
          = ⟨vars.runningNodes.remove c, vars.nodeErrs.assign c err⟩ ∧
        ∃ pre, (mainLoop vars polls).trace = pre ++ [.monitor c (.report err)] ∧
          ∀ c1 err1, GraphEvent.monitor c1 (.report err1) ∉ pre)) := by
  induction polls with
  | nil => simp [mainLoop]
  | cons p polls ih =>
    cases h : vars.runningNodes.isEmpty with
    | true => simp [mainLoop, h]
    | false =>
      have hk := GoMap.rangeKey_mem vars.runningNodes p.key h
      cases hp : pick p.ctxDone p.report p.pickDone with
      | done =>
        rw [mainLoop_done vars h p polls hp]
        exact ⟨fun ev hev => ⟨_, .done, by simpa using hev⟩,
          fun _ => Or.inl ⟨rfl, rfl, fun c err => by simp⟩⟩
      | report err =>
        rw [mainLoop_report vars h p polls err hp]
        exact ⟨fun ev hev => ⟨_, .report err, by simpa using hev⟩,
          fun _ => Or.inr ⟨_, err, hk, rfl, rfl, [], rfl, fun c1 err1 => by simp⟩⟩
      | default =>
        rw [mainLoop_default vars h p polls hp]
        obtain ⟨ih1, ih2⟩ := ih
        refine ⟨fun ev hev => ?_, fun hr => ?_⟩
        · simp only [PhaseEnd.after, List.singleton_append, List.mem_cons] at hev
          rcases hev with rfl | hev
          · exact ⟨_, .default, rfl⟩
          · exact ih1 ev hev
        · rcases ih2 hr with ⟨he, hv, ht⟩ | ⟨c, err, hc, he, hv, pre, ht, hpre⟩
          · exact Or.inl ⟨he, hv, fun c err => by simpa [PhaseEnd.after] using ht c err⟩
          · refine Or.inr ⟨c, err, hc, he, hv,
              .monitor (vars.runningNodes.rangeKey p.key) .default :: pre, ?_, fun c1 err1 => ?_⟩
            · simp [PhaseEnd.after, ht]
            · simpa using hpre c1 err1

theorem Graph.teardown_eq (g : Graph N) (vars : LoopVars N) (polls : List TeardownPoll) :
    g.teardown vars polls
      = (teardownLoop (g.teardownTimeoutForNNodes vars.runningNodes.length) vars polls).after
          (if vars.runningNodes.isEmpty then []
            else [.newTimer (g.teardownTimeoutForNNodes vars.runningNodes.length),
              .cancelNodeCtx]) := by
  cases h : vars.runningNodes.isEmpty with
  | true => simp [Graph.teardown, h, teardownLoop_empty _ _ h, PhaseEnd.after]
  | false => simp [Graph.teardown, h]

/-- What a run of `Graph.loop` that reaches `g.sendErr(err)` has done. -/
theorem Graph.loop_report (g : Graph N) (monitor : List MonitorPoll)
    (teardown : List TeardownPoll) (errReads : Nat) (r : Report N)
    (h : (g.loop monitor teardown errReads).report = some r) :
    (g.monitoring monitor).returned = true ∧
    r.mainLoopErr = (g.monitoring monitor).err ∧
    r.teardownErr = (g.tearingDown monitor teardown).err ∧
    r.nodeErrs = (g.tearingDown monitor teardown).vars.nodeErrs ∧
    r.runningNodes = (g.tearingDown monitor teardown).vars.runningNodes ∧
    r.err = graphErr g (errMsg r.mainLoopErr r.teardownErr r.nodeErrs) ∧
    (g.loop monitor teardown errReads).returned = decide (0 < errReads) ∧
    (∀ c k, GraphEvent.monitor c k ∈ (g.loop monitor teardown errReads).trace ↔
      GraphEvent.monitor c k ∈ (g.monitoring monitor).trace) ∧
    (∀ c k, GraphEvent.teardown c k ∈ (g.loop monitor teardown errReads).trace ↔
      GraphEvent.teardown c k ∈ (g.tearingDown monitor teardown).trace) ∧
    ∃ pre, (g.loop monitor teardown errReads).trace
        = pre ++ (g.tearingDown monitor teardown).trace ++
          (if 0 < errReads then [.sendErr r.err true, .unlock] else [.sendErr r.err false]) ∧
      ∀ ev ∈ pre ++ (g.tearingDown monitor teardown).trace, ∀ v d, ev ≠ .sendErr v d := by
  have hmon := (mainLoop_ended ⟨g.started, []⟩ monitor).1
  have htd := teardownLoop_trace
    (g.teardownTimeoutForNNodes (g.monitoring monitor).vars.runningNodes.length)
    (g.monitoring monitor).vars teardown
  simp only [Graph.monitoring, Graph.tearingDown] at htd ⊢
  cases hm : (mainLoop ⟨g.started, []⟩ monitor).returned with
  | false => simp [Graph.loop, hm] at h
  | true =>
    simp only [Graph.loop, hm, ↓reduceIte, Option.some.injEq, Graph.teardown_eq] at h ⊢
    subst h
    refine ⟨trivial, rfl, rfl, rfl, rfl, rfl, trivial, fun c k => ?_, fun c k => ?_, ?_⟩
    · constructor
      · intro hmem
        simp only [PhaseEnd.after, List.cons_append, List.mem_cons, List.mem_append,
          List.mem_map, reduceCtorEq, false_or, and_false, exists_false] at hmem
        rcases hmem with (hmem | hmem | hmem) | hmem
        · exact hmem
        · split at hmem <;> simp at hmem
        · obtain ⟨_, _, he⟩ := htd _ hmem
          cases he
        · split at hmem <;> simp at hmem
      · intro hmem
        simp [hmem]
    · constructor
      · intro hmem
        simp only [PhaseEnd.after, List.cons_append, List.mem_cons, List.mem_append,
          List.mem_map, reduceCtorEq, false_or, and_false, exists_false] at hmem
        rcases hmem with (hmem | hmem | hmem) | hmem
        · obtain ⟨_, _, he⟩ := hmon _ hmem
          cases he
        · split at hmem <;> simp at hmem
        · exact hmem
        · split at hmem <;> simp at hmem
      · intro hmem
        simp [PhaseEnd.after, hmem]
    · refine ⟨.lock :: g.nodes.map (fun p => .run p.1) ++ (mainLoop ⟨g.started, []⟩ monitor).trace
        ++ (if (mainLoop ⟨g.started, []⟩ monitor).vars.runningNodes.isEmpty then []
            else [.newTimer (g.teardownTimeoutForNNodes
              (mainLoop ⟨g.started, []⟩ monitor).vars.runningNodes.length), .cancelNodeCtx]),
        by simp [PhaseEnd.after], ?_⟩
      intro ev hev v d he
      subst he
      simp only [List.cons_append, List.mem_cons, List.mem_append,
        List.mem_map, reduceCtorEq, false_or, and_false, exists_false] at hev
      rcases hev with (hev | hev) | hev
      · obtain ⟨_, _, he⟩ := hmon _ hev
        cases he
      · split at hev <;> simp at hev
      · obtain ⟨_, _, he⟩ := htd _ hev
        cases he

/-- A run of `Graph.loop` gets to `g.sendErr(err)` exactly when its monitoring ends. -/
theorem Graph.loop_report_of_returned (g : Graph N) (monitor : List MonitorPoll)
    (teardown : List TeardownPoll) (errReads : Nat)
    (h : (g.monitoring monitor).returned = true) :
    ∃ r, (g.loop monitor teardown errReads).report = some r := by
  simp only [Graph.monitoring] at h
  simp [Graph.loop, h]

theorem Graph.loop_of_not_returned (g : Graph N) (monitor : List MonitorPoll)
    (teardown : List TeardownPoll) (errReads : Nat)
    (h : (g.monitoring monitor).returned = false) :
    g.loop monitor teardown errReads
      = ⟨.lock :: g.nodes.map (fun p => .run p.1) ++ (g.monitoring monitor).trace, false, none⟩ := by
  simp only [Graph.monitoring] at h ⊢
  simp [Graph.loop, h]

end GraphRuns

/-! ## Claims on `Graph.loop` -/

/-- A run whose teardown timed out hands `sendErr` an error that has the segment
of the teardown phase in its message. -/
theorem Graph.timedOut_message {N : Type} (g : Graph N) (mainLoopErr : error)
    (nodeErrs : GoMap error) :
    ∃ a b, graphErr g (errMsg mainLoopErr (some .TeardownTimedOut) nodeErrs)
      = some (.New ("Graph " ++ g.name ++ " failed: " ++ a ++
          "[TearDown: teardown timed out]" ++ b)) := by
  have hseg : "[TearDown: " ++ GoError.TeardownTimedOut.Error ++ "]"
      = "[TearDown: teardown timed out]" := by decide
  have hne : errMsg mainLoopErr (some .TeardownTimedOut) nodeErrs ≠ "" := by
    intro h
    have := ((errMsg_eq_empty_iff _ _ _).1 h).2.1
    cases this
  rw [graphErr_of_ne g _ hne, errMsg_eq]
  cases mainLoopErr with
  | none => exact ⟨"", nodeErrs.foldl addNodeErr "", by simp only [hseg, String.append_assoc]⟩
  | some e =>
    exact ⟨"[MainLoop: " ++ e.Error ++ "]", nodeErrs.foldl addNodeErr "",
      by simp only [hseg, String.append_assoc]⟩

/-- C14. For a graph with a child: when a poll of the monitoring phase finds
the parent context done before any report is received, and in the teardown
phase the timer does not fire and every report received is nil or
`context.Canceled`, then every child has reported, `mainLoopErr` and
`teardownErr` are nil, `nodeErrs` is empty, and the value handed to `sendErr`,
the last thing the graph does but unlocking, is nil. -/
theorem cancellation_then_clean_stops_is_nil {N : Type} (g : Graph N)
    (quiet rest : List MonitorPoll) (p : MonitorPoll) (teardown : List TeardownPoll)
    (errReads : Nat) (hg : g.nodes ≠ [])
    (hquiet : ∀ q ∈ quiet, pick q.ctxDone q.report q.pickDone = .default)
    (hp : pick p.ctxDone p.report p.pickDone = .done)
    (hclean : ∀ c err, GraphEvent.teardown c (.report err) ∈
        (g.loop (quiet ++ p :: rest) teardown errReads).trace →
      err = none ∨ ∃ e, err = some e ∧ e.Is .Canceled = true)
    (hintime : ∀ c, GraphEvent.teardown c .done ∉
      (g.loop (quiet ++ p :: rest) teardown errReads).trace) :
    ∃ r, (g.loop (quiet ++ p :: rest) teardown errReads).report = some r ∧
      r.mainLoopErr = none ∧ r.teardownErr = none ∧ r.nodeErrs = [] ∧ r.runningNodes = [] ∧
      r.err = none ∧
      (∀ c ∈ g.started.keys, ∃ err, GraphEvent.teardown c (.report err) ∈
        (g.loop (quiet ++ p :: rest) teardown errReads).trace) ∧
      ∃ pre, (g.loop (quiet ++ p :: rest) teardown errReads).trace
        = pre ++ (if 0 < errReads then [.sendErr none true, .unlock] else [.sendErr none false]) := by
  have hne := Graph.started_nonempty g hg
  have hm : g.monitoring (quiet ++ p :: rest)
      = ⟨none, ⟨g.started, []⟩,
          quiet.map (fun q => .monitor (g.started.rangeKey q.key) .default) ++
            [.monitor (g.started.rangeKey p.key) .done], true⟩ := by
    rw [Graph.monitoring, mainLoop_quiet ⟨g.started, []⟩ hne quiet _ hquiet,
      mainLoop_done ⟨g.started, []⟩ hne p rest hp]
    rfl
  obtain ⟨r, hr⟩ := Graph.loop_report_of_returned g (quiet ++ p :: rest) teardown errReads
    (by rw [hm])
  obtain ⟨-, h1, h2, h3, h4, h5, -, -, htd, pre, htrace, -⟩ :=
    Graph.loop_report g _ teardown errReads r hr
  have hclean1 := fun c err hmem => hclean c err ((htd c (.report err)).2 hmem)
  have hintime1 := fun c hmem => hintime c ((htd c .done).2 hmem)
  have hrun : (g.monitoring (quiet ++ p :: rest)).vars = ⟨g.started, []⟩ := by rw [hm]
  simp only [Graph.tearingDown, hrun] at h2 h3 h4 htd hclean1 hintime1 htrace
  have hn := teardownLoop_clean _ _ _ hclean1
  rw [← h3] at hn
  rw [hm] at h1
  rcases (teardownLoop_ended (g.teardownTimeoutForNNodes g.started.length) ⟨g.started, []⟩
    teardown).2 with ⟨he, hrn, -⟩ | ⟨-, pre1, c, -, ht, -⟩
  · have herr : r.err = none := by
      rw [h5, graphErr_eq_none_iff, errMsg_eq_empty_iff, h1, h2, he, hn]
      exact ⟨rfl, rfl, fun _ hq => by simp at hq⟩
    refine ⟨r, hr, h1, h2.trans he, hn, h4.trans hrn, herr, fun c hc => ?_, ?_⟩
    · by_contra hno
      have hno1 : ∀ err, GraphEvent.teardown c (.report err) ∉ (teardownLoop
          (g.teardownTimeoutForNNodes g.started.length) ⟨g.started, []⟩ teardown).trace :=
        fun err hmem => hno ⟨err, (htd c (.report err)).2 hmem⟩
      have := teardownLoop_unreported _ c ⟨g.started, []⟩ teardown hc hno1
      rw [hrn] at this
      simp [GoMap.keys] at this
    · rw [herr] at htrace
      exact ⟨_, htrace⟩
  · exact absurd (by rw [ht]; simp) (hintime1 c)

/-- The run used to illustrate C14: both children of the graph answer the
cancellation with `context.Canceled` and with nil. -/
theorem twoNodeGraph_cancelled_trace :
    (twoNodeGraph.loop ([] ++ ⟨0, true, none, false⟩ :: [])
      [⟨0, 0, some (some .Canceled), false⟩, ⟨0, 5, some none, false⟩] 1).trace
      = [.lock, .run "screen", .run "camera", .monitor "camera" .done,
          .newTimer 1000000000, .cancelNodeCtx, .teardown "camera" (.report (some .Canceled)),
          .teardown "screen" (.report none), .sendErr none true, .unlock] := by
  decide

/-- Witness for C14: the parent context is done at the first poll of a graph of
two children, which answer with `context.Canceled` and with nil. -/
theorem cancellation_then_clean_stops_is_nil_witness :
    ∃ r, (twoNodeGraph.loop ([] ++ ⟨0, true, none, false⟩ :: [])
        [⟨0, 0, some (some .Canceled), false⟩, ⟨0, 5, some none, false⟩] 1).report = some r ∧
      r.mainLoopErr = none ∧ r.teardownErr = none ∧ r.nodeErrs = [] ∧ r.runningNodes = [] ∧
      r.err = none := by
  obtain ⟨r, h1, h2, h3, h4, h5, h6, -⟩ :=
    cancellation_then_clean_stops_is_nil twoNodeGraph [] [] ⟨0, true, none, false⟩
      [⟨0, 0, some (some .Canceled), false⟩, ⟨0, 5, some none, false⟩] 1
      (by decide) (by decide) (by decide)
      (by
        intro c err h
        rw [twoNodeGraph_cancelled_trace] at h
        simp at h
        rcases h with ⟨-, rfl⟩ | ⟨-, rfl⟩
        · exact Or.inr ⟨_, rfl, by decide⟩
        · exact Or.inl rfl)
      (by
        intro c h
        rw [twoNodeGraph_cancelled_trace] at h
        simp at h)
  exact ⟨r, h1, h2, h3, h4, h5, h6⟩

/-- C15. Teardown phase of `Graph.loop`.  When a poll of a child `c` takes the
case of the timer, the teardown ends there with `TeardownTimedOut`, `c` still
among the running children, and the next action of the graph is to hand
`sendErr` a non-nil error with `"[TearDown: teardown timed out]"` in its
message.  And once a poll of the monitoring phase has found the parent context
done, a child that never reports does not keep the graph from getting there:
whatever the polls of the teardown find, the teardown ends with
`TeardownTimedOut` and that error is handed to `sendErr`. -/
theorem teardown_timeout_is_reported {N : Type} (g : Graph N) :
    (∀ (monitor : List MonitorPoll) (teardown : List TeardownPoll) (errReads : Nat) (c : String),
      GraphEvent.teardown c .done ∈ (g.loop monitor teardown errReads).trace →
      ∃ r pre, (g.loop monitor teardown errReads).report = some r ∧
        r.teardownErr = some .TeardownTimedOut ∧ c ∈ r.runningNodes.keys ∧
        (g.loop monitor teardown errReads).trace
          = pre ++ [.teardown c .done] ++
            (if 0 < errReads then [.sendErr r.err true, .unlock] else [.sendErr r.err false]) ∧
        ∃ a b, r.err = some (.New ("Graph " ++ g.name ++ " failed: " ++ a ++
          "[TearDown: teardown timed out]" ++ b))) ∧
    (∀ (quiet rest : List MonitorPoll) (p : MonitorPoll) (teardown : List TeardownPoll)
        (errReads : Nat) (c : String),
      (∀ q ∈ quiet, pick q.ctxDone q.report q.pickDone = .default) →
      pick p.ctxDone p.report p.pickDone = .done →
      c ∈ g.started.keys →
      (∀ err, GraphEvent.teardown c (.report err) ∉
        (g.loop (quiet ++ p :: rest) teardown errReads).trace) →
      ∃ r, (g.loop (quiet ++ p :: rest) teardown errReads).report = some r ∧
        r.teardownErr = some .TeardownTimedOut ∧ c ∈ r.runningNodes.keys ∧
        (∃ v, GraphEvent.sendErr r.err v ∈ (g.loop (quiet ++ p :: rest) teardown errReads).trace) ∧
        (g.loop (quiet ++ p :: rest) teardown errReads).returned = decide (0 < errReads) ∧
        ∃ a b, r.err = some (.New ("Graph " ++ g.name ++ " failed: " ++ a ++
          "[TearDown: teardown timed out]" ++ b))) := by
  constructor
  · intro monitor teardown errReads c h
    cases hm : (g.monitoring monitor).returned with
    | false =>
      rw [Graph.loop_of_not_returned g monitor teardown errReads hm] at h
      simp only [Graph.monitoring, List.cons_append, List.mem_cons, List.mem_append,
        List.mem_map, reduceCtorEq, false_or, and_false, exists_false] at h
      obtain ⟨_, _, he⟩ := (mainLoop_ended ⟨g.started, []⟩ monitor).1 _ h
      cases he
    | true =>
      obtain ⟨r, hr⟩ := Graph.loop_report_of_returned g monitor teardown errReads hm
      obtain ⟨-, h1, h2, h3, h4, h5, -, -, htd, pre, htrace, -⟩ :=
        Graph.loop_report g _ teardown errReads r hr
      have hc := (htd c .done).1 h
      rcases (teardownLoop_ended
        (g.teardownTimeoutForNNodes (g.monitoring monitor).vars.runningNodes.length)
        (g.monitoring monitor).vars teardown).2 with ⟨-, -, hno⟩ | ⟨he, pre1, c1, hc1, ht, hpre⟩
      · exact absurd hc (hno c)
      · have hcc : c = c1 := by
          simp only [Graph.tearingDown] at hc
          rw [ht] at hc
          simp only [List.mem_append, List.mem_singleton, GraphEvent.teardown.injEq,
            and_true] at hc
          rcases hc with hc | hc
          · exact absurd hc (hpre c)
          · exact hc
        subst hcc
        have hte : r.teardownErr = some .TeardownTimedOut := h2.trans he
        refine ⟨r, pre ++ pre1, hr, hte, ?_, ?_, ?_⟩
        · rw [h4]; exact hc1
        · rw [htrace]
          simp only [Graph.tearingDown]
          rw [ht]
          simp
        · rw [h5, hte]
          exact Graph.timedOut_message g _ _
  · intro quiet rest p teardown errReads c hquiet hp hc hno
    have hne : g.started.isEmpty = false := by
      cases hs : g.started with
      | nil => rw [hs] at hc; simp [GoMap.keys] at hc
      | cons _ _ => rfl
    have hm : g.monitoring (quiet ++ p :: rest)
        = ⟨none, ⟨g.started, []⟩,
            quiet.map (fun q => .monitor (g.started.rangeKey q.key) .default) ++
              [.monitor (g.started.rangeKey p.key) .done], true⟩ := by
      rw [Graph.monitoring, mainLoop_quiet ⟨g.started, []⟩ hne quiet _ hquiet,
        mainLoop_done ⟨g.started, []⟩ hne p rest hp]
      rfl
    obtain ⟨r, hr⟩ := Graph.loop_report_of_returned g (quiet ++ p :: rest) teardown errReads
      (by rw [hm])
    obtain ⟨-, h1, h2, h3, h4, h5, hret, -, htd, pre, htrace, -⟩ :=
      Graph.loop_report g _ teardown errReads r hr
    have hno1 := fun err hmem => hno err ((htd c (.report err)).2 hmem)
    have hrun : (g.monitoring (quiet ++ p :: rest)).vars = ⟨g.started, []⟩ := by rw [hm]
    simp only [Graph.tearingDown, hrun] at h2 h4 hno1
    have hleft := teardownLoop_unreported _ c ⟨g.started, []⟩ teardown hc hno1
    have hte : r.teardownErr = some .TeardownTimedOut := by
      rcases (teardownLoop_ended (g.teardownTimeoutForNNodes g.started.length) ⟨g.started, []⟩
        teardown).2 with ⟨-, hrn, -⟩ | ⟨he, -⟩
      · rw [hrn] at hleft
        simp [GoMap.keys] at hleft
      · exact h2.trans he
    refine ⟨r, hr, hte, by rw [h4]; exact hleft, ⟨decide (0 < errReads), ?_⟩, hret, ?_⟩
    · rw [htrace]
      by_cases h0 : 0 < errReads <;> simp [h0]
    · rw [h5, hte]
      exact Graph.timedOut_message g _ _

/-- The run used to illustrate C15: of the two children of the graph, `"screen"`
never reports. -/
theorem twoNodeGraph_blocked_trace :
    (twoNodeGraph.loop ([] ++ ⟨0, true, none, false⟩ :: [])
      [⟨0, 0, some (some .Canceled), false⟩] 1).trace
      = [.lock, .run "screen", .run "camera", .monitor "camera" .done,
          .newTimer 1000000000, .cancelNodeCtx, .teardown "camera" (.report (some .Canceled)),
          .teardown "screen" .done,
          .sendErr (some (.New "Graph fx failed: [TearDown: teardown timed out]")) true,
          .unlock] := by
  decide

/-- Witness for C15: in a graph of two children whose child `"screen"` never
reports, the cancellation of the parent context is followed by the report of
the graph, the teardown having timed out. -/
theorem teardown_timeout_is_reported_witness :
    ∃ r, (twoNodeGraph.loop ([] ++ ⟨0, true, none, false⟩ :: [])
        [⟨0, 0, some (some .Canceled), false⟩] 1).report = some r ∧
      r.teardownErr = some .TeardownTimedOut ∧ "screen" ∈ r.runningNodes.keys ∧
      (twoNodeGraph.loop ([] ++ ⟨0, true, none, false⟩ :: [])
        [⟨0, 0, some (some .Canceled), false⟩] 1).returned = true := by
  obtain ⟨r, h1, h2, h3, -, h5, -⟩ :=
    (teardown_timeout_is_reported twoNodeGraph).2 [] [] ⟨0, true, none, false⟩
      [⟨0, 0, some (some .Canceled), false⟩] 1 "screen" (by decide) (by decide) (by decide)
      (by
        intro err h
        rw [twoNodeGraph_blocked_trace] at h
        simp at h)
  exact ⟨r, h1, h2, h3, h5⟩

/-- C19. A run of `Graph.loop` that returns has handed one value to `sendErr`,
which was taken from the error channel: it is the last action of the run but
the unlocking of the mutex, the monitoring phase and the teardown phase have
both ended, and every poll of the two phases comes before it. -/
theorem terminating_run_writes_once {N : Type} (g : Graph N) (monitor : List MonitorPoll)
    (teardown : List TeardownPoll) (errReads : Nat)
    (h : (g.loop monitor teardown errReads).returned = true) :
    ∃ r pre, (g.loop monitor teardown errReads).report = some r ∧
      (g.loop monitor teardown errReads).trace = pre ++ [.sendErr r.err true, .unlock] ∧
      (∀ ev ∈ pre, ∀ v d, ev ≠ .sendErr v d) ∧
      (g.monitoring monitor).returned = true ∧
      (g.tearingDown monitor teardown).returned = true ∧
      (∀ c k, GraphEvent.monitor c k ∈ (g.loop monitor teardown errReads).trace →
        GraphEvent.monitor c k ∈ pre) ∧
      (∀ c k, GraphEvent.teardown c k ∈ (g.loop monitor teardown errReads).trace →
        GraphEvent.teardown c k ∈ pre) := by
  cases hm : (g.monitoring monitor).returned with
  | false =>
    rw [Graph.loop_of_not_returned g monitor teardown errReads hm] at h
    cases h
  | true =>
    obtain ⟨r, hr⟩ := Graph.loop_report_of_returned g monitor teardown errReads hm
    obtain ⟨-, -, -, -, -, -, hret, -, -, pre, htrace, hpre⟩ :=
      Graph.loop_report g _ teardown errReads r hr
    have h0 : 0 < errReads := by
      rw [h] at hret
      exact of_decide_eq_true hret.symm
    simp only [h0, ↓reduceIte] at htrace
    refine ⟨r, pre ++ (g.tearingDown monitor teardown).trace, hr, htrace, hpre, rfl,
      (teardownLoop_ended _ _ _).1, fun c k hmem => ?_, fun c k hmem => ?_⟩
    · rw [htrace] at hmem
      simpa using hmem
    · rw [htrace] at hmem
      simpa using hmem

/-- Witness for C19: the run of the graph of two children whose child `"screen"`
never reports returns once its value is taken. -/
theorem terminating_run_writes_once_witness :
    ∃ r pre, (twoNodeGraph.loop [⟨0, true, none, false⟩]
        [⟨0, 0, some (some .Canceled), false⟩] 1).report = some r ∧
      (twoNodeGraph.loop [⟨0, true, none, false⟩]
        [⟨0, 0, some (some .Canceled), false⟩] 1).trace = pre ++ [.sendErr r.err true, .unlock] ∧
      ∀ ev ∈ pre, ∀ v d, ev ≠ .sendErr v d := by
  obtain ⟨r, pre, h1, h2, h3, -⟩ :=
    terminating_run_writes_once twoNodeGraph [⟨0, true, none, false⟩]
      [⟨0, 0, some (some .Canceled), false⟩] 1 (by decide)
  exact ⟨r, pre, h1, h2, h3⟩

/-! ## The teardown timeout -/

/-- The constants of the logarithm are the `float64` values the Go sources give
in hexadecimal, and the model keeps the rounding of `float64`: the logarithm
of `10 ^ 15` comes out just below 15, and `10 ^ 16 - 1` is converted to
`10 ^ 16`. -/
theorem truncLog10_rounding :
    Ln2Hi = ⟨0x162e42fee00000, -53⟩ ∧ Ln2Lo = ⟨0x1a39ef35793c76, -85⟩ ∧
    L1 = ⟨0x15555555555593, -53⟩ ∧ L7 = ⟨0x12f112df3e5244, -55⟩ ∧
    Log10E = ⟨0x1bcb7b1526e50e, -54⟩ ∧
    truncLog10 1000 = 3 ∧ truncLog10 (10 ^ 15) = 14 ∧ truncLog10 (10 ^ 16 - 1) = 16 ∧
    truncLog10 (2 ^ 63 - 1) = 18 := by
  decide

theorem truncLog10_digit (n : Int) (h1 : 1 ≤ n) (h10 : n < 10) : truncLog10 n = 0 := by
  interval_cases n <;> decide

/-- C16. What `teardownTimeoutForNNodes` returns: the minimum for `n ≤ 0`; for
`n ≥ 1` the minimum plus the decimal logarithm of `n` counted in nanoseconds,
the unit of `time.Duration`, its fraction dropped, not in seconds.  With the
minimum of one second set by `NewGraph` the timeout for `n = 2`, and for every
`n` from 1 to 9, is one second, not one second and `log10(2)` of a second, and
the timeout for `n = 10` is one second and one nanosecond, not two seconds. -/
theorem teardown_timeout_adds_nanoseconds {N : Type} (g : Graph N) (name : String) :
    (∀ n : Int, n ≤ 0 → g.teardownTimeoutForNNodes n = g.minTeardownTimeout) ∧
    (∀ n : Int, 1 ≤ n → n < 10 → g.teardownTimeoutForNNodes n = g.minTeardownTimeout) ∧
    g.teardownTimeoutForNNodes 10 = g.minTeardownTimeout + 1 ∧
    (NewGraph N name).minTeardownTimeout = 1000000000 ∧
    (NewGraph N name).teardownTimeoutForNNodes 2 = 1000000000 ∧
    (NewGraph N name).teardownTimeoutForNNodes 10 = 1000000001 ∧
    (NewGraph N name).teardownTimeoutForNNodes 2 ≠ 1000000000 + 301029995 ∧
    (NewGraph N name).teardownTimeoutForNNodes 10 ≠ 2000000000 := by
  have hdigit : ∀ n : Int, 1 ≤ n → n < 10 →
      g.teardownTimeoutForNNodes n = g.minTeardownTimeout := by
    intro n h1 h10
    have h0 : ¬ n ≤ 0 := by omega
    simp only [Graph.teardownTimeoutForNNodes, h0, ↓reduceIte, truncLog10_digit n h1 h10]
    exact add_zero _
  have hten : truncLog10 10 = 1 := by decide
  have h2 : (NewGraph N name).teardownTimeoutForNNodes 2 = 1000000000 := by
    simp only [Graph.teardownTimeoutForNNodes, truncLog10_digit 2 (by decide) (by decide)]
    rfl
  have h10 : (NewGraph N name).teardownTimeoutForNNodes 10 = 1000000001 := by
    simp only [Graph.teardownTimeoutForNNodes, hten]
    rfl
  refine ⟨fun n hn => by simp [Graph.teardownTimeoutForNNodes, hn], hdigit, ?_, rfl, h2, h10,
    by rw [h2]; decide, by rw [h10]; decide⟩
  simp only [Graph.teardownTimeoutForNNodes, hten]
  rfl

/-! ## The value of the graph -/

/-- C17, amended. In a run of `Graph.loop` that gets to `g.sendErr(err)`, the
value is nil exactly when no report was received in the monitoring phase (the
phase was ended by the parent context), the timer of the teardown did not
fire, and every report received in the teardown phase is nil or
`context.Canceled`.  A run whose monitoring phase received a report, nil
included, hands over a non-nil error whose message starts with
`"Graph <name> failed: [MainLoop: Node error]"`. -/
theorem graph_value_nil_iff {N : Type} (g : Graph N) (monitor : List MonitorPoll)
    (teardown : List TeardownPoll) (errReads : Nat) (r : Report N)
    (h : (g.loop monitor teardown errReads).report = some r) :
    (r.err = none ↔
      (∀ c err, GraphEvent.monitor c (.report err) ∉ (g.loop monitor teardown errReads).trace) ∧
      (∀ c, GraphEvent.teardown c .done ∉ (g.loop monitor teardown errReads).trace) ∧
      (∀ c err, GraphEvent.teardown c (.report err) ∈ (g.loop monitor teardown errReads).trace →
        err = none ∨ ∃ e, err = some e ∧ e.Is .Canceled = true)) ∧
    ((∃ c err, GraphEvent.monitor c (.report err) ∈ (g.loop monitor teardown errReads).trace) →
      ∃ post, r.err = some (.New ("Graph " ++ g.name ++ " failed: " ++
        "[MainLoop: Node error]" ++ post))) := by
  obtain ⟨hm, h1, h2, h3, h4, h5, -, hmon, htd, -⟩ :=
    Graph.loop_report g _ teardown errReads r h
  have hml := (mainLoop_ended ⟨g.started, []⟩ monitor).2 hm
  have htl := (teardownLoop_ended
    (g.teardownTimeoutForNNodes (g.monitoring monitor).vars.runningNodes.length)
    (g.monitoring monitor).vars teardown).2
  simp only [Graph.tearingDown] at h2 h3 htd
  simp only [Graph.monitoring] at h1 hmon hm h2 h3 htd htl
  refine ⟨⟨fun hnil => ?_, fun hclean => ?_⟩, fun hrep => ?_⟩
  · rw [h5, graphErr_eq_none_iff, errMsg_eq_empty_iff] at hnil
    obtain ⟨hn1, hn2, hn3⟩ := hnil
    refine ⟨fun c err hmem => ?_, fun c hmem => ?_, fun c err hmem => ?_⟩
    · rcases hml with ⟨-, -, hno⟩ | ⟨_, _, -, he, -⟩
      · exact hno c err ((hmon c _).1 hmem)
      · rw [← h1, hn1] at he
        cases he
    · rcases htl with ⟨-, -, hno⟩ | ⟨he, -⟩
      · exact hno c ((htd c _).1 hmem)
      · rw [← h2, hn2] at he
        cases he
    · cases err with
      | none => exact Or.inl rfl
      | some e =>
        cases hc : e.Is .Canceled with
        | true => exact Or.inr ⟨e, rfl, hc⟩
        | false =>
          have hentry := teardownLoop_records _ c e hc _ teardown ((htd c _).1 hmem)
          rw [← h3] at hentry
          have := hn3 _ (GoMap.mem_of_entry _ _ _ hentry)
          cases this
  · obtain ⟨hc1, hc2, hc3⟩ := hclean
    rw [h5, graphErr_eq_none_iff, errMsg_eq_empty_iff]
    rcases hml with ⟨he, hv, -⟩ | ⟨c, err, -, -, -, pre, ht, -⟩
    · rcases htl with ⟨hte, -, -⟩ | ⟨-, pre1, c1, -, ht, -⟩
      · have hn := teardownLoop_clean _ _ teardown
          (fun c err hmem => hc3 c err ((htd c _).2 hmem))
        rw [← h3, hv] at hn
        exact ⟨h1.trans he, h2.trans hte, fun _ hq => by rw [hn] at hq; simp at hq⟩
      · exact absurd ((htd c1 _).2 (by rw [ht]; simp)) (hc2 c1)
    · exact absurd ((hmon c _).2 (by rw [ht]; simp)) (hc1 c err)
  · obtain ⟨c, err, hmem⟩ := hrep
    have he : r.mainLoopErr = some (.New "Node error") := by
      rcases hml with ⟨-, -, hno⟩ | ⟨_, _, -, he, -⟩
      · exact absurd ((hmon c _).1 hmem) (hno c err)
      · exact h1.trans he
    have hseg : "[MainLoop: " ++ (GoError.New "Node error").Error ++ "]"
        = "[MainLoop: Node error]" := by decide
    have hne : errMsg r.mainLoopErr r.teardownErr r.nodeErrs ≠ "" := by
      intro h0
      have := ((errMsg_eq_empty_iff _ _ _).1 h0).1
      rw [he] at this
      cases this
    rw [h5, graphErr_of_ne g _ hne, errMsg_eq, he]
    exact ⟨(match r.teardownErr with
        | some e => "[TearDown: " ++ e.Error ++ "]"
        | none => "") ++ r.nodeErrs.foldl addNodeErr "",
      by simp only [hseg, String.append_assoc]⟩

/-- Witness for C17: a child of the graph of two children reports nil in the
monitoring phase, and the value of the graph is an error on the main loop. -/
theorem graph_value_nil_iff_witness :
    ∃ r, (twoNodeGraph.loop [⟨0, false, some none, false⟩]
        [⟨0, 0, some (some .Canceled), false⟩] 1).report = some r ∧
      ∃ post, r.err = some (.New ("Graph " ++ twoNodeGraph.name ++ " failed: " ++
        "[MainLoop: Node error]" ++ post)) := by
  obtain ⟨r, hr⟩ := Graph.loop_report_of_returned twoNodeGraph [⟨0, false, some none, false⟩]
    [⟨0, 0, some (some .Canceled), false⟩] 1 (by decide)
  exact ⟨r, hr, (graph_value_nil_iff twoNodeGraph [⟨0, false, some none, false⟩]
    [⟨0, 0, some (some .Canceled), false⟩] 1 r hr).2 ⟨"camera", none, by decide⟩⟩

/-- Counterexample to C17 as stated: the child `"camera"` reports nil in the
monitoring phase, the child `"screen"` then stops with `context.Canceled`
before the timer fires; no child has reported a failure and the teardown has
not timed out, yet the value handed to `sendErr` is not nil. -/
theorem clean_stop_is_reported_as_failure :
    (twoNodeGraph.loop [⟨0, false, some none, false⟩]
      [⟨0, 0, some (some .Canceled), false⟩] 1).trace
      = [.lock, .run "screen", .run "camera", .monitor "camera" (.report none),
          .newTimer 1000000000, .cancelNodeCtx, .teardown "screen" (.report (some .Canceled)),
          .sendErr (some (.New "Graph fx failed: [MainLoop: Node error]")) true, .unlock] := by
  decide

/-- C18, amended. In a run of `Graph.loop` that gets to `g.sendErr(err)`, a
non-nil error `e` received from a child `c` in the monitoring phase, or in the
teardown phase with `errors.Is(e, context.Canceled)` false, is in the value of
the graph: a non-nil error whose message starts with `"Graph <name> failed: "`
and contains `"[Node <c>: <e>]"`.  This holds of every such child. -/
theorem failure_is_named_in_aggregate {N : Type} (g : Graph N) (monitor : List MonitorPoll)
    (teardown : List TeardownPoll) (errReads : Nat) (r : Report N) (c : String) (e : GoError)
    (h : (g.loop monitor teardown errReads).report = some r)
    (hc : GraphEvent.monitor c (.report (some e)) ∈ (g.loop monitor teardown errReads).trace ∨
      (GraphEvent.teardown c (.report (some e)) ∈ (g.loop monitor teardown errReads).trace ∧
        e.Is .Canceled = false)) :
    ∃ pre post, r.err = some (.New ("Graph " ++ g.name ++ " failed: " ++ pre ++
      ("[Node " ++ c ++ ": " ++ e.Error ++ "]") ++ post)) := by
  obtain ⟨hm, -, -, h3, -, h5, -, hmon, htd, -⟩ :=
    Graph.loop_report g _ teardown errReads r h
  have hml := (mainLoop_ended ⟨g.started, []⟩ monitor).2 hm
  simp only [Graph.tearingDown] at h3 htd
  simp only [Graph.monitoring] at hmon hm h3 htd
  have hentry : r.nodeErrs.entry c = some (some e) := by
    rw [h3]
    rcases hc with hc | ⟨hc, he⟩
    · rcases hml with ⟨-, -, hno⟩ | ⟨c1, err1, -, -, hv, pre, ht, hpre⟩
      · exact absurd ((hmon c _).1 hc) (hno c _)
      · have hmem := (hmon c _).1 hc
        rw [ht] at hmem
        simp only [List.mem_append, List.mem_singleton, GraphEvent.monitor.injEq,
          Picked.report.injEq] at hmem
        rcases hmem with hmem | ⟨rfl, rfl⟩
        · exact absurd hmem (hpre c _)
        · rw [hv, teardownLoop_entry_of_not_running _ c _ teardown
            (GoMap.not_mem_keys_remove _ _)]
          exact GoMap.entry_assign_self _ _ _
    · exact teardownLoop_records _ c e he _ teardown ((htd c _).1 hc)
  obtain ⟨pre, post, hl⟩ := foldl_addNodeErr_mem r.nodeErrs c e (GoMap.mem_of_entry _ _ _ hentry)
  obtain ⟨head, hhead⟩ : ∃ head, errMsg r.mainLoopErr r.teardownErr r.nodeErrs
      = head ++ r.nodeErrs.foldl addNodeErr "" := ⟨_, errMsg_eq _ _ _⟩
  have hmsg : errMsg r.mainLoopErr r.teardownErr r.nodeErrs
      = (head ++ pre) ++ nodeSegment c e ++ post := by
    rw [hhead, hl]
    simp only [String.append_assoc]
  have hne : errMsg r.mainLoopErr r.teardownErr r.nodeErrs ≠ "" := by
    rw [hmsg]
    exact nodeSegment_ne_empty _ _ _ _
  rw [h5, graphErr_of_ne g _ hne, hmsg]
  exact ⟨head ++ pre, post, by simp only [nodeSegment, String.append_assoc]⟩

/-- Witness for C18: the only child of a graph answers the cancellation with the
error `"camera unplugged"`, which the value of the graph names. -/
theorem failure_is_named_in_aggregate_witness :
    ∃ r, (oneNodeGraph.loop [⟨0, true, none, false⟩]
        [⟨0, 0, some (some (.New "camera unplugged")), false⟩] 1).report = some r ∧
      ∃ pre post, r.err = some (.New ("Graph " ++ oneNodeGraph.name ++ " failed: " ++ pre ++
        ("[Node " ++ "camera" ++ ": " ++ (GoError.New "camera unplugged").Error ++ "]") ++
        post)) := by
  obtain ⟨r, hr⟩ := Graph.loop_report_of_returned oneNodeGraph [⟨0, true, none, false⟩]
    [⟨0, 0, some (some (.New "camera unplugged")), false⟩] 1 (by decide)
  exact ⟨r, hr, failure_is_named_in_aggregate oneNodeGraph [⟨0, true, none, false⟩]
    [⟨0, 0, some (some (.New "camera unplugged")), false⟩] 1 r "camera"
    (.New "camera unplugged") hr (Or.inr ⟨by decide, by decide⟩)⟩

/-- Counterexample to C18 as stated: the only child of a graph answers the
cancellation with the non-nil error `errors.Wrap(context.Canceled, "read
frame")`, and the value handed to `sendErr` is nil. -/
theorem wrapped_cancellation_is_dropped :
    (oneNodeGraph.loop [⟨0, true, none, false⟩]
      [⟨0, 0, some (some (.Wrap .Canceled "read frame")), false⟩] 1).trace
      = [.lock, .run "camera", .monitor "camera" .done, .newTimer 1000000000, .cancelNodeCtx,
          .teardown "camera" (.report (some (.Wrap .Canceled "read frame"))),
          .sendErr none true, .unlock] := by
  decide

/-! ## The scenario Source, Transformer, Sink -/

/-- Counterexample to C21 as stated: the Source produces `[1, 2, 3]` and then
the end condition, the context is cancelled afterwards, and every value is
taken from the three error channels.  The Sink records `[2, 4, 6]`, but the
value written by the Source is the error of the end condition and the value
written by the Transformer and by the Sink is `context.Canceled`: none is nil. -/
theorem pipeline_final_values_counterexample :
    pipelineRecord (.New "EOF") [1, 2, 3] .cancelled 1 = [2, 4, 6] ∧
    errWritten (pipelineSource (.New "EOF") [1, 2, 3] 1).trace = [some (.New "EOF")] ∧
    errWritten (pipelineTransformer (.New "EOF") [1, 2, 3] .cancelled 1).trace
      = [some .Canceled] ∧
    errWritten (pipelineSink (.New "EOF") [1, 2, 3] .cancelled 1).trace = [some .Canceled] ∧
    errWritten (pipelineSource (.New "EOF") [1, 2, 3] 1).trace ≠ [none] := by
  decide

/-- C21, amended. Scenario: a Source that produces `[A, B, C]` and then the end
condition `endErr`, a Transformer that doubles, a Sink that records, each
error channel with a reader.  The Transformer delivers and the Sink records
`[2A, 2B, 2C]`.  The value the Source writes to its error channel is `endErr`;
the Transformer and the Sink, whose receive then finds no writer, write
nothing while the context is live and write `context.Canceled` once it is
cancelled. -/
theorem pipeline_doubles_and_stops (A B C : Nat) (endErr : GoError) (afterEnd : RecvSel Nat)
    (errReads : Nat) (hread : 0 < errReads) (hend : afterEnd.peer = none) :
    sentOut (pipelineSource endErr [A, B, C] errReads).trace = [A, B, C] ∧
    sentOut (pipelineTransformer endErr [A, B, C] afterEnd errReads).trace
      = [2 * A, 2 * B, 2 * C] ∧
    stepArgs (pipelineSink endErr [A, B, C] afterEnd errReads).trace = [2 * A, 2 * B, 2 * C] ∧
    pipelineRecord endErr [A, B, C] afterEnd errReads = [2 * A, 2 * B, 2 * C] ∧
    errWritten (pipelineSource endErr [A, B, C] errReads).trace = [some endErr] ∧
    errWritten (pipelineTransformer endErr [A, B, C] afterEnd errReads).trace
      = (if afterEnd.ctxDone then [some .Canceled] else []) ∧
    errWritten (pipelineSink endErr [A, B, C] afterEnd errReads).trace
      = (if afterEnd.ctxDone then [some .Canceled] else []) := by
  obtain ⟨k, rfl⟩ : ∃ k, errReads = k + 1 := ⟨errReads - 1, by omega⟩
  rcases afterEnd with ⟨done, peer, pickCtx⟩
  simp only at hend
  subst hend
  have hs : (pipelineSource endErr [A, B, C] (k + 1)).trace
      = [.step () A none, .sendOut A (some none), .step () B none, .sendOut B (some none),
          .step () C none, .sendOut C (some none), .step () 0 (some endErr),
          .errSend (some endErr) true] := by
    simp [pipelineSource, SourceNode.loop, lifecycle, setupPhase, deferred, NewSourceNode,
      SourceNode.forLoop, emitThenEnd, BlockingSend, SendSel.ready, Exit.after, errSend]
  have hso : sentOut (pipelineSource endErr [A, B, C] (k + 1)).trace = [A, B, C] := by
    rw [hs]
    rfl
  have hto : ∀ done : Bool,
      (pipelineTransformer endErr [A, B, C] ⟨done, none, pickCtx⟩ (k + 1)).trace
        = [.recvA (some (A, none)), .step A (2 * A) none, .sendOut (2 * A) (some none),
            .recvA (some (B, none)), .step B (2 * B) none, .sendOut (2 * B) (some none),
            .recvA (some (C, none)), .step C (2 * C) none, .sendOut (2 * C) (some none)] ++
          (if done then [.recvA (some (default, some .Canceled)), .errSend (some .Canceled) true]
            else [.recvA none]) := by
    intro done
    cases done <;>
      simp [pipelineTransformer, hso, fedBy, TransformerNode.loop, lifecycle, setupPhase,
        deferred, NewTransformerNode, TransformerNode.forLoop, doubler, BlockingSend,
        BlockingRecv, RecvSel.value, SendSel.ready, Exit.after, errSend, parked]
  have hts : ∀ done : Bool,
      sentOut (pipelineTransformer endErr [A, B, C] ⟨done, none, pickCtx⟩ (k + 1)).trace
        = [2 * A, 2 * B, 2 * C] := by
    intro done
    rw [hto]
    cases done <;> rfl
  have hforLoop : ∀ done : Bool,
      SinkNode.forLoop record (fedBy [2 * A, 2 * B, 2 * C] ⟨done, none, pickCtx⟩) (k + 1) []
        = ⟨[.recvA (some (2 * A, none)), .step (2 * A) () none,
            .recvA (some (2 * B, none)), .step (2 * B) () none,
            .recvA (some (2 * C, none)), .step (2 * C) () none] ++
            (if done then
              [.recvA (some (default, some .Canceled)), .errSend (some .Canceled) true]
            else [.recvA none]),
          done, if done then k else k + 1, [2 * A, 2 * B, 2 * C]⟩ := by
    intro done
    cases done <;>
      simp [fedBy, SinkNode.forLoop, record, BlockingRecv, RecvSel.value, Exit.after, errSend,
        parked]
  have hsink : ∀ done : Bool,
      (pipelineSink endErr [A, B, C] ⟨done, none, pickCtx⟩ (k + 1)).trace
        = [.recvA (some (2 * A, none)), .step (2 * A) () none,
            .recvA (some (2 * B, none)), .step (2 * B) () none,
            .recvA (some (2 * C, none)), .step (2 * C) () none] ++
            (if done then
              [.recvA (some (default, some .Canceled)), .errSend (some .Canceled) true]
            else [.recvA none]) := by
    intro done
    simp only [pipelineSink, hts, SinkNode.loop, lifecycle, setupPhase, NewSinkNode, hforLoop]
    cases done <;> simp [deferred]
  refine ⟨hso, hts done, ?_, ?_, ?_, ?_, ?_⟩
  · rw [hsink]
    cases done <;> rfl
  · simp only [pipelineRecord, hts, hforLoop]
  · rw [hs]
    rfl
  · rw [hto]
    cases done <;> rfl
  · rw [hsink]
    cases done <;> rfl

/-- Witness for C21: the values `[1, 2, 3]`, the end condition `"EOF"`, and a
context that is cancelled after the end. -/
theorem pipeline_doubles_and_stops_witness :
    pipelineRecord (.New "EOF") [1, 2, 3] .cancelled 1 = [2 * 1, 2 * 2, 2 * 3] ∧
    errWritten (pipelineSink (.New "EOF") [1, 2, 3] .cancelled 1).trace
      = (if (RecvSel.cancelled : RecvSel Nat).ctxDone then [some .Canceled] else []) :=
  ⟨(pipeline_doubles_and_stops 1 2 3 (.New "EOF") .cancelled 1 (by decide) rfl).2.2.2.1,
    (pipeline_doubles_and_stops 1 2 3 (.New "EOF") .cancelled 1 (by decide) rfl).2.2.2.2.2.2⟩

/-! ## The mutex `isRunningMu` -/

section MutexLemmas

variable {N : Type}

theorem List.split_at_first {α : Type} (x : α) (l : List α) (h : x ∈ l) :
    ∃ l1 l2, l = l1 ++ x :: l2 ∧ x ∉ l1 := by
  induction l with
  | nil => simp at h
  | cons y l ih =>
    by_cases hy : y = x
    · exact ⟨[], l, by simp [hy], by simp⟩
    · rcases List.mem_cons.1 h with h | h
      · exact absurd h.symm hy
      · obtain ⟨l1, l2, hl, hx⟩ := ih h
        exact ⟨y :: l1, l2, by simp [hl], by simp [hx, Ne.symm hy]⟩

theorem List.first_occurrence_unique {α : Type} (x : α) (l1 l2 p1 p2 : List α)
    (hl : x ∉ l1) (hp : x ∉ p1) (h : l1 ++ x :: l2 = p1 ++ x :: p2) : l1 = p1 ∧ l2 = p2 := by
  induction l1 generalizing p1 with
  | nil =>
    cases p1 with
    | nil => simpa using h
    | cons y p1 =>
      simp only [List.nil_append, List.cons_append, List.cons.injEq] at h
      exact absurd (by simp [h.1]) hp
  | cons z l1 ih =>
    cases p1 with
    | nil =>
      simp only [List.nil_append, List.cons_append, List.cons.injEq] at h
      exact absurd (by simp [h.1]) hl
    | cons y p1 =>
      simp only [List.cons_append, List.cons.injEq] at h
      obtain ⟨h1, h2⟩ := ih p1 (fun hm => hl (by simp [hm])) (fun hm => hp (by simp [hm])) h.2
      exact ⟨by rw [h.1, h1], h2⟩

/-- The shape of every trace of `Graph.loop`: the `Lock()` comes first, and the
`Unlock()`, when there is one, comes last, right after the send of the value
of the graph has completed. -/
theorem Graph.loop_trace_lock (g : Graph N) (monitor : List MonitorPoll)
    (teardown : List TeardownPoll) (errReads : Nat) :
    ∃ body, (g.loop monitor teardown errReads).trace = .lock :: body ∧
      (GraphEvent.unlock ∉ body ∨
        ∃ pre v, body = pre ++ [.sendErr v true, .unlock] ∧ GraphEvent.unlock ∉ pre) := by
  have hmon := (mainLoop_ended ⟨g.started, []⟩ monitor).1
  cases hm : (g.monitoring monitor).returned with
  | false =>
    rw [Graph.loop_of_not_returned g monitor teardown errReads hm]
    refine ⟨g.nodes.map (fun p => .run p.1) ++ (g.monitoring monitor).trace, by simp,
      Or.inl ?_⟩
    intro hmem
    simp only [Graph.monitoring, List.mem_append, List.mem_map, reduceCtorEq, and_false,
      exists_false, false_or] at hmem
    obtain ⟨_, _, he⟩ := hmon _ hmem
    cases he
  | true =>
    have htd := teardownLoop_trace
      (g.teardownTimeoutForNNodes (mainLoop ⟨g.started, []⟩ monitor).vars.runningNodes.length)
      (mainLoop ⟨g.started, []⟩ monitor).vars teardown
    simp only [Graph.monitoring] at hm
    have hpre : GraphEvent.unlock ∉ g.nodes.map (fun p => GraphEvent.run p.1) ++
        (mainLoop ⟨g.started, []⟩ monitor).trace ++
        (g.teardown (mainLoop ⟨g.started, []⟩ monitor).vars teardown).trace := by
      intro hmem
      simp only [Graph.teardown_eq, PhaseEnd.after, List.mem_append, List.mem_map, reduceCtorEq,
        and_false, exists_false, false_or] at hmem
      rcases hmem with hmem | hmem | hmem
      · obtain ⟨_, _, he⟩ := hmon _ hmem
        cases he
      · split at hmem <;> simp at hmem
      · obtain ⟨_, _, he⟩ := htd _ hmem
        cases he
    simp only [Graph.loop, hm, ↓reduceIte, List.cons_append]
    generalize graphErr g _ = v
    generalize g.nodes.map (fun p => GraphEvent.run p.1) ++
      (mainLoop ⟨g.started, []⟩ monitor).trace ++
      (g.teardown (mainLoop ⟨g.started, []⟩ monitor).vars teardown).trace = pre at hpre ⊢
    by_cases h0 : 0 < errReads
    · exact ⟨pre ++ [.sendErr v true, .unlock], by simp [h0], Or.inr ⟨pre, v, rfl, hpre⟩⟩
    · refine ⟨pre ++ [.sendErr v false], by simp [h0], Or.inl ?_⟩
      intro hmem
      rcases List.mem_append.1 hmem with hmem | hmem
      · exact hpre hmem
      · simp at hmem

theorem loopEvents_append (a b : List (Sched N)) :
    loopEvents (a ++ b) = loopEvents a ++ loopEvents b := by
  simp [loopEvents, List.filterMap_append]

theorem mem_loopEvents (ev : GraphEvent) (a : List (Sched N)) :
    ev ∈ loopEvents a ↔ Sched.loop ev ∈ a := by
  simp only [loopEvents, List.mem_filterMap]
  constructor
  · rintro ⟨x, hx, h⟩
    cases x with
    | loop e => simp only [Option.some.injEq] at h; subst h; exact hx
    | call m => simp at h
  · intro h
    exact ⟨_, h, rfl⟩

variable [Node N]

theorem SharedGraph.exec_append (s : SharedGraph N) (a b : List (Sched N)) :
    s.exec (a ++ b) = (s.exec a).exec b := by
  simp [SharedGraph.exec, List.foldl_append]

/-- While the mutex is held and the loop does not free it, nothing is changed. -/
theorem SharedGraph.exec_held (a : List (Sched N)) (s : SharedGraph N)
    (hs : s.isRunningMu = true) (ha : Sched.loop .unlock ∉ a) : s.exec a = s := by
  induction a generalizing s with
  | nil => rfl
  | cons x a ih =>
    have hx : s.step x = s := by
      rcases s with ⟨mu, g⟩
      simp only at hs
      subst hs
      cases x with
      | loop ev =>
        cases ev <;> first | rfl | exact absurd (List.mem_cons_self _ _) ha
      | call m => rfl
    have := ih s hs (fun hm => ha (List.mem_cons_of_mem _ hm))
    simpa [SharedGraph.exec, hx] using this

/-- Calls of mutators leave the mutex free. -/
theorem SharedGraph.exec_calls_free (calls : List (Mutator N)) (s : SharedGraph N)
    (hs : s.isRunningMu = false) : (s.exec (calls.map .call)).isRunningMu = false := by
  induction calls generalizing s with
  | nil => exact hs
  | cons m calls ih =>
    have : (s.step (.call m)).isRunningMu = false := by
      simp [SharedGraph.step, SharedGraph.call, hs]
    simpa [SharedGraph.exec] using ih _ this

end MutexLemmas

/-- C22. A goroutine runs `Graph.loop` on the graph left by the calls `calls`
of mutators, and other goroutines call mutators meanwhile; `rest` is what
happens after the `Lock()` of the loop.  At every moment either the loop has
not reached its `Unlock()`: the mutex is held, the graph, membership
included, is the one the loop has locked, and a call of any of the six
mutators does not get past its `Lock()`; or the loop has made its
`Unlock()`, which is its last action and comes after the send of the value
of the graph has completed. -/
theorem membership_is_fixed_during_run {N : Type} [Node N] (g0 : Graph N)
    (calls : List (Mutator N)) (rest : List (Sched N))
    (monitor : List MonitorPoll) (teardown : List TeardownPoll) (errReads : Nat)
    (hrun : loopEvents (Sched.loop .lock :: rest)
      = ((SharedGraph.exec ⟨false, g0⟩ (calls.map .call)).graph.loop
          monitor teardown errReads).trace) :
    ∀ a b, rest = a ++ b →
      (Sched.loop .unlock ∉ a ∧
        SharedGraph.exec ⟨false, g0⟩ (calls.map .call ++ .loop .lock :: a)
          = ⟨true, (SharedGraph.exec ⟨false, g0⟩ (calls.map .call)).graph⟩ ∧
        ∀ m, (SharedGraph.exec ⟨false, g0⟩ (calls.map .call ++ .loop .lock :: a)).call m
          = none) ∨
      (∃ a1 a2 v, a = a1 ++ .loop .unlock :: a2 ∧ Sched.loop (.sendErr v true) ∈ a1 ∧
        Sched.loop .unlock ∉ a1 ∧ loopEvents (a2 ++ b) = []) := by
  intro a b hab
  obtain ⟨body, hbody, hshape⟩ := Graph.loop_trace_lock
    (SharedGraph.exec ⟨false, g0⟩ (calls.map .call)).graph monitor teardown errReads
  have hrest : loopEvents rest = body := by
    rw [hbody] at hrun
    simpa [loopEvents] using hrun
  by_cases hun : Sched.loop .unlock ∈ a
  · right
    obtain ⟨a1, a2, ha, ha1⟩ := List.split_at_first _ a hun
    have hun1 : GraphEvent.unlock ∉ loopEvents a1 := fun h => ha1 ((mem_loopEvents _ _).1 h)
    have hsplit : loopEvents a1 ++ .unlock :: loopEvents (a2 ++ b) = body := by
      rw [← hrest, hab, ha]
      simp [loopEvents_append, loopEvents]
    rcases hshape with hno | ⟨pre, v, hpre, hunpre⟩
    · exact absurd (by rw [← hsplit]; simp) hno
    · have hp : GraphEvent.unlock ∉ pre ++ [GraphEvent.sendErr v true] := by
        simp [hunpre]
      have := List.first_occurrence_unique _ _ _ _ [] hun1 hp
        (by rw [hsplit, hpre]; simp)
      refine ⟨a1, a2, v, ha, (mem_loopEvents _ _).1 (by rw [this.1]; simp), ha1, this.2⟩
  · left
    have hfree := SharedGraph.exec_calls_free calls ⟨false, g0⟩ rfl
    have hexec : SharedGraph.exec ⟨false, g0⟩ (calls.map .call ++ .loop .lock :: a)
        = ⟨true, (SharedGraph.exec ⟨false, g0⟩ (calls.map .call)).graph⟩ := by
      rw [SharedGraph.exec_append]
      exact SharedGraph.exec_held a _ rfl hun
    refine ⟨hun, hexec, fun m => ?_⟩
    rw [hexec]
    rfl

/-- Witness for C22: the graph is given the child `"camera"`, the loop runs, and
a call of `RemoveNodeByName("camera")` made before the loop has written its
value finds the mutex held and leaves the graph as it is. -/
theorem membership_is_fixed_during_run_witness :
    (Sched.loop .unlock ∉ [Sched.loop (.run "camera"),
        Sched.call (.RemoveNodeByName "camera" : Mutator NamedNode)] ∧
      SharedGraph.exec ⟨false, NewGraph NamedNode "fx"⟩
          ([Mutator.SetNode ⟨"camera", 0⟩].map .call ++ .loop .lock ::
            [.loop (.run "camera"), .call (.RemoveNodeByName "camera")])
        = ⟨true, (SharedGraph.exec ⟨false, NewGraph NamedNode "fx"⟩
            ([Mutator.SetNode ⟨"camera", 0⟩].map .call)).graph⟩ ∧
      ∀ m, (SharedGraph.exec ⟨false, NewGraph NamedNode "fx"⟩
          ([Mutator.SetNode ⟨"camera", 0⟩].map .call ++ .loop .lock ::
            [.loop (.run "camera"), .call (.RemoveNodeByName "camera")])).call m = none) ∨
    (∃ a1 a2 v, [Sched.loop (.run "camera"),
          Sched.call (.RemoveNodeByName "camera" : Mutator NamedNode)]
        = a1 ++ .loop .unlock :: a2 ∧ Sched.loop (.sendErr v true) ∈ a1 ∧
      Sched.loop .unlock ∉ a1 ∧
      loopEvents (a2 ++ [Sched.loop (.monitor "camera" .done), .loop (.newTimer 1000000000),
        .loop .cancelNodeCtx, .loop (.teardown "camera" (.report (some .Canceled))),
        .loop (.sendErr none true), .call (.SetNode ⟨"screen", 0⟩), .loop .unlock]) = []) :=
  membership_is_fixed_during_run (NewGraph NamedNode "fx") [.SetNode ⟨"camera", 0⟩]
    [.loop (.run "camera"), .call (.RemoveNodeByName "camera"),
      .loop (.monitor "camera" .done), .loop (.newTimer 1000000000), .loop .cancelNodeCtx,
      .loop (.teardown "camera" (.report (some .Canceled))), .loop (.sendErr none true),
      .call (.SetNode ⟨"screen", 0⟩), .loop .unlock]
    [⟨0, true, none, false⟩] [⟨0, 0, some (some .Canceled), false⟩] 1 (by decide)
    [.loop (.run "camera"), .call (.RemoveNodeByName "camera")]
    [.loop (.monitor "camera" .done), .loop (.newTimer 1000000000), .loop .cancelNodeCtx,
      .loop (.teardown "camera" (.report (some .Canceled))), .loop (.sendErr none true),
      .call (.SetNode ⟨"screen", 0⟩), .loop .unlock] rfl

/-! ## The cancellation of the child context -/

/-- Counterexample to C23 as stated: the only child of a graph reports in the
monitoring phase, no child is running when the teardown phase starts, and the
graph writes its value without having cancelled the child context. -/
theorem no_running_child_no_cancellation :
    (oneNodeGraph.loop [⟨0, false, some (some (.New "camera unplugged")), false⟩] [] 1).trace
      = [.lock, .run "camera", .monitor "camera" (.report (some (.New "camera unplugged"))),
          .sendErr (some (.New
            "Graph fx failed: [MainLoop: Node error][Node camera: camera unplugged]")) true,
          .unlock] ∧
    GraphEvent.cancelNodeCtx ∉
      (oneNodeGraph.loop [⟨0, false, some (some (.New "camera unplugged")), false⟩] [] 1).trace := by
  decide

/-- C23, amended. In a run of `Graph.loop` that gets to `g.sendErr(err)`, the
child context is cancelled exactly when a child is still running at the end
of the monitoring phase.  It is then cancelled once, right after the timer is
made: after every poll of the monitoring phase, before every poll of the
teardown phase and before the value of the graph is handed to `sendErr`. -/
theorem cancellation_when_children_remain {N : Type} (g : Graph N) (monitor : List MonitorPoll)
    (teardown : List TeardownPoll) (errReads : Nat) (r : Report N)
    (h : (g.loop monitor teardown errReads).report = some r) :
    (GraphEvent.cancelNodeCtx ∈ (g.loop monitor teardown errReads).trace ↔
      (g.monitoring monitor).vars.runningNodes ≠ []) ∧
    ((g.monitoring monitor).vars.runningNodes ≠ [] →
      ∃ pre post d, (g.loop monitor teardown errReads).trace
          = pre ++ [.newTimer d, .cancelNodeCtx] ++ post ++
            (if 0 < errReads then [.sendErr r.err true, .unlock] else [.sendErr r.err false]) ∧
        d = g.teardownTimeoutForNNodes (g.monitoring monitor).vars.runningNodes.length ∧
        GraphEvent.cancelNodeCtx ∉ pre ∧ GraphEvent.cancelNodeCtx ∉ post ∧
        (∀ ev ∈ pre ++ post, ∀ v k, ev ≠ .sendErr v k) ∧
        (∀ c k, GraphEvent.monitor c k ∈ (g.loop monitor teardown errReads).trace →
          GraphEvent.monitor c k ∈ pre) ∧
        (∀ c k, GraphEvent.teardown c k ∈ (g.loop monitor teardown errReads).trace →
          GraphEvent.teardown c k ∈ post)) := by
  have hmon := (mainLoop_ended ⟨g.started, []⟩ monitor).1
  have htd := teardownLoop_trace
    (g.teardownTimeoutForNNodes (mainLoop ⟨g.started, []⟩ monitor).vars.runningNodes.length)
    (mainLoop ⟨g.started, []⟩ monitor).vars teardown
  have hnomon : ∀ ev ∈ (mainLoop ⟨g.started, []⟩ monitor).trace,
      ev ≠ .cancelNodeCtx ∧ (∀ v k, ev ≠ .sendErr v k) ∧ ∀ c k, ev ≠ .teardown c k := by
    intro ev hev
    obtain ⟨c, k, rfl⟩ := hmon ev hev
    simp
  have hnotd : ∀ ev ∈ (teardownLoop
      (g.teardownTimeoutForNNodes (mainLoop ⟨g.started, []⟩ monitor).vars.runningNodes.length)
      (mainLoop ⟨g.started, []⟩ monitor).vars teardown).trace,
      ev ≠ .cancelNodeCtx ∧ (∀ v k, ev ≠ .sendErr v k) ∧ ∀ c k, ev ≠ .monitor c k := by
    intro ev hev
    obtain ⟨c, k, rfl⟩ := htd ev hev
    simp
  simp only [Graph.monitoring]
  cases hm : (mainLoop ⟨g.started, []⟩ monitor).returned with
  | false => simp [Graph.loop, hm] at h
  | true =>
    simp only [Graph.loop, hm, ↓reduceIte, Option.some.injEq, Graph.teardown_eq] at h ⊢
    subst h
    generalize graphErr g _ = v
    cases he : (mainLoop ⟨g.started, []⟩ monitor).vars.runningNodes with
    | nil =>
      rw [he] at hnotd
      refine ⟨⟨fun hmem => ?_, fun hne => absurd rfl hne⟩, fun hne => absurd rfl hne⟩
      simp only [PhaseEnd.after, List.isEmpty_nil, ↓reduceIte, List.nil_append, List.cons_append,
        List.mem_cons, List.mem_append, List.mem_map, reduceCtorEq, and_false, exists_false,
        false_or] at hmem
      rcases hmem with (hmem | hmem) | hmem
      · exact ((hnomon _ hmem).1 rfl).elim
      · exact ((hnotd _ hmem).1 rfl).elim
      · split at hmem <;> simp at hmem
    | cons x xs =>
      rw [he] at hnotd
      refine ⟨⟨fun _ => by simp, fun _ => by simp [PhaseEnd.after]⟩, fun _ => ?_⟩
      refine ⟨.lock :: g.nodes.map (fun p => .run p.1) ++ (mainLoop ⟨g.started, []⟩ monitor).trace,
        _, _, ?_, rfl, ?_, fun hmem => (hnotd _ hmem).1 rfl, ?_, ?_, ?_⟩
      · simp [PhaseEnd.after]
      · intro hmem
        simp only [List.cons_append, List.mem_cons, List.mem_append, List.mem_map, reduceCtorEq,
          and_false, exists_false, false_or] at hmem
        exact (hnomon _ hmem).1 rfl
      · intro ev hev w k hw
        subst hw
        simp only [List.cons_append, List.mem_cons, List.mem_append, List.mem_map, reduceCtorEq,
          and_false, exists_false, false_or] at hev
        rcases hev with hev | hev
        · exact (hnomon _ hev).2.1 w k rfl
        · exact (hnotd _ hev).2.1 w k rfl
      · intro c k hmem
        simp only [PhaseEnd.after, List.isEmpty_cons, Bool.false_eq_true, ↓reduceIte,
          List.cons_append, List.mem_cons, List.mem_append, List.mem_map, reduceCtorEq,
          and_false, exists_false, false_or, List.nil_append, List.not_mem_nil] at hmem
        rcases hmem with (hmem | hmem) | hmem
        · simp [hmem]
        · exact absurd rfl ((hnotd _ hmem).2.2 c k)
        · split at hmem <;> simp at hmem
      · intro c k hmem
        simp only [PhaseEnd.after, List.isEmpty_cons, Bool.false_eq_true, ↓reduceIte,
          List.cons_append, List.mem_cons, List.mem_append, List.mem_map, reduceCtorEq,
          and_false, exists_false, false_or, List.nil_append, List.not_mem_nil] at hmem
        rcases hmem with (hmem | hmem) | hmem
        · exact absurd rfl ((hnomon _ hmem).2.2 c k)
        · exact hmem
        · split at hmem <;> simp at hmem

/-- Witness for C23: `"screen"` is still running when `"camera"` has ended the
monitoring phase, and the child context is cancelled. -/
theorem cancellation_when_children_remain_witness :
    ∃ r, (twoNodeGraph.loop [⟨0, false, some none, false⟩]
        [⟨0, 0, some (some .Canceled), false⟩] 1).report = some r ∧
      (GraphEvent.cancelNodeCtx ∈ (twoNodeGraph.loop [⟨0, false, some none, false⟩]
          [⟨0, 0, some (some .Canceled), false⟩] 1).trace ↔
        (twoNodeGraph.monitoring [⟨0, false, some none, false⟩]).vars.runningNodes ≠ []) := by
  obtain ⟨r, hr⟩ := Graph.loop_report_of_returned twoNodeGraph [⟨0, false, some none, false⟩]
    [⟨0, 0, some (some .Canceled), false⟩] 1 (by decide)
  exact ⟨r, hr, (cancellation_when_children_remain twoNodeGraph [⟨0, false, some none, false⟩]
    [⟨0, 0, some (some .Canceled), false⟩] 1 r hr).1⟩

/-! ## Monitoring and the parent context -/

/-- C24. Monitoring phase of `Graph.loop` and the cancellation of the parent
context.  A graph without nodes, such as the one `NewGraph` returns, never
leaves the monitoring phase, whatever its polls would find: the inner `range`
statement has no iteration, the `select` with the case `<-ctx.Done()` is
never reached, and the run does nothing after its `Lock()`.  In a graph with
a node, the poll that takes the case `<-ctx.Done()` ends the phase with nil,
and the run gets to `g.sendErr(err)`. -/
theorem empty_graph_never_leaves_monitoring {N : Type} (g : Graph N) (name : String) :
    (g.nodes = [] → ∀ (monitor : List MonitorPoll) (teardown : List TeardownPoll)
      (errReads : Nat), g.loop monitor teardown errReads = ⟨[.lock], false, none⟩) ∧
    (∀ (teardown : List TeardownPoll) (errReads : Nat),
      (NewGraph N name).loop [⟨0, true, none, true⟩, ⟨0, true, none, true⟩] teardown errReads
        = ⟨[.lock], false, none⟩) ∧
    (g.nodes ≠ [] → ∀ (quiet rest : List MonitorPoll) (p : MonitorPoll)
      (teardown : List TeardownPoll) (errReads : Nat),
      (∀ q ∈ quiet, pick q.ctxDone q.report q.pickDone = .default) →
      pick p.ctxDone p.report p.pickDone = .done →
      (g.monitoring (quiet ++ p :: rest)).returned = true ∧
      (g.monitoring (quiet ++ p :: rest)).err = none ∧
      ∃ r, (g.loop (quiet ++ p :: rest) teardown errReads).report = some r ∧
        r.mainLoopErr = none) := by
  have hempty : ∀ g1 : Graph N, g1.nodes = [] → ∀ (monitor : List MonitorPoll)
      (teardown : List TeardownPoll) (errReads : Nat),
      g1.loop monitor teardown errReads = ⟨[.lock], false, none⟩ := by
    intro g1 hg monitor teardown errReads
    have hm : mainLoop (N := N) ⟨[], []⟩ monitor = ⟨none, ⟨[], []⟩, [], false⟩ := by
      cases monitor <;> simp [mainLoop]
    simp [Graph.loop, Graph.started, hg, hm]
  refine ⟨hempty g, fun teardown errReads => hempty _ rfl _ _ _, ?_⟩
  intro hg quiet rest p teardown errReads hquiet hp
  have hne := Graph.started_nonempty g hg
  have hm : g.monitoring (quiet ++ p :: rest)
      = ⟨none, ⟨g.started, []⟩,
          quiet.map (fun q => .monitor (g.started.rangeKey q.key) .default) ++
            [.monitor (g.started.rangeKey p.key) .done], true⟩ := by
    rw [Graph.monitoring, mainLoop_quiet ⟨g.started, []⟩ hne quiet _ hquiet,
      mainLoop_done ⟨g.started, []⟩ hne p rest hp]
    rfl
  obtain ⟨r, hr⟩ := Graph.loop_report_of_returned g (quiet ++ p :: rest) teardown errReads
    (by rw [hm])
  obtain ⟨-, h1, -⟩ := Graph.loop_report g _ teardown errReads r hr
  exact ⟨by rw [hm], by rw [hm], r, hr, by rw [h1, hm]⟩

/-! ## No leaf node writes nil -/

section NonNil

variable {σ A B O S X Y : Type}

theorem Exit.Ended.errSend_some {errReads : Nat} {b : Exit σ (Event A B O S X Y)}
    (h : b.Ended errReads) (e : error) (d : Bool) (hmem : Event.errSend e d ∈ b.trace) :
    e ≠ none := by
  rcases h with ⟨-, h2⟩ | ⟨pre, last, err, h1, h2, h3, -⟩
  · have := h2 _ hmem
    simp [Event.inCycle, Event.isStep, Event.isTransfer] at this
  · rw [h1] at hmem
    simp only [List.mem_append, List.mem_cons, List.mem_singleton, List.not_mem_nil,
      or_false] at hmem
    rcases hmem with hmem | rfl | hmem
    · have := h2 _ hmem
      simp [Event.inCycle, Event.isStep, Event.isTransfer] at this
    · simp [Event.inCycle, Event.isStep, Event.isTransfer] at h3
    · simp only [Event.errSend.injEq] at hmem
      rw [hmem.1]
      simp

/-- Every value a `loop` sends on the error channel is an error: the wrapped
error of setup, the error that ended the `for` statement, or the wrapped error
of teardown. -/
theorem lifecycle_errSend_some (setup teardown : Option (σ → error × σ)) (errReads : Nat)
    (s : σ) (forStmt : σ → Exit σ (Event A B O S X Y))
    (hE : ∀ s1, (forStmt s1).Ended errReads) (e : error) (d : Bool)
    (hmem : Event.errSend e d ∈ (lifecycle setup teardown errReads s forStmt).trace) :
    e ≠ none := by
  have hdef : ∀ (pre : List (Event A B O S X Y)) (s1 : σ),
      (∀ x ∈ pre, x = .setup none) →
      Event.errSend e d ∈ (deferred teardown pre (forStmt s1)).trace → e ≠ none := by
    intro pre s1 hpre hm
    have hb := (hE s1).errSend_some e d
    have hnotpre : Event.errSend e d ∉ pre := fun hx => by cases hpre _ hx
    unfold deferred at hm
    split at hm
    · split at hm
      · rcases List.mem_append.1 hm with hm | hm
        · exact absurd hm hnotpre
        · exact hb hm
      · split at hm
        · simp only [List.mem_append, List.mem_singleton, reduceCtorEq, or_false] at hm
          rcases hm with hm | hm
          · exact absurd hm hnotpre
          · exact hb hm
        · simp only [List.mem_append, List.mem_cons, List.mem_singleton, reduceCtorEq,
            Event.errSend.injEq, List.not_mem_nil, or_false, false_or] at hm
          rcases hm with (hm | hm) | hm
          · exact absurd hm hnotpre
          · exact hb hm
          · rw [hm.1]
            simp
    · rcases List.mem_append.1 hm with hm | hm
      · exact absurd hm hnotpre
      · exact hb hm
  unfold lifecycle setupPhase at hmem
  cases setup with
  | none => exact hdef [] s (by simp) hmem
  | some f =>
    rcases hf : f s with ⟨_ | err, s1⟩
    · simp only [hf] at hmem
      exact hdef [.setup none] s1 (by simp) hmem
    · simp only [hf, List.mem_cons, reduceCtorEq, Event.errSend.injEq, List.not_mem_nil,
        or_false, false_or] at hmem
      rw [hmem.1]
      simp

end NonNil

/-- C26. Every node shape: the `for` statement of `loop` is left only by a step
or a transfer that failed, whose error is sent on the error channel, and
every value that `loop` sends on the error channel, for every callback, every
input and every behaviour of the surroundings, is not nil. -/
theorem leaf_nodes_never_report_nil :
    (∀ (σ T : Type) (n : SourceNode σ T) (step : σ → (T × error) × σ)
        (outChan : List SendSel) (errReads : Nat) (s : σ),
        (SourceNode.forLoop step outChan errReads s).Ended errReads ∧
        ∀ e d, Event.errSend e d ∈ (n.loop step outChan errReads s).trace → e ≠ none) ∧
    (∀ (σ T : Type) [Inhabited T] (n : SinkNode σ T) (step : σ → T → error × σ)
        (inChan : List (RecvSel T)) (errReads : Nat) (s : σ),
        (SinkNode.forLoop step inChan errReads s).Ended errReads ∧
        ∀ e d, Event.errSend e d ∈ (n.loop step inChan errReads s).trace → e ≠ none) ∧
    (∀ (σ T : Type) [Inhabited T] (n : TransformerNode σ T) (step : σ → T → (T × error) × σ)
        (inChan : List (RecvSel T)) (outChan : List SendSel) (errReads : Nat) (s : σ),
        (TransformerNode.forLoop step inChan outChan errReads s).Ended errReads ∧
        ∀ e d, Event.errSend e d ∈ (n.loop step inChan outChan errReads s).trace → e ≠ none) ∧
    (∀ (σ From To : Type) [Inhabited From] (n : ConverterNode σ From To)
        (step : σ → From → (To × error) × σ)
        (inChan : List (RecvSel From)) (outChan : List SendSel) (errReads : Nat) (s : σ),
        (ConverterNode.forLoop step inChan outChan errReads s).Ended errReads ∧
        ∀ e d, Event.errSend e d ∈ (n.loop step inChan outChan errReads s).trace → e ≠ none) ∧
    (∀ (σ A B C : Type) [Inhabited A] [Inhabited B] (n : CombinerNode σ A B C)
        (step : σ → A → B → (C × error) × σ)
        (inChanA : List (RecvSel A)) (inChanB : List (RecvSel B)) (outChan : List SendSel)
        (errReads : Nat) (s : σ),
        (CombinerNode.forLoop step inChanA inChanB outChan errReads s).Ended errReads ∧
        ∀ e d, Event.errSend e d ∈ (n.loop step inChanA inChanB outChan errReads s).trace →
          e ≠ none) ∧
    (∀ (σ T P : Type) [Inhabited T] (n : PreviewerNode σ T P) (step : σ → T → (P × error) × σ)
        (inChan : List (RecvSel T)) (outChan previewChan : List SendSel)
        (errReads : Nat) (s : σ),
        (PreviewerNode.forLoop step inChan outChan previewChan errReads s).Ended errReads ∧
        ∀ e d, Event.errSend e d ∈ (n.loop step inChan outChan previewChan errReads s).trace →
          e ≠ none) ∧
    (∀ (σ T : Type) [Inhabited T] (n : ClonerNode σ T) (step : σ → T → (T × error) × σ)
        (inChan : List (RecvSel T)) (outChan cloneChan : List SendSel)
        (errReads : Nat) (s : σ),
        (ClonerNode.forLoop step inChan outChan cloneChan errReads s).Ended errReads ∧
        ∀ e d, Event.errSend e d ∈ (n.loop step inChan outChan cloneChan errReads s).trace →
          e ≠ none) := by
  refine ⟨?_, ?_, ?_, ?_, ?_, ?_, ?_⟩
  · intro σ T n step outChan errReads s
    exact ⟨SourceNode.source_forLoop_ended step outChan errReads s, fun e d =>
      lifecycle_errSend_some n.setup n.teardown errReads s _
        (fun s1 => SourceNode.source_forLoop_ended step outChan errReads s1) e d⟩
  · intro σ T _ n step inChan errReads s
    exact ⟨SinkNode.sink_forLoop_ended step inChan errReads s, fun e d =>
      lifecycle_errSend_some n.setup n.teardown errReads s _
        (fun s1 => SinkNode.sink_forLoop_ended step inChan errReads s1) e d⟩
  · intro σ T _ n step inChan outChan errReads s
    exact ⟨TransformerNode.transformer_forLoop_ended step inChan outChan errReads s, fun e d =>
      lifecycle_errSend_some n.setup n.teardown errReads s _
        (fun s1 => TransformerNode.transformer_forLoop_ended step inChan outChan errReads s1)
        e d⟩
  · intro σ From To _ n step inChan outChan errReads s
    exact ⟨ConverterNode.converter_forLoop_ended step inChan outChan errReads s, fun e d =>
      lifecycle_errSend_some n.setup n.teardown errReads s _
        (fun s1 => ConverterNode.converter_forLoop_ended step inChan outChan errReads s1) e d⟩
  · intro σ A B C _ _ n step inChanA inChanB outChan errReads s
    exact ⟨CombinerNode.combiner_forLoop_ended step inChanA inChanB outChan errReads s,
      fun e d => lifecycle_errSend_some n.setup n.teardown errReads s _
        (fun s1 => CombinerNode.combiner_forLoop_ended step inChanA inChanB outChan errReads s1)
        e d⟩
  · intro σ T P _ n step inChan outChan previewChan errReads s
    exact ⟨PreviewerNode.previewer_forLoop_ended step inChan outChan previewChan errReads s,
      fun e d => lifecycle_errSend_some n.setup n.teardown errReads s _
        (fun s1 => PreviewerNode.previewer_forLoop_ended step inChan outChan previewChan
          errReads s1) e d⟩
  · intro σ T _ n step inChan outChan cloneChan errReads s
    exact ⟨ClonerNode.cloner_forLoop_ended step inChan outChan cloneChan errReads s,
      fun e d => lifecycle_errSend_some n.setup n.teardown errReads s _
        (fun s1 => ClonerNode.cloner_forLoop_ended step inChan outChan cloneChan errReads s1)
        e d⟩

/-! ## One report for each child -/

section OneReport

variable {N : Type}

theorem GraphEvent.pollOf_of_reportOf (c : String) (ev : GraphEvent)
    (h : ev.reportOf c = true) : ev.pollOf c = true := by
  cases ev with
  | monitor n k => cases k <;> simp_all [GraphEvent.reportOf, GraphEvent.pollOf]
  | teardown n k => cases k <;> simp_all [GraphEvent.reportOf, GraphEvent.pollOf]
  | _ => simp [GraphEvent.reportOf] at h

theorem pairwise_of_no_report (c : String) (l : List GraphEvent)
    (h : ∀ x ∈ l, x.reportOf c = false) :
    l.Pairwise (fun x y => x.reportOf c = true → y.pollOf c = false) := by
  induction l with
  | nil => exact List.Pairwise.nil
  | cons x l ih =>
    refine List.Pairwise.cons (fun y _ hx => ?_) (ih (fun y hy => h y (by simp [hy])))
    rw [h x (by simp)] at hx
    cases hx

theorem pairwise_inert_append (c : String) (l1 l2 : List GraphEvent)
    (h1 : ∀ x ∈ l1, x.reportOf c = false)
    (h2 : l2.Pairwise (fun x y => x.reportOf c = true → y.pollOf c = false)) :
    (l1 ++ l2).Pairwise (fun x y => x.reportOf c = true → y.pollOf c = false) := by
  refine List.pairwise_append.2 ⟨pairwise_of_no_report c l1 h1, h2, fun x hx y _ hr => ?_⟩
  rw [h1 x hx] at hr
  cases hr

theorem pairwise_append_inert (c : String) (l1 l2 : List GraphEvent)
    (h1 : l1.Pairwise (fun x y => x.reportOf c = true → y.pollOf c = false))
    (h2 : ∀ y ∈ l2, y.pollOf c = false) :
    (l1 ++ l2).Pairwise (fun x y => x.reportOf c = true → y.pollOf c = false) := by
  refine List.pairwise_append.2 ⟨h1, ?_, fun x _ y hy _ => h2 y hy⟩
  refine pairwise_of_no_report c l2 (fun y hy => ?_)
  cases hr : y.reportOf c with
  | false => rfl
  | true =>
    have := GraphEvent.pollOf_of_reportOf c y hr
    rw [h2 y hy] at this
    cases this

/-- The teardown loop polls running children only. -/
theorem teardownLoop_polls_running (d : Duration) (vars : LoopVars N)
    (polls : List TeardownPoll) :
    ∀ ev ∈ (teardownLoop d vars polls).trace,
      ∃ c k, ev = .teardown c k ∧ c ∈ vars.runningNodes.keys := by
  refine teardownLoop_cases d
    (fun vars _ r => ∀ ev ∈ r.trace, ∃ c k, ev = .teardown c k ∧ c ∈ vars.runningNodes.keys)
    ?_ ?_ ?_ ?_ vars polls
  · intro _ _ _ ev hev
    simp at hev
  · intro _ _ k _ hk ev hev
    exact ⟨k, .done, by simpa using hev, hk⟩
  · intro _ _ _ k err _ hk ih ev hev
    simp only [PhaseEnd.after, List.singleton_append, List.mem_cons] at hev
    rcases hev with rfl | hev
    · exact ⟨k, .report err, rfl, hk⟩
    · obtain ⟨c, p, he, hc⟩ := ih ev hev
      exact ⟨c, p, he, ((GoMap.mem_keys_remove _ _ _).1 hc).1⟩
  · intro _ _ _ k _ hk ih ev hev
    simp only [PhaseEnd.after, List.singleton_append, List.mem_cons] at hev
    rcases hev with rfl | hev
    · exact ⟨k, .default, rfl, hk⟩
    · exact ih ev hev

theorem teardownLoop_pollOf_false (d : Duration) (vars : LoopVars N)
    (polls : List TeardownPoll) (c : String) (hc : c ∉ vars.runningNodes.keys) :
    ∀ ev ∈ (teardownLoop d vars polls).trace, ev.pollOf c = false := by
  intro ev hev
  obtain ⟨c1, k, rfl, hc1⟩ := teardownLoop_polls_running d vars polls ev hev
  have : c1 ≠ c := fun h => hc (h ▸ hc1)
  simpa [GraphEvent.pollOf] using this

/-- In the teardown loop no child is polled after it has reported. -/
theorem teardownLoop_pairwise (d : Duration) (c : String) (vars : LoopVars N)
    (polls : List TeardownPoll) :
    (teardownLoop d vars polls).trace.Pairwise
      (fun x y => x.reportOf c = true → y.pollOf c = false) := by
  refine teardownLoop_cases d
    (fun _ _ r => r.trace.Pairwise (fun x y => x.reportOf c = true → y.pollOf c = false))
    ?_ ?_ ?_ ?_ vars polls
  · intro _ _ _
    exact List.Pairwise.nil
  · intro _ _ _ _ _
    exact List.pairwise_singleton _ _
  · intro vars _ polls k err _ _ ih
    refine List.Pairwise.cons (fun y hy hr => ?_) ih
    have hkc : k = c := by simpa [GraphEvent.reportOf] using hr
    subst hkc
    exact teardownLoop_pollOf_false d _ polls k (GoMap.not_mem_keys_remove _ _) y hy
  · intro _ _ _ k _ _ ih
    refine List.Pairwise.cons (fun y _ hr => ?_) ih
    simp [GraphEvent.reportOf] at hr

end OneReport

section OneReportRuns

variable {N : Type}

/-- In the monitoring phase nothing follows a report, and the child that has
reported is not running any more. -/
theorem mainLoop_pairwise (c : String) (vars : LoopVars N) (polls : List MonitorPoll) :
    (mainLoop vars polls).trace.Pairwise
      (fun x y => x.reportOf c = true → y.pollOf c = false) ∧
    ∀ x ∈ (mainLoop vars polls).trace, x.reportOf c = true →
      c ∉ (mainLoop vars polls).vars.runningNodes.keys := by
  induction polls with
  | nil => simp [mainLoop]
  | cons p polls ih =>
    cases h : vars.runningNodes.isEmpty with
    | true => simp [mainLoop, h]
    | false =>
      cases hp : pick p.ctxDone p.report p.pickDone with
      | done =>
        rw [mainLoop_done vars h p polls hp]
        exact ⟨List.pairwise_singleton _ _, fun x hx hr => by
          simp only [List.mem_singleton] at hx
          subst hx
          simp [GraphEvent.reportOf] at hr⟩
      | report err =>
        rw [mainLoop_report vars h p polls err hp]
        refine ⟨List.pairwise_singleton _ _, fun x hx hr => ?_⟩
        simp only [List.mem_singleton] at hx
        subst hx
        have hkc : vars.runningNodes.rangeKey p.key = c := by
          simpa [GraphEvent.reportOf] using hr
        rw [← hkc]
        exact GoMap.not_mem_keys_remove _ _
      | default =>
        rw [mainLoop_default vars h p polls hp]
        refine ⟨List.Pairwise.cons (fun y _ hr => ?_) ih.1, fun x hx hr => ?_⟩
        · simp [GraphEvent.reportOf] at hr
        · simp only [PhaseEnd.after, List.singleton_append, List.mem_cons] at hx
          rcases hx with rfl | hx
          · simp [GraphEvent.reportOf] at hr
          · exact ih.2 x hx hr

/-- In a run of `Graph.loop` no child is polled after it has reported. -/
theorem Graph.loop_pairwise (g : Graph N) (monitor : List MonitorPoll)
    (teardown : List TeardownPoll) (errReads : Nat) (c : String) :
    (g.loop monitor teardown errReads).trace.Pairwise
      (fun x y => x.reportOf c = true → y.pollOf c = false) := by
  obtain ⟨hM, hgone⟩ := mainLoop_pairwise c ⟨g.started, []⟩ monitor
  have hruns : ∀ x ∈ g.nodes.map (fun p => GraphEvent.run p.1), x.reportOf c = false := by
    intro x hx
    obtain ⟨_, _, rfl⟩ := List.mem_map.1 hx
    rfl
  cases hm : (g.monitoring monitor).returned with
  | false =>
    rw [Graph.loop_of_not_returned g monitor teardown errReads hm]
    simp only [List.cons_append]
    exact pairwise_inert_append c [.lock] _ (by simp [GraphEvent.reportOf])
      (pairwise_inert_append c _ _ hruns hM)
  | true =>
    simp only [Graph.monitoring] at hm
    have hT := teardownLoop_pairwise
      (g.teardownTimeoutForNNodes (mainLoop ⟨g.started, []⟩ monitor).vars.runningNodes.length)
      c (mainLoop ⟨g.started, []⟩ monitor).vars teardown
    simp only [Graph.loop, hm, ↓reduceIte, Graph.teardown_eq, PhaseEnd.after, List.cons_append,
      List.append_assoc]
    generalize graphErr g _ = v
    have htail : ∀ y ∈ (if 0 < errReads then [GraphEvent.sendErr v true, .unlock]
        else [.sendErr v false]), y.pollOf c = false := by
      intro y hy
      split at hy <;> simp at hy <;> rcases hy with rfl | rfl <;> rfl
    have htimer : ∀ y ∈ (if (mainLoop ⟨g.started, []⟩ monitor).vars.runningNodes.isEmpty then []
        else [GraphEvent.newTimer (g.teardownTimeoutForNNodes
          (mainLoop ⟨g.started, []⟩ monitor).vars.runningNodes.length), .cancelNodeCtx]),
        y.reportOf c = false ∧ y.pollOf c = false := by
      intro y hy
      split at hy
      · simp at hy
      · simp at hy
        rcases hy with rfl | rfl <;> exact ⟨rfl, rfl⟩
    refine pairwise_inert_append c [.lock] _ (by simp [GraphEvent.reportOf])
      (pairwise_inert_append c _ _ hruns (List.pairwise_append.2 ⟨hM,
        pairwise_inert_append c _ _ (fun y hy => (htimer y hy).1)
          (pairwise_append_inert c _ _ hT htail), fun x hx y hy hr => ?_⟩))
    rcases List.mem_append.1 hy with hy | hy
    · exact (htimer y hy).2
    · rcases List.mem_append.1 hy with hy | hy
      · exact teardownLoop_pollOf_false _ _ teardown c (hgone x hx hr) y hy
      · exact htail y hy

theorem filter_reportOf_length (c : String) (l : List GraphEvent)
    (h : l.Pairwise (fun x y => x.reportOf c = true → y.pollOf c = false)) :
    (l.filter (GraphEvent.reportOf c)).length ≤ 1 := by
  induction l with
  | nil => simp
  | cons x l ih =>
    obtain ⟨hx, hl⟩ := List.pairwise_cons.1 h
    cases hr : x.reportOf c with
    | false =>
      rw [List.filter_cons_of_neg (by simp [hr])]
      exact ih hl
    | true =>
      have hnone : l.filter (GraphEvent.reportOf c) = [] := by
        rw [List.filter_eq_nil_iff]
        intro y hy hyr
        have := GraphEvent.pollOf_of_reportOf c y hyr
        rw [hx y hy hr] at this
        cases this
      rw [List.filter_cons_of_pos (by simp [hr]), hnone]
      simp

theorem recordTeardownErr_entry_congr (m1 m2 : GoMap error) (c : String) (e : error)
    (h : m1.entry c = m2.entry c) :
    (recordTeardownErr m1 c e).entry c = (recordTeardownErr m2 c e).entry c := by
  cases e with
  | none => exact h
  | some err =>
    simp only [recordTeardownErr]
    split
    · rw [GoMap.entry_assign_self, GoMap.entry_assign_self]
    · exact h

/-- The entry of a child that reports in the teardown loop is settled by that report. -/
theorem teardownLoop_entry_of_report (d : Duration) (c : String) (e : error)
    (vars : LoopVars N) (polls : List TeardownPoll) :
    GraphEvent.teardown c (.report e) ∈ (teardownLoop d vars polls).trace →
      (teardownLoop d vars polls).vars.nodeErrs.entry c
        = (recordTeardownErr vars.nodeErrs c e).entry c := by
  refine teardownLoop_cases d
    (fun vars _ r => GraphEvent.teardown c (.report e) ∈ r.trace →
      r.vars.nodeErrs.entry c = (recordTeardownErr vars.nodeErrs c e).entry c)
    ?_ ?_ ?_ ?_ vars polls
  · intro _ _ _ h
    simp at h
  · intro _ _ _ _ _ h
    simp at h
  · intro vars _ polls k err _ _ ih h
    simp only [PhaseEnd.after, List.singleton_append, List.mem_cons, GraphEvent.teardown.injEq,
      Picked.report.injEq] at h
    rcases h with ⟨rfl, rfl⟩ | h
    · simp only [PhaseEnd.after]
      exact teardownLoop_entry_of_not_running d c _ polls (GoMap.not_mem_keys_remove _ _)
    · obtain ⟨c1, k1, he, hc1⟩ := teardownLoop_polls_running d _ polls _ h
      simp only [GraphEvent.teardown.injEq] at he
      obtain ⟨rfl, -⟩ := he
      have hne : c ≠ k := ((GoMap.mem_keys_remove _ _ _).1 hc1).2
      simp only [PhaseEnd.after]
      rw [ih h]
      exact recordTeardownErr_entry_congr _ _ _ _ (recordTeardownErr_entry_ne _ _ _ _ hne)
  · intro _ _ _ _ _ _ ih h
    simp only [PhaseEnd.after, List.singleton_append, List.mem_cons, GraphEvent.teardown.injEq,
      reduceCtorEq, and_false, false_or] at h
    exact ih h

end OneReportRuns

/-- C27. In a run of `Graph.loop`, once a value has been received from the error
channel of a child `c`, in the monitoring or in the teardown phase, no later
`select` of the run is made on the channel of `c`; so at most one value is
received from each child, and the entry of `c` in `nodeErrs` at
`g.sendErr(err)` is the one that report has left: the value itself when it
was received in the monitoring phase, and what the teardown phase records of
it when it was received there. -/
theorem one_report_per_child {N : Type} (g : Graph N) (monitor : List MonitorPoll)
    (teardown : List TeardownPoll) (errReads : Nat) (c : String) :
    (∀ a ev b, (g.loop monitor teardown errReads).trace = a ++ ev :: b →
      ev.reportOf c = true → ∀ y ∈ b, y.pollOf c = false) ∧
    ((g.loop monitor teardown errReads).trace.filter (GraphEvent.reportOf c)).length ≤ 1 ∧
    (∀ r e, (g.loop monitor teardown errReads).report = some r →
      (GraphEvent.monitor c (.report e) ∈ (g.loop monitor teardown errReads).trace →
        r.nodeErrs.entry c = some e) ∧
      (GraphEvent.teardown c (.report e) ∈ (g.loop monitor teardown errReads).trace →
        r.nodeErrs.entry c = (recordTeardownErr [] c e).entry c)) := by
  have hpw := Graph.loop_pairwise g monitor teardown errReads c
  refine ⟨fun a ev b htr hr y hy => ?_, filter_reportOf_length c _ hpw, fun r e h => ?_⟩
  · rw [htr] at hpw
    exact (List.pairwise_cons.1 (List.pairwise_append.1 hpw).2.1).1 y hy hr
  · obtain ⟨hm, -, -, h3, -, -, -, hmon, htd, -⟩ := Graph.loop_report g _ teardown errReads r h
    have hml := (mainLoop_ended ⟨g.started, []⟩ monitor).2 hm
    simp only [Graph.tearingDown] at h3 htd
    simp only [Graph.monitoring] at hmon hm h3 htd
    rw [h3]
    constructor
    · intro hc
      rcases hml with ⟨-, -, hno⟩ | ⟨c1, err1, -, -, hv, pre, ht, hpre⟩
      · exact absurd ((hmon c _).1 hc) (hno c _)
      · have hmem := (hmon c _).1 hc
        rw [ht] at hmem
        simp only [List.mem_append, List.mem_singleton, GraphEvent.monitor.injEq,
          Picked.report.injEq] at hmem
        rcases hmem with hmem | ⟨rfl, rfl⟩
        · exact absurd hmem (hpre c _)
        · rw [hv, teardownLoop_entry_of_not_running _ c _ teardown
            (GoMap.not_mem_keys_remove _ _)]
          exact GoMap.entry_assign_self _ _ _
    · intro hc
      have hmem := (htd c _).1 hc
      rw [teardownLoop_entry_of_report _ c e _ teardown hmem]
      apply recordTeardownErr_entry_congr
      rcases hml with ⟨-, hv, -⟩ | ⟨c1, err1, -, -, hv, -⟩
      · rw [hv]
      · obtain ⟨c2, k2, he, hc2⟩ := teardownLoop_polls_running _ _ teardown _ hmem
        simp only [GraphEvent.teardown.injEq] at he
        obtain ⟨rfl, -⟩ := he
        rw [hv] at hc2 ⊢
        exact GoMap.entry_assign_ne _ _ _ _ ((GoMap.mem_keys_remove _ _ _).1 hc2).2

/-! ## A child that never reports -/

theorem GoMap.mem_keys_assign {V : Type} (m : GoMap V) (k c : String) (v : V) :
    c ∈ (m.assign k v).keys ↔ c = k ∨ c ∈ m.keys := by
  have h : (m.assign k v).keys = k :: (m.remove k).keys := rfl
  rw [h, List.mem_cons, GoMap.mem_keys_remove]
  by_cases hck : c = k <;> simp [hck]

theorem Graph.mem_started_keys {N : Type} (g : Graph N) (c : String) :
    c ∈ g.started.keys ↔ c ∈ g.nodes.keys := by
  have key : ∀ (l : List (String × N)) (m : GoMap N),
      c ∈ (l.foldl (fun r p => r.assign p.1 p.2) m).keys ↔ c ∈ GoMap.keys l ∨ c ∈ m.keys := by
    intro l
    induction l with
    | nil => intro m; simp [GoMap.keys]
    | cons x xs ih =>
      intro m
      rw [List.foldl_cons, ih, GoMap.mem_keys_assign]
      simp only [GoMap.keys, List.map_cons, List.mem_cons]
      tauto
  simpa [GoMap.keys] using key g.nodes []

/-- C28. A graph has the child `c`, and no `select` of a run ever receives a
value from the error channel of `c`, as is the case of a node whose step
callback is unset: its `Run` starts no goroutine.  When the run gets to
`g.sendErr(err)`, the teardown has ended with `TeardownTimedOut`, `c` is still
in `runningNodes`, and the value of the graph is a non-nil error with
`"[TearDown: teardown timed out]"` in its message, whatever was received from
the other children. -/
theorem silent_child_forces_timeout {N : Type} (g : Graph N) (monitor : List MonitorPoll)
    (teardown : List TeardownPoll) (errReads : Nat) (r : Report N) (c : String)
    (hc : c ∈ g.nodes.keys)
    (hsilent : ∀ ev ∈ (g.loop monitor teardown errReads).trace, ev.reportOf c = false)
    (h : (g.loop monitor teardown errReads).report = some r) :
    r.teardownErr = some .TeardownTimedOut ∧ c ∈ r.runningNodes.keys ∧
    (∃ a b, r.err = some (.New ("Graph " ++ g.name ++ " failed: " ++ a ++
      "[TearDown: teardown timed out]" ++ b))) ∧
    (∀ (σ T : Type) [Inhabited T] (n : TransformerNode σ T) (inChan : List (RecvSel T))
      (outChan : List SendSel) (reads : Nat) (s : σ),
      n.step = none → n.Run inChan outChan reads s = none) := by
  obtain ⟨hm, -, h2, -, h4, h5, -, hmon, htd, -⟩ := Graph.loop_report g _ teardown errReads r h
  have hml := (mainLoop_ended ⟨g.started, []⟩ monitor).2 hm
  simp only [Graph.tearingDown] at h2 h4 htd
  simp only [Graph.monitoring] at hmon hm h2 h4 htd
  have hc0 := (Graph.mem_started_keys g c).2 hc
  have hrun : c ∈ (mainLoop ⟨g.started, []⟩ monitor).vars.runningNodes.keys := by
    rcases hml with ⟨-, hv, -⟩ | ⟨c1, err1, -, -, hv, pre, ht, -⟩
    · rw [hv]
      exact hc0
    · rw [hv]
      refine (GoMap.mem_keys_remove _ _ _).2 ⟨hc0, ?_⟩
      rintro rfl
      have := hsilent _ ((hmon c (.report err1)).2 (by rw [ht]; simp))
      simp [GraphEvent.reportOf] at this
  have hno : ∀ err, GraphEvent.teardown c (.report err) ∉ (teardownLoop
      (g.teardownTimeoutForNNodes (mainLoop ⟨g.started, []⟩ monitor).vars.runningNodes.length)
      (mainLoop ⟨g.started, []⟩ monitor).vars teardown).trace := by
    intro err hmem
    have := hsilent _ ((htd c _).2 hmem)
    simp [GraphEvent.reportOf] at this
  have hleft := teardownLoop_unreported _ c _ teardown hrun hno
  have hte : r.teardownErr = some .TeardownTimedOut := by
    rcases (teardownLoop_ended
      (g.teardownTimeoutForNNodes (mainLoop ⟨g.started, []⟩ monitor).vars.runningNodes.length)
      (mainLoop ⟨g.started, []⟩ monitor).vars teardown).2 with ⟨-, hrn, -⟩ | ⟨he, -⟩
    · rw [hrn] at hleft
      simp [GoMap.keys] at hleft
    · exact h2.trans he
  refine ⟨hte, by rw [h4]; exact hleft, ?_, ?_⟩
  · rw [h5, hte]
    exact Graph.timedOut_message g _ _
  · intro σ T _ n inChan outChan reads s hstep
    simp [TransformerNode.Run, hstep]

/-! ## Colours -/

theorem clampFloat64ToUInt8_natCast (n : Nat) (h : n < 256) :
    clampFloat64ToUInt8 (n : ℚ) = n := by
  have h1 : min (n : ℚ) 255 = n := min_eq_left (by exact_mod_cast Nat.lt_succ_iff.1 h)
  have h2 : max 0 (n : ℚ) = n := max_eq_right (Nat.cast_nonneg n)
  rw [clampFloat64ToUInt8, h1, h2, Nat.floor_natCast, Nat.mod_eq_of_lt h]

set_option maxRecDepth 100000 in
theorem premultiplied_opaque : ∀ v < 256, (premultiplied v 255 >>> 8) % 256 = v := by
  decide

/-- C29. For every colour with channels `R`, `G`, `B` of eight bits and alpha
255, given as a `color.NRGBA` or as a `color.RGBA`, `colorFromScalar
(scalarFromColor(c))` is the `color.NRGBA` with the channels `(B, G, R, 255)`:
green and alpha are kept, red and blue change places, so the colour comes
back exactly when `R = B`. -/
theorem color_round_trip_swaps_red_blue (R G B : Nat) (hR : R < 256) (hG : G < 256)
    (hB : B < 256) :
    colorFromScalar (scalarFromColor (.nrgba ⟨R, G, B, 255⟩)) = ⟨B, G, R, 255⟩ ∧
    colorFromScalar (scalarFromColor (.rgba ⟨R, G, B, 255⟩)) = ⟨B, G, R, 255⟩ ∧
    (colorFromScalar (scalarFromColor (.nrgba ⟨R, G, B, 255⟩)) = ⟨R, G, B, 255⟩ ↔ R = B) := by
  have hn : colorFromScalar (scalarFromColor (.nrgba ⟨R, G, B, 255⟩)) = ⟨B, G, R, 255⟩ := by
    have hA : (((255 ||| (255 <<< 8)) % 2 ^ 32) >>> 8) % 256 = 255 := by decide
    simp only [colorFromScalar, scalarFromColor, RGBAModel.Convert, NRGBA.RGBA,
      premultiplied_opaque R hR, premultiplied_opaque G hG, premultiplied_opaque B hB, hA,
      clampFloat64ToUInt8_natCast R hR, clampFloat64ToUInt8_natCast G hG,
      clampFloat64ToUInt8_natCast B hB, clampFloat64ToUInt8_natCast 255 (by decide)]
  refine ⟨hn, ?_, ?_⟩
  · simp only [colorFromScalar, scalarFromColor, RGBAModel.Convert,
      clampFloat64ToUInt8_natCast R hR, clampFloat64ToUInt8_natCast G hG,
      clampFloat64ToUInt8_natCast B hB, clampFloat64ToUInt8_natCast 255 (by decide)]
  · rw [hn]
    constructor
    · intro h
      exact (congrArg NRGBA.B h)
    · rintro rfl
      rfl

/-- Witness for C29: the round trip of the opaque colour `(10, 20, 30)` is
`(30, 20, 10)`. -/
theorem color_round_trip_swaps_red_blue_witness :
    colorFromScalar (scalarFromColor (.nrgba ⟨10, 20, 30, 255⟩)) = ⟨30, 20, 10, 255⟩ :=
  (color_round_trip_swaps_red_blue 10 20 30 (by decide) (by decide) (by decide)).1

/-- Witness for C28: of the two children of the graph, `"camera"` reports an
error in the monitoring phase and `"screen"` never reports; the teardown
times out. -/
theorem silent_child_forces_timeout_witness :
    ∃ r, (twoNodeGraph.loop [⟨0, false, some (some (.New "camera unplugged")), false⟩] [] 1).report
        = some r ∧
      r.teardownErr = some .TeardownTimedOut ∧ "screen" ∈ r.runningNodes.keys := by
  obtain ⟨r, hr⟩ := Graph.loop_report_of_returned twoNodeGraph
    [⟨0, false, some (some (.New "camera unplugged")), false⟩] [] 1 (by decide)
  obtain ⟨h1, h2, -⟩ := silent_child_forces_timeout twoNodeGraph
    [⟨0, false, some (some (.New "camera unplugged")), false⟩] [] 1 r "screen"
    (by decide) (by decide) hr
  exact ⟨r, hr, h1, h2⟩

end Webcamfx
